import Mathlib

/-!
Verification of the easyswap orderbook backend (`usdcbsv_orderbook_backend`).

The Rust source is shallowly embedded: `u64`/`u128` values become `Nat`
(with explicit wrap-around only where the source can overflow, which the
modelled paths cannot), `f64` USD amounts and prices become exact
rationals (`Rat`; the source's `as u64` / `as u128` casts on positive
values truncate toward zero and are modelled by `Rat.floor`), byte
buffers become `List Nat` (each element `< 256`), and fallible Rust
functions return `Except` with one error constructor per distinct
source error message.  Canister state mutated through `thread_local`
storage is passed explicitly; inter-canister calls to the ICRC-1 ledger
are modelled from the spec's description of that external interface.
-/

namespace EasySwap

/-! ## Byte and hex utilities -/

/-- One byte, kept as a `Nat` (callers maintain `< 256`). -/
abbrev Byte := Nat

/-- Hex digit value of a character, if it is a hex digit
(mirrors the `hex` crate's accepted alphabet). -/
def hexDigitVal (c : Char) : Option Nat :=
  if '0' ≤ c ∧ c ≤ '9' then some (c.toNat - '0'.toNat)
  else if 'a' ≤ c ∧ c ≤ 'f' then some (c.toNat - 'a'.toNat + 10)
  else if 'A' ≤ c ∧ c ≤ 'F' then some (c.toNat - 'A'.toNat + 10)
  else none

/-- Decode a list of hex characters into bytes; fails on an odd number of
digits or a non-hex character, as the Rust `hex::decode` does. -/
def hexDecodeChars : List Char → Option (List Byte)
  | [] => some []
  | [_] => none
  | c1 :: c2 :: rest => do
    let h ← hexDigitVal c1
    let l ← hexDigitVal c2
    let tail ← hexDecodeChars rest
    pure ((h * 16 + l) :: tail)

/-- `hex::decode` on a string. -/
def hexDecode (s : String) : Option (List Byte) :=
  hexDecodeChars s.data

/-- Lower-case hex digit for a value `< 16`. -/
def hexDigitChar (n : Nat) : Char :=
  if n < 10 then Char.ofNat ('0'.toNat + n)
  else Char.ofNat ('a'.toNat + (n - 10))

/-- `hex::encode`: lower-case hex string of a byte list. -/
def hexEncode (bs : List Byte) : String :=
  String.mk (bs.flatMap (fun b => [hexDigitChar (b / 16), hexDigitChar (b % 16)]))

/-! ## SHA-256

A direct executable implementation (FIPS 180-4) over byte lists, used by
the embedded code wherever the source calls `sha2::Sha256`.  All word
arithmetic is `Nat` reduced mod `2^32`. -/

/-- 32-bit right-rotation. -/
def rotr32 (n x : Nat) : Nat :=
  ((x >>> n) ||| (x <<< (32 - n))) % 4294967296

/-- The 64 SHA-256 round constants. -/
def shaK : List Nat :=
  [1116352408, 1899447441, 3049323471, 3921009573, 961987163,
   1508970993, 2453635748, 2870763221, 3624381080, 310598401,
   607225278, 1426881987, 1925078388, 2162078206, 2614888103,
   3248222580, 3835390401, 4022224774, 264347078, 604807628,
   770255983, 1249150122, 1555081692, 1996064986, 2554220882,
   2821834349, 2952996808, 3210313671, 3336571891, 3584528711,
   113926993, 338241895, 666307205, 773529912, 1294757372,
   1396182291, 1695183700, 1986661051, 2177026350, 2456956037,
   2730485921, 2820302411, 3259730800, 3345764771, 3516065817,
   3600352804, 4094571909, 275423344, 430227734, 506948616,
   659060556, 883997877, 958139571, 1322822218, 1537002063,
   1747873779, 1955562222, 2024104815, 2227730452, 2361852424,
   2428436474, 2756734187, 3204031479, 3329325298]

/-- Initial SHA-256 hash state. -/
def shaH0 : List Nat :=
  [1779033703, 3144134277, 1013904242, 2773480762,
   1359893119, 2600822924, 528734635, 1541459225]

/-- SHA-256 message padding: append `0x80`, zero bytes to 56 mod 64,
then the 64-bit big-endian bit length. -/
def shaPad (msg : List Byte) : List Byte :=
  let len := msg.length
  let padZeros := (64 + 56 - (len + 1) % 64) % 64
  let bitLen := len * 8
  msg ++ [0x80] ++ List.replicate padZeros 0 ++
    [(bitLen >>> 56) % 256, (bitLen >>> 48) % 256, (bitLen >>> 40) % 256,
     (bitLen >>> 32) % 256, (bitLen >>> 24) % 256, (bitLen >>> 16) % 256,
     (bitLen >>> 8) % 256, bitLen % 256]

/-- Split a byte list into 64-byte blocks (fuel-indexed so that the kernel
can evaluate it; call with `fuel = l.length`). -/
def toBlocks64 : Nat → List Byte → List (List Byte)
  | 0, _ => []
  | _, [] => []
  | fuel + 1, l => l.take 64 :: toBlocks64 fuel (l.drop 64)

/-- Big-endian 32-bit words of a 64-byte block. -/
def blockWords (block : List Byte) : List Nat :=
  (List.range 16).map (fun i =>
    block.getD (4 * i) 0 * 16777216 + block.getD (4 * i + 1) 0 * 65536 +
    block.getD (4 * i + 2) 0 * 256 + block.getD (4 * i + 3) 0)

/-- Extend 16 words to the 64-word SHA-256 message schedule. -/
def shaSchedule (ws : List Nat) : List Nat :=
  (List.range 48).foldl
    (fun acc i =>
      let w15 := acc.getD (i + 1) 0
      let w2 := acc.getD (i + 14) 0
      let s0 := (rotr32 7 w15) ^^^ (rotr32 18 w15) ^^^ (w15 >>> 3)
      let s1 := (rotr32 17 w2) ^^^ (rotr32 19 w2) ^^^ (w2 >>> 10)
      acc ++ [(acc.getD i 0 + s0 + acc.getD (i + 9) 0 + s1) % 4294967296])
    ws

/-- One SHA-256 compression round. -/
def shaRound (st : List Nat) (kw : Nat × Nat) : List Nat :=
  match st with
  | [a, b, c, d, e, f, g, h] =>
    let s1 := (rotr32 6 e) ^^^ (rotr32 11 e) ^^^ (rotr32 25 e)
    let ch := (e &&& f) ^^^ ((4294967295 - e) &&& g)
    let t1 := (h + s1 + ch + kw.1 + kw.2) % 4294967296
    let s0 := (rotr32 2 a) ^^^ (rotr32 13 a) ^^^ (rotr32 22 a)
    let mj := (a &&& b) ^^^ (a &&& c) ^^^ (b &&& c)
    let t2 := (s0 + mj) % 4294967296
    [(t1 + t2) % 4294967296, a, b, c, (d + t1) % 4294967296, e, f, g]
  | other => other

/-- Compress one 64-byte block into the running hash state. -/
def shaCompress (st : List Nat) (block : List Byte) : List Nat :=
  let ws := shaSchedule (blockWords block)
  let out := (shaK.zip ws).foldl shaRound st
  (st.zip out).map (fun p => (p.1 + p.2) % 4294967296)

/-- SHA-256 digest of a byte list, as 32 bytes. -/
def sha256 (msg : List Byte) : List Byte :=
  let padded := shaPad msg
  let final := (toBlocks64 padded.length padded).foldl shaCompress shaH0
  final.flatMap (fun w => [(w >>> 24) % 256, (w >>> 16) % 256, (w >>> 8) % 256, w % 256])

/-- `double_sha256` from `bump_verification.rs`: SHA-256 applied twice. -/
def double_sha256 (data : List Byte) : List Byte :=
  sha256 (sha256 data)

/-! ## Base58 (the `bs58` crate's Bitcoin alphabet) -/

/-- The Bitcoin base58 alphabet. -/
def base58Alphabet : List Char :=
  "123456789ABCDEFGHJKLMNPQRSTUVWXYZabcdefghijkmnopqrstuvwxyz".data

/-- Index of a character in a character list. -/
def charIndexIn (c : Char) : List Char → Option Nat
  | [] => none
  | x :: rest =>
    if x == c then some 0 else (charIndexIn c rest).map (· + 1)

/-- Index of a character in the base58 alphabet. -/
def base58Val (c : Char) : Option Nat :=
  charIndexIn c base58Alphabet

/-- Base-58 digits (most significant first) of a `Nat`; fuel-indexed. -/
def natToBase58Digits : Nat → Nat → List Nat
  | 0, _ => []
  | _, 0 => []
  | fuel + 1, n => natToBase58Digits fuel (n / 58) ++ [n % 58]

/-- Big-endian bytes of a `Nat` (empty for zero); fuel-indexed. -/
def natToBytesBE : Nat → Nat → List Byte
  | 0, _ => []
  | _, 0 => []
  | fuel + 1, n => natToBytesBE fuel (n / 256) ++ [n % 256]

/-- Byte list interpreted as a big-endian `Nat`. -/
def bytesToNatBE (bs : List Byte) : Nat :=
  bs.foldl (fun acc b => acc * 256 + b) 0

/-- `bs58::encode`: leading zero bytes become `'1'` characters, the rest is
the big-endian base-58 expansion. -/
def base58Encode (bs : List Byte) : String :=
  let zeros := (bs.takeWhile (fun b => b == 0)).length
  let n := bytesToNatBE bs
  let digits := natToBase58Digits (bs.length * 2 + 1) n
  String.mk (List.replicate zeros '1' ++ digits.map (fun d => base58Alphabet.getD d '1'))

/-- `bs58::decode … into_vec()`: fails on a character outside the alphabet;
leading `'1'` characters become zero bytes. -/
def base58Decode (s : String) : Option (List Byte) := do
  let vals ← s.data.mapM base58Val
  let zeros := (vals.takeWhile (fun v => v == 0)).length
  let n := vals.foldl (fun acc v => acc * 58 + v) 0
  pure (List.replicate zeros 0 ++ natToBytesBE (s.length * 2 + 1) n)

/-! ## ASCII string helpers (Rust `str::trim`, `to_lowercase`, `contains`)

The addresses handled by the source are ASCII, so trimming and
lower-casing are modelled on the ASCII range. -/

/-- ASCII whitespace test (covers the whitespace the source can meet). -/
def isSpaceChar (c : Char) : Bool :=
  c == ' ' || c == '\t' || c == '\n' || c == '\r'

/-- Rust `str::trim` (ASCII whitespace). -/
def strTrim (s : String) : String :=
  String.mk (((s.data.dropWhile isSpaceChar).reverse.dropWhile isSpaceChar).reverse)

/-- Rust `str::to_lowercase` on ASCII data. -/
def strLower (s : String) : String :=
  String.mk (s.data.map (fun c =>
    if 'A' ≤ c ∧ c ≤ 'Z' then Char.ofNat (c.toNat + 32) else c))

/-- Whether `pat` occurs at the head of `l`. -/
def listStartsWith : List Char → List Char → Bool
  | _, [] => true
  | [], _ :: _ => false
  | x :: xs, y :: ys => x == y && listStartsWith xs ys

/-- Whether `pat` occurs as a contiguous sublist of `l`. -/
def listHasSub (l pat : List Char) : Bool :=
  match l with
  | [] => pat.isEmpty
  | _ :: rest => listStartsWith l pat || listHasSub rest pat

/-- Rust `str::contains` for a string pattern. -/
def strHasSub (s pat : String) : Bool :=
  listHasSub s.data pat.data

/-! ## Numeric casts

`f64` amounts are modelled as exact rationals; Rust's `as u64` / `as u128`
on a nonnegative finite `f64` truncates toward zero, which on the modelled
values is the floor. -/

/-- Floor of a rational as an integer (`Int.fdiv` is floor division). -/
def ratFloor (q : ℚ) : ℤ :=
  Int.fdiv q.num q.den

/-- Rust `as u64` / `as u128` on an `f64` value: negative values clamp to
zero, nonnegative values truncate. -/
def ratTruncToNat (q : ℚ) : ℕ :=
  if q ≤ 0 then 0 else (ratFloor q).toNat

/-! ## Configuration constants (`config.rs`) -/

def MIN_CHUNK_SIZE : ℚ := 3
def MAX_CHUNKS_ALLOWED : ℕ := 30
def MAX_ORDERBOOK_USD_LIMIT : ℚ := 2000
def CONFIRMATION_DEPTH : ℕ := 18
def MAX_MAKER_TOTAL_ORDERS_USD : ℚ := 270
def SATOSHIS_PER_BSV : ℕ := 100000000
def MAKER_FEE_PERCENT : ℕ := 700
def ACTIVATION_FEE_PERCENT : ℕ := 250
def FILLER_INCENTIVE_PERCENT : ℕ := 450
def SECURITY_DEPOSIT_PERCENT : ℕ := 10
def MAX_LOCK_MULTIPLIER : ℕ := 10
def TRADE_TIMEOUT_NS : ℕ := 45 * 60 * 1000000000
def USDC_RELEASE_WAIT_NS : ℕ := 3 * 60 * 60 * 1000000000
def RESUBMISSION_PENALTY_PERCENT : ℚ := 2
def RESUBMISSION_WINDOW_NS : ℕ := 2 * 60 * 60 * 1000000000
def TRADE_CLAIM_EXPIRY_NS : ℕ := 24 * 60 * 60 * 1000000000
def CKUSDC_TRANSFER_FEE : ℕ := 10000
def MIN_CYCLES_FOR_NEW_ORDERS : ℕ := 500000000000
def PRICE_CACHE_DURATION_NS : ℕ := 5 * 60 * 1000000000

/-! ## Entity types (`types.rs`) -/

/-- An IC principal, as its raw bytes. -/
abbrev Principal := List Byte

/-- `Principal::anonymous()` (the one-byte principal `0x04`). -/
def anonymousPrincipal : Principal := [4]

/-- The canister's own principal (`ic_cdk::api::id()`), fixed for a
running instance; the model pins an arbitrary concrete value. -/
def canisterSelf : Principal := [170, 1]

/-- Textual rendering of a principal (opaque; only used inside stored
strings, never compared structurally by the modelled code). -/
def principalText (p : Principal) : String := hexEncode p

inductive OrderStatus where
  | Active
  | Idle
  | PartiallyFilled
  | Filled
  | Cancelled
  | Refunded
deriving DecidableEq, Repr

inductive ChunkStatus where
  | Available
  | Locked
  | Filled
  | Idle
  | Refunding
  | Refunded
deriving DecidableEq, Repr

inductive TradeStatus where
  | ChunksLocked
  | TxSubmitted
  | ReadyForRelease
  | WithdrawalConfirmed
  | Cancelled
  | PenaltyApplied
deriving DecidableEq, Repr

structure Order where
  id : ℕ
  maker : Principal
  amount_usd : ℚ
  total_deposited_usd : Option ℚ
  activation_fee_usd : Option ℚ
  filler_incentive_reserved : Option ℚ
  deposit_principal : String
  deposit_subaccount : String
  max_bsv_price : ℚ
  bsv_address : String
  status : OrderStatus
  chunks : List ℕ
  created_at : ℕ
  total_filled_usd : ℚ
  total_locked_usd : ℚ
  total_idle_usd : ℚ
  total_refunded_usd : Option ℚ
deriving DecidableEq, Repr

structure Chunk where
  id : ℕ
  order_id : ℕ
  amount_usd : ℚ
  status : ChunkStatus
  locked_by : Option ℕ
  filled_at : Option ℕ
  bsv_address : String
  sats_amount : Option ℕ
  max_bsv_price : ℚ
deriving DecidableEq, Repr

structure LockedChunk where
  chunk_id : ℕ
  order_id : ℕ
  amount_usd : ℚ
  bsv_address : String
  sats_amount : ℕ
deriving DecidableEq, Repr

structure Trade where
  id : ℕ
  order_id : ℕ
  filler : Principal
  amount_usd : ℚ
  locked_chunks : List LockedChunk
  agreed_bsv_price : ℚ
  min_bsv_price : ℚ
  status : TradeStatus
  bsv_tx_hex : Option String
  created_at : ℕ
  tx_submitted_at : Option ℕ
  lock_expires_at : ℕ
  release_available_at : Option ℕ
  claim_expires_at : Option ℕ
  withdrawal_initiated_at : Option ℕ
  withdrawal_tx_hash : Option String
  withdrawal_confirmed_at : Option ℕ
deriving DecidableEq, Repr

structure FillerAccount where
  id : Principal
  pending_trades_total : ℚ
  total_trades : ℕ
  successful_trades : ℕ
  penalties_paid : ℚ
  created_at : ℕ
deriving DecidableEq, Repr

structure BsvOutput where
  address : String
  satoshis : ℕ
deriving DecidableEq, Repr

structure BsvInput where
  prev_tx_hash : List Byte
  prev_output_index : ℕ
  script_sig : List Byte
  sequence : ℕ
deriving DecidableEq, Repr

structure ParsedBsvTx where
  version : ℕ
  inputs : List BsvInput
  outputs : List BsvOutput
  locktime : ℕ
deriving DecidableEq, Repr

structure BlockHeader where
  height : ℕ
  hash : String
  previous_hash : String
  merkle_root : String
  timestamp : ℕ
  bits : ℕ
  nonce : ℕ
  version : ℤ
  raw_header : String
deriving DecidableEq, Repr

structure BumpNode where
  offset : ℕ
  hash : String
  txid : Option Bool
  duplicate : Option Bool
deriving DecidableEq, Repr

structure BumpProof where
  block_height : ℕ
  path : List (List BumpNode)
deriving DecidableEq, Repr

structure TxVerification where
  verified : Bool
  block_height : ℕ
  block_hash : String
  confirmations : ℕ
deriving DecidableEq, Repr

/-! ## Error type

One constructor per distinct error message produced by the embedded
source paths (the source returns `Err(String)`; the structured constructor
records which message site fired and the data interpolated into it). -/

set_option maxHeartbeats 1600000 in
inductive Err where
  /-- "Anonymous principal cannot …. Please authenticate first." -/
  | anonymousCaller
  | tradeNotFound
  | orderNotFound
  | chunkNotFound
  | fillerAccountNotFound
  /-- "Only the trade filler can submit transaction" -/
  | onlyFillerCanSubmit
  /-- "Only the trade filler can resubmit transaction" -/
  | onlyFillerCanResubmit
  /-- "Trade is not in ChunksLocked status" -/
  | notChunksLocked
  /-- "Trade is not in TxSubmitted status. Cannot resubmit." -/
  | notTxSubmitted
  /-- "Trade lock has expired. …" -/
  | lockExpired
  /-- "Invalid hex in transaction: …" (`compute_bsv_txid`) and
  "Failed to decode hex: …" (`parse_bsv_transaction`) -/
  | invalidTxHex
  /-- "This transaction has already been used in trade #{id}. …" -/
  | duplicateTx (other_trade_id : ℕ)
  /-- "Transaction submission time not found" -/
  | submissionTimeNotFound
  /-- "Resubmission window expired. …" -/
  | resubmissionWindowExpired
  /-- "Insufficient available security balance. …" -/
  | insufficientAvailableSecurity
  /-- "Transaction too short" -/
  | txTooShort
  /-- "Unexpected end of data" (and the u32/u64/varint variants) -/
  | endOfData
  | endOfDataU32
  | endOfDataU64
  | endOfDataVarint
  /-- "Empty script" -/
  | emptyScript
  /-- "Transaction has {n} outputs but {k} were expected" -/
  | outputCountMismatch (got expected : ℕ)
  /-- "Output {i} amount mismatch. …" -/
  | outputAmountMismatch (i : ℕ)
  /-- "Output {i} address mismatch. …" -/
  | outputAddressMismatch (i : ℕ)
  /-- ICRC-1 `InsufficientFunds` transfer error (external ledger). -/
  | ledgerInsufficientFunds
  /-- "Amount too small to cover transfer fee" -/
  | amountTooSmallForFee
  /-- "Activation fee too small to cover transfer fee" -/
  | activationFeeTooSmall
  /-- "BSV price data is stale or unavailable" -/
  | priceStale
  /-- "New order creation is disabled …" -/
  | newOrdersDisabled
  /-- "Insufficient canister cycles. …" -/
  | insufficientCycles
  /-- "Amount must be greater than zero" -/
  | amountNotPositive
  /-- "Amount must be a multiple of $…" -/
  | amountNotMultiple
  /-- "Amount cannot exceed $… (max … chunks of $…)" -/
  | amountTooLarge
  /-- "Invalid BSV mainnet address" -/
  | invalidBsvAddress
  /-- "Max BSV price must be positive" -/
  | maxPriceNotPositive
  /-- "Orderbook limit exceeded. …" -/
  | orderbookLimitExceeded
  /-- "Maker order limit exceeded. …" -/
  | makerLimitExceeded
  /-- "Order #… created but not activated. Transfer succeeded but balance
  still insufficient: …" -/
  | orderNotActivatedStillInsufficient (order_id : ℕ)
  /-- "Order #… created but not activated. Insufficient balance in order
  subaccount … and transfer from user account failed: …" -/
  | orderNotActivatedTransferFailed (order_id : ℕ)
  /-- "Order #… created but not activated. Insufficient funds. …" -/
  | orderNotActivatedInsufficientFunds (order_id : ℕ)
  /-- "Chunk {id} is not available for locking" -/
  | chunkNotAvailableForLocking (chunk_id : ℕ)
  /-- "Invalid txid: must be 64 hex characters (32 bytes)" -/
  | invalidTxidLength
  /-- "Invalid txid: must be valid hex string" -/
  | invalidTxidChars
  /-- "BUMP proof too large (max 10000 hex chars)" -/
  | bumpTooLarge
  /-- "Invalid BUMP hex: …" -/
  | invalidBumpHex
  /-- "Invalid BUMP: insufficient data for tree height" -/
  | bumpNoTreeHeight
  /-- "Invalid BUMP: insufficient data for flags at level … leaf …" -/
  | bumpNoFlags (level leaf : ℕ)
  /-- "Invalid BUMP: insufficient data for hash at level … leaf …" -/
  | bumpNoHash (level leaf : ℕ)
  /-- "Insufficient data for varint" (all three BUMP varint variants) -/
  | bumpVarint
  /-- "Block at height … not found in our storage" -/
  | blockNotFoundAtHeight (height : ℕ)
  /-- "Empty BUMP path" -/
  | emptyBumpPath
  /-- "No transaction node found in BUMP level 0" -/
  | noTxNodeInLevel0
  /-- "Invalid txid hex: …" -/
  | invalidTxidHexInMerkle
  /-- "Invalid sibling hash hex at level …: …" -/
  | invalidSiblingHashHex (level : ℕ)
  /-- "Merkle root mismatch! Computed: …, Block: …" -/
  | merkleRootMismatch (computed block : String)
  /-- "Block height is ahead of our chain tip" -/
  | blockAheadOfTip
deriving Repr

/-- Injective encoding of `Err` (constructor tag, numeric payloads and
string payloads), giving equality its decision procedure through the
product instances: the auto-derived one is a single matcher with a
quadratic number of alternatives, too deep for tooling to traverse. -/
def Err.enc : Err → ℕ × ℕ × ℕ × String × String
  | .anonymousCaller => (0, 0, 0, "", "")
  | .tradeNotFound => (1, 0, 0, "", "")
  | .orderNotFound => (2, 0, 0, "", "")
  | .chunkNotFound => (3, 0, 0, "", "")
  | .fillerAccountNotFound => (4, 0, 0, "", "")
  | .onlyFillerCanSubmit => (5, 0, 0, "", "")
  | .onlyFillerCanResubmit => (6, 0, 0, "", "")
  | .notChunksLocked => (7, 0, 0, "", "")
  | .notTxSubmitted => (8, 0, 0, "", "")
  | .lockExpired => (9, 0, 0, "", "")
  | .invalidTxHex => (10, 0, 0, "", "")
  | .duplicateTx n => (11, n, 0, "", "")
  | .submissionTimeNotFound => (12, 0, 0, "", "")
  | .resubmissionWindowExpired => (13, 0, 0, "", "")
  | .insufficientAvailableSecurity => (14, 0, 0, "", "")
  | .txTooShort => (15, 0, 0, "", "")
  | .endOfData => (16, 0, 0, "", "")
  | .endOfDataU32 => (17, 0, 0, "", "")
  | .endOfDataU64 => (18, 0, 0, "", "")
  | .endOfDataVarint => (19, 0, 0, "", "")
  | .emptyScript => (20, 0, 0, "", "")
  | .outputCountMismatch g e => (21, g, e, "", "")
  | .outputAmountMismatch i => (22, i, 0, "", "")
  | .outputAddressMismatch i => (23, i, 0, "", "")
  | .ledgerInsufficientFunds => (24, 0, 0, "", "")
  | .amountTooSmallForFee => (25, 0, 0, "", "")
  | .activationFeeTooSmall => (26, 0, 0, "", "")
  | .priceStale => (27, 0, 0, "", "")
  | .newOrdersDisabled => (28, 0, 0, "", "")
  | .insufficientCycles => (29, 0, 0, "", "")
  | .amountNotPositive => (30, 0, 0, "", "")
  | .amountNotMultiple => (31, 0, 0, "", "")
  | .amountTooLarge => (32, 0, 0, "", "")
  | .invalidBsvAddress => (33, 0, 0, "", "")
  | .maxPriceNotPositive => (34, 0, 0, "", "")
  | .orderbookLimitExceeded => (35, 0, 0, "", "")
  | .makerLimitExceeded => (36, 0, 0, "", "")
  | .orderNotActivatedStillInsufficient n => (37, n, 0, "", "")
  | .orderNotActivatedTransferFailed n => (38, n, 0, "", "")
  | .orderNotActivatedInsufficientFunds n => (39, n, 0, "", "")
  | .chunkNotAvailableForLocking n => (40, n, 0, "", "")
  | .invalidTxidLength => (41, 0, 0, "", "")
  | .invalidTxidChars => (42, 0, 0, "", "")
  | .bumpTooLarge => (43, 0, 0, "", "")
  | .invalidBumpHex => (44, 0, 0, "", "")
  | .bumpNoTreeHeight => (45, 0, 0, "", "")
  | .bumpNoFlags level leaf => (46, level, leaf, "", "")
  | .bumpNoHash level leaf => (47, level, leaf, "", "")
  | .bumpVarint => (48, 0, 0, "", "")
  | .blockNotFoundAtHeight h => (49, h, 0, "", "")
  | .emptyBumpPath => (50, 0, 0, "", "")
  | .noTxNodeInLevel0 => (51, 0, 0, "", "")
  | .invalidTxidHexInMerkle => (52, 0, 0, "", "")
  | .invalidSiblingHashHex level => (53, level, 0, "", "")
  | .merkleRootMismatch c b => (54, 0, 0, c, b)
  | .blockAheadOfTip => (55, 0, 0, "", "")

set_option maxHeartbeats 3200000 in
instance : DecidableEq Err := fun a b =>
  decidable_of_iff (Err.enc a = Err.enc b)
    ⟨fun h => by cases a <;> cases b <;> simp_all [Err.enc],
     fun h => h ▸ rfl⟩

/-! ## Canister state (`state.rs`) and the external ledger -/

/-- ICRC-1 account: owner principal plus optional 32-byte subaccount. -/
structure Account where
  owner : Principal
  sub : Option (List Byte)
deriving DecidableEq, Repr

/-- Modelled from the spec: the external stablecoin ledger is a balance
per account, in 6-decimal base units. -/
abbrev Ledger := List (Account × ℕ)

def balance_of (led : Ledger) (a : Account) : ℕ :=
  match led.find? (fun p => p.1 == a) with
  | some p => p.2
  | none => 0

/-- Store a balance for an account (overwrite the existing entry, or
append a fresh one). -/
def ledgerSet : Ledger → Account → ℕ → Ledger
  | [], a, v => [(a, v)]
  | p :: rest, a, v => if p.1 == a then (a, v) :: rest else p :: ledgerSet rest a v

/-- Modelled from the spec: ICRC-1 `transfer` debits the sender by
`amount + fee` and credits the recipient by `amount`; it fails with
`InsufficientFunds` when the sender's balance cannot cover both. -/
def icrc1_transfer (led : Ledger) (fromAcc toAcc : Account) (amount fee : ℕ) :
    Except Err Ledger :=
  let bal := balance_of led fromAcc
  if bal < amount + fee then
    .error .ledgerInsufficientFunds
  else
    let led1 := ledgerSet led fromAcc (bal - (amount + fee))
    .ok (ledgerSet led1 toAcc (balance_of led1 toAcc + amount))

/-- The mutable fields of `AppState` used by the embedded operations. -/
structure AppState where
  next_order_id : ℕ
  next_chunk_id : ℕ
  next_trade_id : ℕ
  cached_bsv_price : ℚ
  last_price_update : ℕ
  new_orders_enabled : Bool
deriving DecidableEq, Repr

/-- The canister's entity stores (`thread_local` stable maps), as lists
keyed by each entity's `id` field. -/
structure St where
  orders : List Order
  chunks : List Chunk
  trades : List Trade
  filler_accounts : List FillerAccount
  used_bsv_txids : List (String × ℕ)
  app : AppState
deriving DecidableEq, Repr

/-- Canister state plus the external ledger it talks to. -/
structure Sys where
  st : St
  ledger : Ledger
deriving DecidableEq, Repr

def get_order (st : St) (order_id : ℕ) : Option Order :=
  st.orders.find? (fun o => o.id == order_id)

def get_chunk (st : St) (chunk_id : ℕ) : Option Chunk :=
  st.chunks.find? (fun c => c.id == chunk_id)

def get_trade (st : St) (trade_id : ℕ) : Option Trade :=
  st.trades.find? (fun t => t.id == trade_id)

def get_filler_account (st : St) (p : Principal) : Option FillerAccount :=
  st.filler_accounts.find? (fun a => a.id == p)

def update_order (st : St) (order_id : ℕ) (f : Order → Order) : Except Err St :=
  if (get_order st order_id).isSome then
    .ok { st with orders := st.orders.map (fun o => if o.id == order_id then f o else o) }
  else .error .orderNotFound

def update_chunk (st : St) (chunk_id : ℕ) (f : Chunk → Chunk) : Except Err St :=
  if (get_chunk st chunk_id).isSome then
    .ok { st with chunks := st.chunks.map (fun c => if c.id == chunk_id then f c else c) }
  else .error .chunkNotFound

def update_trade (st : St) (trade_id : ℕ) (f : Trade → Trade) : Except Err St :=
  if (get_trade st trade_id).isSome then
    .ok { st with trades := st.trades.map (fun t => if t.id == trade_id then f t else t) }
  else .error .tradeNotFound

def update_filler_account (st : St) (p : Principal) (f : FillerAccount → FillerAccount) :
    Except Err St :=
  if (get_filler_account st p).isSome then
    .ok { st with filler_accounts :=
      st.filler_accounts.map (fun a => if a.id == p then f a else a) }
  else .error .fillerAccountNotFound

/-- `get_available_chunks`: all chunks in state `Available`. -/
def get_available_chunks (st : St) : List Chunk :=
  st.chunks.filter (fun c => c.status == ChunkStatus.Available)

/-- `get_available_orderbook`: derived sum of `Available` chunk amounts. -/
def get_available_orderbook (st : St) : ℚ :=
  ((get_available_chunks st).map (fun c => c.amount_usd)).sum

/-- Stable insertion sort by a `ℕ` key (models `sort_by_key`, which is a
stable sort). -/
def insertSorted (key : α → ℕ) (x : α) : List α → List α
  | [] => [x]
  | y :: ys => if key x < key y then x :: y :: ys else y :: insertSorted key x ys

def sortByKey (key : α → ℕ) : List α → List α
  | [] => []
  | x :: xs => insertSorted key x (sortByKey key xs)

/-- `get_active_orders_fifo`: Active/PartiallyFilled orders sorted by
creation time, oldest first. -/
def get_active_orders_fifo (st : St) : List Order :=
  sortByKey (fun o => o.created_at)
    (st.orders.filter (fun o =>
      o.status == OrderStatus.Active || o.status == OrderStatus.PartiallyFilled))

/-- `compute_bsv_txid` (`state.rs`): hex-decode, double SHA-256, reverse,
hex-encode. -/
def compute_bsv_txid (raw_tx_hex : String) : Except Err String :=
  match hexDecode raw_tx_hex with
  | none => .error .invalidTxHex
  | some tx_bytes =>
    .ok (hexEncode (sha256 (sha256 tx_bytes)).reverse)

/-- `get_trade_using_tx`: which trade id has used this txid. -/
def get_trade_using_tx (st : St) (txid : String) : Option ℕ :=
  (st.used_bsv_txids.find? (fun p => p.1 == txid)).map (fun p => p.2)

/-- Association-list insert with key overwrite (models the ordered-map
`insert` of the used-txid store). -/
def assocSet : List (String × ℕ) → String → ℕ → List (String × ℕ)
  | [], k, v => [(k, v)]
  | p :: rest, k, v => if p.1 == k then (k, v) :: rest else p :: assocSet rest k v

/-- Association-list remove (models the ordered-map `remove`). -/
def assocRemove : List (String × ℕ) → String → List (String × ℕ)
  | [], _ => []
  | p :: rest, k => if p.1 == k then rest else p :: assocRemove rest k

/-- `mark_bsv_tx_used` (map insert, overwriting an existing key). -/
def mark_bsv_tx_used (st : St) (txid : String) (trade_id : ℕ) : St :=
  { st with used_bsv_txids := assocSet st.used_bsv_txids txid trade_id }

/-- `unmark_bsv_tx` (map remove). -/
def unmark_bsv_tx (st : St) (txid : String) : St :=
  { st with used_bsv_txids := assocRemove st.used_bsv_txids txid }

/-- `calculate_pending_trades_for_filler`: sum of amounts of this filler's
trades in non-final states. -/
def calculate_pending_trades_for_filler (st : St) (filler : Principal) : ℚ :=
  ((st.trades.filter (fun t =>
    t.filler == filler &&
    (t.status == TradeStatus.ChunksLocked || t.status == TradeStatus.TxSubmitted ||
     t.status == TradeStatus.ReadyForRelease))).map (fun t => t.amount_usd)).sum

/-! ## Price oracle helpers (`price_oracle.rs`) -/

/-- `price_exceeds_max`: stale or nonpositive cached price is an error,
otherwise whether the cached price exceeds the given maximum. -/
def price_exceeds_max (st : St) (now : ℕ) (max_bsv_price : ℚ) : Except Err Bool :=
  let cached_price := st.app.cached_bsv_price
  let last_update := st.app.last_price_update
  if cached_price ≤ 0 ∨ now - last_update > PRICE_CACHE_DURATION_NS then
    .error .priceStale
  else
    .ok (decide (cached_price > max_bsv_price))

/-! ## Chunk allocation (`chunk_allocation.rs`) -/

/-- Loop body of `lock_chunks_for_trade` over the chunk-id list. -/
def lock_chunks_for_trade (st : St) (chunk_ids : List ℕ) (trade_id : ℕ) :
    Except Err St :=
  match chunk_ids with
  | [] => .ok st
  | chunk_id :: rest =>
    match get_chunk st chunk_id with
    | none => lock_chunks_for_trade st rest trade_id
    | some chunk =>
      if chunk.status ≠ ChunkStatus.Available then
        .error (.chunkNotAvailableForLocking chunk_id)
      else
        match update_chunk st chunk_id (fun c =>
            { c with status := ChunkStatus.Locked, locked_by := some trade_id }) with
        | .error e => .error e
        | .ok st1 =>
          match update_order st1 chunk.order_id (fun o =>
              { o with total_locked_usd := o.total_locked_usd + chunk.amount_usd }) with
          | .error e => .error e
          | .ok st2 => lock_chunks_for_trade st2 rest trade_id

/-- Loop body of `unlock_chunks`; `current_bsv_price` is read from the
cached price once, before the loop. -/
def unlock_chunks_go (current_bsv_price : ℚ) (st : St) (chunk_ids : List ℕ) :
    Except Err St :=
  match chunk_ids with
  | [] => .ok st
  | chunk_id :: rest =>
    match get_chunk st chunk_id with
    | none => unlock_chunks_go current_bsv_price st rest
    | some chunk =>
      match get_order st chunk.order_id with
      | none => unlock_chunks_go current_bsv_price st rest
      | some order =>
        let new_status := if current_bsv_price > order.max_bsv_price then
          ChunkStatus.Idle else ChunkStatus.Available
        match update_chunk st chunk_id (fun c =>
            { c with status := new_status, locked_by := none }) with
        | .error e => .error e
        | .ok st1 =>
          match update_order st1 chunk.order_id (fun o =>
              { o with
                total_locked_usd := o.total_locked_usd - chunk.amount_usd,
                total_idle_usd := if new_status = ChunkStatus.Idle then
                  o.total_idle_usd + chunk.amount_usd else o.total_idle_usd }) with
          | .error e => .error e
          | .ok st2 => unlock_chunks_go current_bsv_price st2 rest

/-- `unlock_chunks`: `Locked → Available` when the cached price is within
the order's maximum, otherwise `Locked → Idle`. -/
def unlock_chunks (st : St) (chunk_ids : List ℕ) : Except Err St :=
  unlock_chunks_go st.app.cached_bsv_price st chunk_ids

/-- Loop body of `mark_chunks_filled` (`now` read once before the loop). -/
def mark_chunks_filled_go (now : ℕ) (st : St) (chunk_ids : List ℕ) :
    Except Err St :=
  match chunk_ids with
  | [] => .ok st
  | chunk_id :: rest =>
    match get_chunk st chunk_id with
    | none => mark_chunks_filled_go now st rest
    | some chunk =>
      match update_chunk st chunk_id (fun c =>
          { c with status := ChunkStatus.Filled, filled_at := some now,
                   locked_by := none }) with
      | .error e => .error e
      | .ok st1 =>
        match update_order st1 chunk.order_id (fun o =>
            let filled := o.total_filled_usd + chunk.amount_usd
            { o with
              total_filled_usd := filled,
              total_locked_usd := o.total_locked_usd - chunk.amount_usd,
              status :=
                if |filled - o.amount_usd| < 1/1000000 ∨ filled ≥ o.amount_usd then
                  OrderStatus.Filled
                else if filled > 0 then OrderStatus.PartiallyFilled
                else o.status }) with
        | .error e => .error e
        | .ok st2 => mark_chunks_filled_go now st2 rest

/-- `mark_chunks_filled`. -/
def mark_chunks_filled (st : St) (now : ℕ) (chunk_ids : List ℕ) : Except Err St :=
  mark_chunks_filled_go now st chunk_ids

/-! ## Order idling (`order_management.rs`, `check_and_mark_idle_orders`) -/

/-- Inner chunk loop of `check_and_mark_idle_orders`: mark all `Available`
chunks of the order `Idle`.  Note the source updates only the chunk
status here; the order's `total_idle_usd` is not touched. -/
def mark_available_chunks_idle (st : St) (chunk_ids : List ℕ) : Except Err St :=
  match chunk_ids with
  | [] => .ok st
  | chunk_id :: rest =>
    match get_chunk st chunk_id with
    | none => mark_available_chunks_idle st rest
    | some chunk =>
      if chunk.status = ChunkStatus.Available then
        match update_chunk st chunk_id (fun c => { c with status := ChunkStatus.Idle }) with
        | .error e => .error e
        | .ok st1 => mark_available_chunks_idle st1 rest
      else
        mark_available_chunks_idle st rest

/-- Outer order loop of `check_and_mark_idle_orders`. -/
def check_and_mark_idle_orders_go (now : ℕ) (st : St) (orders : List Order) :
    Except Err St :=
  match orders with
  | [] => .ok st
  | order :: rest =>
    match price_exceeds_max st now order.max_bsv_price with
    | .error e => .error e
    | .ok price_exceeds =>
      if price_exceeds then
        match mark_available_chunks_idle st order.chunks with
        | .error e => .error e
        | .ok st1 =>
          match update_order st1 order.id (fun o => { o with status := OrderStatus.Idle }) with
          | .error e => .error e
          | .ok st2 => check_and_mark_idle_orders_go now st2 rest
      else
        check_and_mark_idle_orders_go now st rest

/-- `check_and_mark_idle_orders`: for every `Active` order whose maximum
price is below the cached market price, delist its `Available` chunks to
`Idle` and set the order status to `Idle`. -/
def check_and_mark_idle_orders (st : St) (now : ℕ) : Except Err St :=
  check_and_mark_idle_orders_go now st
    (st.orders.filter (fun o => o.status == OrderStatus.Active))

/-! ## BSV transaction format (`bsv_parser.rs`) -/

/-- `read_bytes`. -/
def read_bytes (bytes : List Byte) (cursor len : ℕ) :
    Except Err (List Byte × ℕ) :=
  if cursor + len > bytes.length then .error .endOfData
  else .ok ((bytes.drop cursor).take len, cursor + len)

/-- `read_u32_le`. -/
def read_u32_le (bytes : List Byte) (cursor : ℕ) : Except Err (ℕ × ℕ) :=
  if cursor + 4 > bytes.length then .error .endOfDataU32
  else .ok (bytes.getD cursor 0 + bytes.getD (cursor + 1) 0 * 256 +
            bytes.getD (cursor + 2) 0 * 65536 + bytes.getD (cursor + 3) 0 * 16777216,
            cursor + 4)

/-- `read_u64_le`. -/
def read_u64_le (bytes : List Byte) (cursor : ℕ) : Except Err (ℕ × ℕ) :=
  if cursor + 8 > bytes.length then .error .endOfDataU64
  else .ok ((List.range 8).foldr
              (fun i acc => acc * 256 + bytes.getD (cursor + i) 0) 0,
            cursor + 8)

/-- `read_varint` of the tx parser.  The `0xfd` branch of the source
indexes without a bounds check and would trap on truncated input
(rolling the call back); the model reports it as an end-of-data error. -/
def read_varint (bytes : List Byte) (cursor : ℕ) : Except Err (ℕ × ℕ) :=
  if cursor ≥ bytes.length then .error .endOfDataVarint
  else
    let first_byte := bytes.getD cursor 0
    let cursor := cursor + 1
    if first_byte ≤ 0xfc then .ok (first_byte, cursor)
    else if first_byte = 0xfd then
      if cursor + 2 > bytes.length then .error .endOfDataVarint
      else .ok (bytes.getD cursor 0 + bytes.getD (cursor + 1) 0 * 256, cursor + 2)
    else if first_byte = 0xfe then
      read_u32_le bytes cursor
    else
      read_u64_le bytes cursor

/-- `encode_base58_check`: version byte, payload, 4-byte double-SHA256
checksum, base58-encoded. -/
def encode_base58_check (payload : List Byte) (version : Byte) : String :=
  let data := version :: payload
  let checksum := (sha256 (sha256 data)).take 4
  base58Encode (data ++ checksum)

/-- `extract_address_from_script`: P2PKH and P2SH templates decode to
base58check addresses; anything else becomes the `0x<hex>` pseudo-address. -/
def extract_address_from_script (script : List Byte) : Except Err String :=
  if script.isEmpty then .error .emptyScript
  else if script.length = 25 ∧ script.getD 0 0 = 0x76 ∧ script.getD 1 0 = 0xa9 ∧
      script.getD 2 0 = 0x14 then
    .ok (encode_base58_check ((script.drop 3).take 20) 0x00)
  else if script.length = 23 ∧ script.getD 0 0 = 0xa9 ∧ script.getD 1 0 = 0x14 then
    .ok (encode_base58_check ((script.drop 2).take 20) 0x05)
  else
    .ok ("0x" ++ hexEncode script)

/-- `parse_input`. -/
def parse_input (bytes : List Byte) (cursor : ℕ) : Except Err (BsvInput × ℕ) :=
  match read_bytes bytes cursor 32 with
  | .error e => .error e
  | .ok (hash_fwd, cursor) =>
    match read_u32_le bytes cursor with
    | .error e => .error e
    | .ok (prev_output_index, cursor) =>
      match read_varint bytes cursor with
      | .error e => .error e
      | .ok (script_len, cursor) =>
        match read_bytes bytes cursor script_len with
        | .error e => .error e
        | .ok (script_sig, cursor) =>
          match read_u32_le bytes cursor with
          | .error e => .error e
          | .ok (sequence, cursor) =>
            .ok ({ prev_tx_hash := hash_fwd.reverse, prev_output_index,
                   script_sig, sequence }, cursor)

/-- `parse_output`. -/
def parse_output (bytes : List Byte) (cursor : ℕ) : Except Err (BsvOutput × ℕ) :=
  match read_u64_le bytes cursor with
  | .error e => .error e
  | .ok (satoshis, cursor) =>
    match read_varint bytes cursor with
    | .error e => .error e
    | .ok (script_len, cursor) =>
      match read_bytes bytes cursor script_len with
      | .error e => .error e
      | .ok (script_pubkey, cursor) =>
        match extract_address_from_script script_pubkey with
        | .error e => .error e
        | .ok address => .ok ({ address, satoshis }, cursor)

/-- The input-parsing loop (`for _ in 0..input_count`). -/
def parse_inputs (bytes : List Byte) : ℕ → ℕ → Except Err (List BsvInput × ℕ)
  | 0, cursor => .ok ([], cursor)
  | count + 1, cursor =>
    match parse_input bytes cursor with
    | .error e => .error e
    | .ok (i, cursor) =>
      match parse_inputs bytes count cursor with
      | .error e => .error e
      | .ok (rest, cursor) => .ok (i :: rest, cursor)

/-- The output-parsing loop. -/
def parse_outputs (bytes : List Byte) : ℕ → ℕ → Except Err (List BsvOutput × ℕ)
  | 0, cursor => .ok ([], cursor)
  | count + 1, cursor =>
    match parse_output bytes cursor with
    | .error e => .error e
    | .ok (o, cursor) =>
      match parse_outputs bytes count cursor with
      | .error e => .error e
      | .ok (rest, cursor) => .ok (o :: rest, cursor)

/-- `parse_bsv_transaction`. -/
def parse_bsv_transaction (raw_hex : String) : Except Err ParsedBsvTx :=
  match hexDecode raw_hex with
  | none => .error .invalidTxHex
  | some bytes =>
    if bytes.length < 10 then .error .txTooShort
    else
      match read_u32_le bytes 0 with
      | .error e => .error e
      | .ok (version, cursor) =>
        match read_varint bytes cursor with
        | .error e => .error e
        | .ok (input_count, cursor) =>
          match parse_inputs bytes input_count cursor with
          | .error e => .error e
          | .ok (inputs, cursor) =>
            match read_varint bytes cursor with
            | .error e => .error e
            | .ok (output_count, cursor) =>
              match parse_outputs bytes output_count cursor with
              | .error e => .error e
              | .ok (outputs, cursor) =>
                match read_u32_le bytes cursor with
                | .error e => .error e
                | .ok (locktime, _) =>
                  .ok { version, inputs, outputs, locktime }

/-- Per-index loop of `validate_transaction_outputs`. -/
def validate_outputs_go (outputs : List BsvOutput) :
    ℕ → List LockedChunk → Except Err Unit
  | _, [] => .ok ()
  | i, expected :: rest =>
    let actual := outputs.getD i { address := "", satoshis := 0 }
    if actual.satoshis ≠ expected.sats_amount then
      .error (.outputAmountMismatch i)
    else
      let actual_addr := strLower (strTrim actual.address)
      let expected_addr := strLower (strTrim expected.bsv_address)
      if actual_addr ≠ expected_addr ∧ ¬ strHasSub actual_addr expected_addr then
        .error (.outputAddressMismatch i)
      else
        validate_outputs_go outputs (i + 1) rest

/-- `validate_transaction_outputs`: the first `expected.length` outputs
must match the locked chunks position by position (satoshis exactly;
addresses after trim + lower-case, equal or containing); extra outputs
are permitted. -/
def validate_transaction_outputs (parsed_tx : ParsedBsvTx)
    (expected_outputs : List LockedChunk) : Except Err Unit :=
  if parsed_tx.outputs.length < expected_outputs.length then
    .error (.outputCountMismatch parsed_tx.outputs.length expected_outputs.length)
  else
    validate_outputs_go parsed_tx.outputs 0 expected_outputs

/-! ## Subaccounts and ledger transfers (`ckusdc_integration.rs`,
`filler_accounts.rs`) -/

/-- 8-byte big-endian encoding of a `u64` (`to_be_bytes`). -/
def be64 (n : ℕ) : List Byte :=
  [(n >>> 56) % 256, (n >>> 48) % 256, (n >>> 40) % 256, (n >>> 32) % 256,
   (n >>> 24) % 256, (n >>> 16) % 256, (n >>> 8) % 256, n % 256]

/-- `order_subaccount`: `SHA-256(maker_principal_bytes ‖ be64(order_id))`. -/
def order_subaccount (maker : Principal) (order_id : ℕ) : List Byte :=
  sha256 (maker ++ be64 order_id)

/-- `get_order_deposit_account`: owner is the canister, subaccount derived. -/
def get_order_deposit_account (maker : Principal) (order_id : ℕ) : Account :=
  { owner := canisterSelf, sub := some (order_subaccount maker order_id) }

/-- `principal_to_subaccount`: `SHA-256(principal_bytes)`. -/
def principal_to_subaccount (p : Principal) : List Byte :=
  sha256 p

/-- `get_deposit_account`: a user's security-deposit subaccount. -/
def get_deposit_account (user_principal : Principal) : Account :=
  { owner := canisterSelf, sub := some (principal_to_subaccount user_principal) }

/-- `usd_to_ckusdc_e6`: `(usd_amount * 1_000_000.0) as u128`. -/
def usd_to_ckusdc_e6 (usd_amount : ℚ) : ℕ :=
  ratTruncToNat (usd_amount * 1000000)

/-- `transfer_ckusdc_from_order_raw`: ICRC-1 transfer of exactly
`amount_e6` from the order's subaccount (ledger default fee). -/
def transfer_ckusdc_from_order_raw (led : Ledger) (maker : Principal)
    (order_id : ℕ) (to_principal : Principal) (to_subaccount : Option (List Byte))
    (amount_e6 : ℕ) : Except Err Ledger :=
  icrc1_transfer led (get_order_deposit_account maker order_id)
    { owner := to_principal, sub := to_subaccount } amount_e6 CKUSDC_TRANSFER_FEE

/-- `transfer_ckusdc_from_order`: deducts the fixed transfer fee from the
desired gross amount and sends the remainder; fails when nothing would
be left to send. -/
def transfer_ckusdc_from_order (led : Ledger) (maker : Principal) (order_id : ℕ)
    (to_principal : Principal) (to_subaccount : Option (List Byte))
    (desired_amount_e6 : ℕ) : Except Err Ledger :=
  let amount_minus_fee := desired_amount_e6 - CKUSDC_TRANSFER_FEE
  if amount_minus_fee = 0 then
    .error .amountTooSmallForFee
  else
    transfer_ckusdc_from_order_raw led maker order_id to_principal to_subaccount
      amount_minus_fee

/-- `transfer_activation_fee_to_treasury` (same fee handling, treasury
default subaccount). -/
def transfer_activation_fee_to_treasury (led : Ledger) (maker : Principal)
    (order_id : ℕ) (treasury_principal : Principal) (activation_fee_e6 : ℕ) :
    Except Err Ledger :=
  let amount_minus_fee := activation_fee_e6 - CKUSDC_TRANSFER_FEE
  if amount_minus_fee = 0 then
    .error .activationFeeTooSmall
  else
    transfer_ckusdc_from_order_raw led maker order_id treasury_principal none
      amount_minus_fee

/-- `get_available_security_balance`: live ledger balance of the user's
security subaccount minus 5% of the recomputed pending-trade total,
floored at zero. -/
def get_available_security_balance (sys : Sys) (p : Principal) : ℚ :=
  let balance_e6 := balance_of sys.ledger (get_deposit_account p)
  let total_balance_usd : ℚ := (balance_e6 : ℚ) / 1000000
  let locked_in_trades : ℚ :=
    if (get_filler_account sys.st p).isSome then
      calculate_pending_trades_for_filler sys.st p * (5/100)
    else 0
  max (total_balance_usd - locked_in_trades) 0

/-- `deduct_penalty`: bump the filler's `penalties_paid`, then transfer
`usd_to_ckusdc_e6(penalty) − fee` from the filler's security subaccount
to the recipient (the order maker, or the treasury when absent).  The
stat update persists even when the ledger transfer fails, as in the
source. -/
def deduct_penalty (sys : Sys) (filler : Principal) (penalty_amount : ℚ)
    (recipient : Option Principal) : Sys × Except Err Unit :=
  match update_filler_account sys.st filler (fun a =>
      { a with penalties_paid := a.penalties_paid + penalty_amount }) with
  | .error e => (sys, .error e)
  | .ok st1 =>
    let recipient_account : Account :=
      match recipient with
      | some maker => { owner := maker, sub := none }
      | none => { owner := canisterSelf, sub := none }
    let from_account := get_deposit_account filler
    let amount_e6 := usd_to_ckusdc_e6 penalty_amount
    let amount_after_fee := amount_e6 - CKUSDC_TRANSFER_FEE
    match icrc1_transfer sys.ledger from_account recipient_account
        amount_after_fee CKUSDC_TRANSFER_FEE with
    | .error e => ({ st := st1, ledger := sys.ledger }, .error e)
    | .ok led => ({ st := st1, ledger := led }, .ok ())

/-! ## Trade lifecycle (`trade_lifecycle.rs`) -/

/-- `create_single_trade`: allocate the trade id, lock the chunks, and
build the trade with each locked chunk's satoshi requirement computed
from the agreed price (`(amount_usd / price * 10^8) as u64`, which
truncates). -/
def create_single_trade (st : St) (filler : Principal) (order_id : ℕ)
    (chunks : List Chunk) (agreed_bsv_price min_bsv_price : ℚ) (now : ℕ) :
    Except Err (ℕ × St) :=
  let trade_id := st.app.next_trade_id
  let st := { st with app := { st.app with next_trade_id := st.app.next_trade_id + 1 } }
  let amount_usd := (chunks.map (fun c => c.amount_usd)).sum
  let chunk_ids := chunks.map (fun c => c.id)
  match lock_chunks_for_trade st chunk_ids trade_id with
  | .error e => .error e
  | .ok st1 =>
    let locked_chunks := chunks.map (fun chunk =>
      let bsv_amount := chunk.amount_usd / agreed_bsv_price
      let sats_amount := ratTruncToNat (bsv_amount * (SATOSHIS_PER_BSV : ℚ))
      { chunk_id := chunk.id, order_id := chunk.order_id,
        amount_usd := chunk.amount_usd, bsv_address := chunk.bsv_address,
        sats_amount : LockedChunk })
    let trade : Trade :=
      { id := trade_id, order_id, filler, amount_usd, locked_chunks,
        agreed_bsv_price, min_bsv_price, status := TradeStatus.ChunksLocked,
        bsv_tx_hex := none, created_at := now, tx_submitted_at := none,
        lock_expires_at := now + TRADE_TIMEOUT_NS, release_available_at := none,
        claim_expires_at := none, withdrawal_initiated_at := none,
        withdrawal_tx_hash := none, withdrawal_confirmed_at := none }
    .ok (trade_id, { st1 with trades := st1.trades ++ [trade] })

/-- `submit_bsv_transaction`.  All mutations happen after the last
fallible check, so an error leaves the state unchanged. -/
def submit_bsv_transaction (sys : Sys) (caller : Principal) (now : ℕ)
    (trade_id : ℕ) (raw_tx_hex : String) : Sys × Except Err Unit :=
  if caller = anonymousPrincipal then (sys, .error .anonymousCaller)
  else
    match get_trade sys.st trade_id with
    | none => (sys, .error .tradeNotFound)
    | some trade =>
      if trade.filler ≠ caller then (sys, .error .onlyFillerCanSubmit)
      else if trade.status ≠ TradeStatus.ChunksLocked then (sys, .error .notChunksLocked)
      else if now > trade.lock_expires_at then (sys, .error .lockExpired)
      else
        match compute_bsv_txid raw_tx_hex with
        | .error e => (sys, .error e)
        | .ok txid =>
          match get_trade_using_tx sys.st txid with
          | some other_trade_id =>
            if other_trade_id ≠ trade_id then
              (sys, .error (.duplicateTx other_trade_id))
            else
              submit_after_dup_check sys now trade_id raw_tx_hex txid
          | none => submit_after_dup_check sys now trade_id raw_tx_hex txid
where
  /-- The part of `submit_bsv_transaction` after the duplicate check:
  parse, validate, record the txid, update the trade. -/
  submit_after_dup_check (sys : Sys) (now trade_id : ℕ) (raw_tx_hex txid : String) :
      Sys × Except Err Unit :=
    match parse_bsv_transaction raw_tx_hex with
    | .error e => (sys, .error e)
    | .ok parsed_tx =>
      match get_trade sys.st trade_id with
      | none => (sys, .error .tradeNotFound)
      | some trade =>
        match validate_transaction_outputs parsed_tx trade.locked_chunks with
        | .error e => (sys, .error e)
        | .ok () =>
          let st1 := mark_bsv_tx_used sys.st txid trade_id
          let release_time := now + USDC_RELEASE_WAIT_NS
          let claim_expiry := now + TRADE_CLAIM_EXPIRY_NS
          match update_trade st1 trade_id (fun t =>
              { t with status := TradeStatus.TxSubmitted,
                       bsv_tx_hex := some raw_tx_hex,
                       tx_submitted_at := some now,
                       release_available_at := some release_time,
                       claim_expires_at := some claim_expiry }) with
          | .error e => (sys, .error e)
          | .ok st2 => ({ sys with st := st2 }, .ok ())

/-- `resubmit_bsv_transaction`: within the resubmission window of the
initial submission, after penalty deduction, swap the stored transaction
and its txid and reset only the release timer. -/
def resubmit_bsv_transaction (sys : Sys) (caller : Principal) (now : ℕ)
    (trade_id : ℕ) (raw_tx_hex : String) : Sys × Except Err Unit :=
  if caller = anonymousPrincipal then (sys, .error .anonymousCaller)
  else
    match get_trade sys.st trade_id with
    | none => (sys, .error .tradeNotFound)
    | some trade =>
      if trade.filler ≠ caller then (sys, .error .onlyFillerCanResubmit)
      else if trade.status ≠ TradeStatus.TxSubmitted then (sys, .error .notTxSubmitted)
      else
        match trade.tx_submitted_at with
        | none => (sys, .error .submissionTimeNotFound)
        | some initial_submission_time =>
          if now > initial_submission_time + RESUBMISSION_WINDOW_NS then
            (sys, .error .resubmissionWindowExpired)
          else
            let penalty_amount := trade.amount_usd * (RESUBMISSION_PENALTY_PERCENT / 100)
            let available_balance_usd := get_available_security_balance sys caller
            if available_balance_usd < penalty_amount then
              (sys, .error .insufficientAvailableSecurity)
            else
              match compute_bsv_txid raw_tx_hex with
              | .error e => (sys, .error e)
              | .ok new_txid =>
                match get_trade_using_tx sys.st new_txid with
                | some other_trade_id =>
                  if other_trade_id ≠ trade_id then
                    (sys, .error (.duplicateTx other_trade_id))
                  else
                    resubmit_after_dup_check sys caller now trade_id raw_tx_hex
                      new_txid trade penalty_amount
                | none =>
                  resubmit_after_dup_check sys caller now trade_id raw_tx_hex
                    new_txid trade penalty_amount
where
  /-- The part of `resubmit_bsv_transaction` after the duplicate check:
  parse, validate, deduct the penalty (to the order's maker), replace the
  indexed txid, and reset `release_available_at` only. -/
  resubmit_after_dup_check (sys : Sys) (caller : Principal) (now trade_id : ℕ)
      (raw_tx_hex new_txid : String) (trade : Trade) (penalty_amount : ℚ) :
      Sys × Except Err Unit :=
    match parse_bsv_transaction raw_tx_hex with
    | .error e => (sys, .error e)
    | .ok parsed_tx =>
      match validate_transaction_outputs parsed_tx trade.locked_chunks with
      | .error e => (sys, .error e)
      | .ok () =>
        let recipient := (get_order sys.st trade.order_id).map (fun o => o.maker)
        match deduct_penalty sys caller penalty_amount recipient with
        | (sys1, .error e) => (sys1, .error e)
        | (sys1, .ok ()) =>
          let st1 :=
            match trade.bsv_tx_hex with
            | some old_tx_hex =>
              match compute_bsv_txid old_tx_hex with
              | .ok old_txid => unmark_bsv_tx sys1.st old_txid
              | .error _ => sys1.st
            | none => sys1.st
          let st2 := mark_bsv_tx_used st1 new_txid trade_id
          let new_release_time := now + USDC_RELEASE_WAIT_NS
          match update_trade st2 trade_id (fun t =>
              { t with bsv_tx_hex := some raw_tx_hex,
                       release_available_at := some new_release_time }) with
          | .error e => ({ sys1 with st := st2 }, .error e)
          | .ok st3 => ({ sys1 with st := st3 }, .ok ())

/-! ## Idle-chunk reactivation (`heartbeat.rs`) -/

/-- Inner chunk loop of `reactivate_idle_chunks` for one snapshot order:
flip `Idle` chunks back to `Available` unless the orderbook balance
snapshot plus the chunk would exceed the orderbook ceiling.  The balance
snapshot `current_orderbook_usd` is computed once per tick and not
refreshed inside the loops, exactly as in the source. -/
def reactivate_chunks_go (current_orderbook_usd : ℚ) (order : Order)
    (st : St) : List ℕ → Except Err St
  | [] => .ok st
  | chunk_id :: rest =>
    match get_chunk st chunk_id with
    | none => reactivate_chunks_go current_orderbook_usd order st rest
    | some chunk =>
      if chunk.status = ChunkStatus.Idle then
        if current_orderbook_usd + chunk.amount_usd > MAX_ORDERBOOK_USD_LIMIT then
          reactivate_chunks_go current_orderbook_usd order st rest
        else
          match update_chunk st chunk.id (fun c =>
              { c with status := ChunkStatus.Available }) with
          | .error e => .error e
          | .ok st1 =>
            match update_order st1 order.id (fun o =>
                { o with total_idle_usd := o.total_idle_usd - chunk.amount_usd }) with
            | .error e => .error e
            | .ok st2 => reactivate_chunks_go current_orderbook_usd order st2 rest
      else
        reactivate_chunks_go current_orderbook_usd order st rest

/-- Outer order loop of `reactivate_idle_chunks` over the FIFO snapshot. -/
def reactivate_orders_go (current_price current_orderbook_usd : ℚ)
    (st : St) : List Order → Except Err St
  | [] => .ok st
  | order :: rest =>
    if current_price < order.max_bsv_price then
      match reactivate_chunks_go current_orderbook_usd order st order.chunks with
      | .error e => .error e
      | .ok st1 => reactivate_orders_go current_price current_orderbook_usd st1 rest
    else
      reactivate_orders_go current_price current_orderbook_usd st rest

/-- `reactivate_idle_chunks`, given the price the oracle returned for
this tick: for every Active/PartiallyFilled order whose maximum is
strictly above the current price, reactivate its Idle chunks subject to
the orderbook ceiling. -/
def reactivate_idle_chunks (st : St) (current_price : ℚ) : Except Err St :=
  let current_orderbook_usd := get_available_orderbook st
  reactivate_orders_go current_price current_orderbook_usd st
    (get_active_orders_fifo st)

/-! ## Block-header storage (`block_headers.rs`) -/

/-- The stable block-header map, keyed by height. -/
structure BlockStore where
  headers : List BlockHeader
deriving DecidableEq, Repr

/-- `get_block_by_height`. -/
def get_block_by_height (bs : BlockStore) (height : ℕ) : Option BlockHeader :=
  bs.headers.find? (fun h => h.height == height)

/-- `get_highest_block`: the greatest stored height (`last_key_value` of
the ordered map), or 0 when the store is empty. -/
def get_highest_block (bs : BlockStore) : ℕ :=
  (bs.headers.map (fun h => h.height)).foldr max 0

/-! ## BUMP / SPV verification (`bump_verification.rs`) -/

/-- The BUMP `parse_varint` (same byte format as the tx parser's, with
its own bounds checks and error messages). -/
def parse_varint (bytes : List Byte) (start : ℕ) : Except Err (ℕ × ℕ) :=
  if start ≥ bytes.length then .error .bumpVarint
  else
    let first_byte := bytes.getD start 0
    if first_byte ≤ 0xFC then .ok (first_byte, start + 1)
    else if first_byte = 0xFD then
      if start + 3 > bytes.length then .error .bumpVarint
      else .ok (bytes.getD (start + 1) 0 + bytes.getD (start + 2) 0 * 256, start + 3)
    else if first_byte = 0xFE then
      if start + 5 > bytes.length then .error .bumpVarint
      else .ok ((List.range 4).foldr
                  (fun i acc => acc * 256 + bytes.getD (start + 1 + i) 0) 0,
                start + 5)
    else
      if start + 9 > bytes.length then .error .bumpVarint
      else .ok ((List.range 8).foldr
                  (fun i acc => acc * 256 + bytes.getD (start + 1 + i) 0) 0,
                start + 9)

/-- Inner leaf loop of `parse_bump_hex` (recursion on the remaining leaf
count; `leaf_idx` only feeds error reporting). -/
def parse_bump_leaves (bytes : List Byte) (level : ℕ) :
    ℕ → ℕ → ℕ → Except Err (List BumpNode × ℕ)
  | 0, _, off => .ok ([], off)
  | remaining + 1, leaf_idx, off => do
    let (leaf_offset, off) ← parse_varint bytes off
    if off ≥ bytes.length then throw (Err.bumpNoFlags level leaf_idx)
    else
      let flags := bytes.getD off 0
      let off := off + 1
      let is_duplicate := flags &&& 1 ≠ 0
      let is_txid := flags &&& 2 ≠ 0
      let hashAndOff ←
        if is_duplicate then pure ("", off)
        else if off + 32 > bytes.length then throw (Err.bumpNoHash level leaf_idx)
        else pure (hexEncode ((bytes.drop off).take 32).reverse, off + 32)
      let node : BumpNode :=
        { offset := leaf_offset, hash := hashAndOff.1,
          txid := if is_txid then some true else none,
          duplicate := if is_duplicate then some true else none }
      let (rest, off) ← parse_bump_leaves bytes level remaining (leaf_idx + 1) hashAndOff.2
      pure (node :: rest, off)

/-- Outer level loop of `parse_bump_hex`. -/
def parse_bump_levels (bytes : List Byte) :
    ℕ → ℕ → ℕ → Except Err (List (List BumpNode) × ℕ)
  | 0, _, off => .ok ([], off)
  | remaining + 1, level, off => do
    let (n_leaves, off) ← parse_varint bytes off
    let (level_nodes, off) ← parse_bump_leaves bytes level n_leaves 0 off
    let (rest, off) ← parse_bump_levels bytes remaining (level + 1) off
    pure (level_nodes :: rest, off)

/-- `parse_bump_hex` (BRC-74 layout). -/
def parse_bump_hex (bump_hex : String) : Except Err BumpProof := do
  let bytes ← match hexDecode bump_hex with
    | none => Except.error Err.invalidBumpHex
    | some b => Except.ok b
  let (block_height, off) ← parse_varint bytes 0
  if off ≥ bytes.length then throw Err.bumpNoTreeHeight
  let tree_height := bytes.getD off 0
  let (path, _) ← parse_bump_levels bytes tree_height 0 (off + 1)
  pure { block_height, path }

/-- Per-level walk of `compute_merkle_root`: pick the sibling (the
non-txid node at level 0, the first node above), duplicate-expand it,
concatenate in offset order, double-SHA256; the offset halves at every
level whether or not a sibling was found. -/
def merkle_walk : List (List BumpNode) → ℕ → List Byte → ℕ →
    Except Err (List Byte)
  | [], _, current_hash, _ => .ok current_hash
  | level_nodes :: rest, level_idx, current_hash, current_offset =>
    let sibling :=
      if level_idx = 0 then
        level_nodes.find? (fun node => node.txid ≠ some true)
      else
        level_nodes.head?
    match sibling with
    | none => merkle_walk rest (level_idx + 1) current_hash (current_offset / 2)
    | some sibling_node =>
      let siblingHashE : Except Err (List Byte) :=
        if sibling_node.duplicate = some true then .ok current_hash
        else
          match hexDecode sibling_node.hash with
          | none => .error (.invalidSiblingHashHex level_idx)
          | some hash_bytes => .ok hash_bytes.reverse
      match siblingHashE with
      | .error e => .error e
      | .ok sibling_hash =>
        let combined :=
          if current_offset < sibling_node.offset then
            current_hash ++ sibling_hash
          else
            sibling_hash ++ current_hash
        merkle_walk rest (level_idx + 1) (double_sha256 combined) (current_offset / 2)

/-- `compute_merkle_root`. -/
def compute_merkle_root (txid : String) (path : List (List BumpNode)) :
    Except Err String := do
  if path.isEmpty then throw Err.emptyBumpPath
  let level0 := path.headD []
  let tx_node ← match level0.find? (fun node => node.txid == some true) with
    | none => Except.error Err.noTxNodeInLevel0
    | some n => Except.ok n
  let decoded ← match hexDecode txid with
    | none => Except.error Err.invalidTxidHexInMerkle
    | some b => Except.ok b
  let current_hash := decoded.reverse
  let final ← merkle_walk path 0 current_hash tx_node.offset
  pure (hexEncode final.reverse)

/-- Rust `char::is_ascii_hexdigit`. -/
def isAsciiHexDigit (c : Char) : Bool :=
  ('0' ≤ c && c ≤ '9') || ('a' ≤ c && c ≤ 'f') || ('A' ≤ c && c ≤ 'F')

/-- `verify_tx_bump` (sync version, no archive fallback): parse the
proof, require the block locally, recompute the merkle root, then apply
the confirmation policy `confirmations = tip − height + 1 ≥ 18`. -/
def verify_tx_bump (bs : BlockStore) (txid bump_hex : String) :
    Except Err TxVerification :=
  if txid.length ≠ 64 then .error .invalidTxidLength
  else if bump_hex.length > 10000 then .error .bumpTooLarge
  else if ¬ txid.data.all isAsciiHexDigit then .error .invalidTxidChars
  else
    match parse_bump_hex bump_hex with
    | .error e => .error e
    | .ok bump =>
      match get_block_by_height bs bump.block_height with
      | none => .error (.blockNotFoundAtHeight bump.block_height)
      | some block =>
        match compute_merkle_root txid bump.path with
        | .error e => .error e
        | .ok computed_root =>
          if computed_root ≠ block.merkle_root then
            .error (.merkleRootMismatch computed_root block.merkle_root)
          else
            let highest := get_highest_block bs
            if highest < bump.block_height then .error .blockAheadOfTip
            else
              let confirmations := highest - bump.block_height + 1
              if confirmations < CONFIRMATION_DEPTH then
                .ok { verified := false, block_height := bump.block_height,
                      block_hash := block.hash, confirmations }
              else
                .ok { verified := true, block_height := bump.block_height,
                      block_hash := block.hash, confirmations }

/-! ## Order creation (`order_management.rs`, `create_order`) -/

/-- Rust `as i64`-style truncation toward zero of a rational, as `ℤ`. -/
def ratTruncInt (q : ℚ) : ℤ :=
  if q < 0 then -(ratFloor (-q)) else ratFloor q

/-- Rust `f64 %` (remainder with the dividend's sign):
`a − b * trunc(a / b)`. -/
def f64Rem (a b : ℚ) : ℚ :=
  a - b * (ratTruncInt (a / b) : ℚ)

/-- Rust `f64::round() as u64` on a nonnegative value: half rounds away
from zero, so `⌊q + 1/2⌋`. -/
def ratRoundToNat (q : ℚ) : ℕ :=
  (ratFloor (q + 1/2)).toNat

/-- `is_valid_bsv_mainnet_address`: leading `'1'`/`'3'`, length 26–35,
base58 decodes to at least 25 bytes with a valid double-SHA256 checksum. -/
def is_valid_bsv_mainnet_address (address : String) : Bool :=
  match address.data with
  | [] => false
  | first_char :: _ =>
    (first_char == '1' || first_char == '3') &&
    26 ≤ address.length && address.length ≤ 35 &&
    (match base58Decode address with
     | none => false
     | some decoded =>
       25 ≤ decoded.length &&
       (let payload := decoded.take (decoded.length - 4)
        let checksum := decoded.drop (decoded.length - 4)
        (sha256 (sha256 payload)).take 4 == checksum))

/-- `get_orders_by_maker` (filter by maker, newest first; the caller of
interest only sums over the result). -/
def get_orders_by_maker (st : St) (maker : Principal) : List Order :=
  (sortByKey (fun o => o.created_at)
    (st.orders.filter (fun o => o.maker == maker))).reverse

/-- `transfer_from_user_account_to_order`: ledger transfer from the
user's security subaccount to the order's subaccount (default fee). -/
def transfer_from_user_account_to_order (led : Ledger) (user : Principal)
    (order_id : ℕ) (amount_usd : ℚ) : Except Err Ledger :=
  icrc1_transfer led (get_deposit_account user)
    (get_order_deposit_account user order_id)
    (usd_to_ckusdc_e6 amount_usd) CKUSDC_TRANSFER_FEE

/-- The chunk-creation loop of `create_order`: `num_chunks` chunks of
`chunk_amount`, each allocated a fresh chunk id. -/
def create_chunks (st : St) (order_id : ℕ) (chunk_amount : ℚ)
    (chunk_status : ChunkStatus) (bsv_address : String) (max_bsv_price : ℚ) :
    ℕ → St × List ℕ
  | 0 => (st, [])
  | n + 1 =>
    let chunk_id := st.app.next_chunk_id
    let st := { st with app := { st.app with next_chunk_id := st.app.next_chunk_id + 1 } }
    let chunk : Chunk :=
      { id := chunk_id, order_id, amount_usd := chunk_amount,
        status := chunk_status, locked_by := none, filled_at := none,
        bsv_address, sats_amount := none, max_bsv_price }
    let st := { st with chunks := st.chunks ++ [chunk] }
    let res := create_chunks st order_id chunk_amount chunk_status
      bsv_address max_bsv_price n
    (res.1, chunk_id :: res.2)

/-- The tail of `create_order` once the deposit is sufficient: transfer
the activation fee to the treasury, create the chunks (Available, or
Idle when the cached price exceeds the order's maximum), insert the
order.  `balance_usd` is the subaccount balance read before any top-up,
which is what the source stores in `total_deposited_usd`. -/
def create_order_activate_with (sys : Sys) (caller : Principal)
    (now order_id : ℕ) (amount_usd max_bsv_price : ℚ) (bsv_address : String)
    (balance_usd activation_fee_usd filler_incentive_reserved : ℚ)
    (deposit_subaccount : String) (transfer_result : Except Err Ledger) :
    Sys × Except Err ℕ :=
  match transfer_result with
  | .error e => (sys, .error e)
  | .ok led1 =>
    let sys := { sys with ledger := led1 }
    let current_bsv_price := sys.st.app.cached_bsv_price
    let price_exceeds := decide (current_bsv_price > max_bsv_price)
    let initial_status := if price_exceeds then OrderStatus.Idle else OrderStatus.Active
    let initial_idle_usd := if price_exceeds then amount_usd else 0
    let chunk_status := if price_exceeds then ChunkStatus.Idle else ChunkStatus.Available
    let chunk_amount := MIN_CHUNK_SIZE
    let num_chunks := ratRoundToNat (amount_usd / chunk_amount)
    let stIds := create_chunks sys.st order_id chunk_amount chunk_status
      bsv_address max_bsv_price num_chunks
    let order : Order :=
      { id := order_id, maker := caller, amount_usd,
        total_deposited_usd := some balance_usd,
        activation_fee_usd := some activation_fee_usd,
        filler_incentive_reserved := some filler_incentive_reserved,
        deposit_principal := principalText canisterSelf,
        deposit_subaccount, max_bsv_price, bsv_address,
        status := initial_status, chunks := stIds.2, created_at := now,
        total_filled_usd := 0, total_locked_usd := 0,
        total_idle_usd := initial_idle_usd, total_refunded_usd := none }
    ({ sys with st := { stIds.1 with orders := stIds.1.orders ++ [order] } },
     .ok order_id)

/-- The same tail with the activation-fee transfer performed first: the
result of `transfer_activation_fee_to_treasury` is computed once and then
matched on, exactly as in the source. -/
def create_order_activate (sys : Sys) (caller : Principal) (now order_id : ℕ)
    (amount_usd max_bsv_price : ℚ) (bsv_address : String)
    (balance_usd activation_fee_usd filler_incentive_reserved : ℚ)
    (deposit_subaccount : String) : Sys × Except Err ℕ :=
  create_order_activate_with sys caller now order_id amount_usd max_bsv_price
    bsv_address balance_usd activation_fee_usd filler_incentive_reserved
    deposit_subaccount
    (transfer_activation_fee_to_treasury sys.ledger caller order_id
      canisterSelf (usd_to_ckusdc_e6 activation_fee_usd))

/-- `create_order`: validations, then order-id allocation, then the
deposit check with an optional top-up from the maker's security
subaccount, then activation.  The order id is allocated before the
deposit check, so every deposit-stage failure leaves the id consumed. -/
def create_order (sys : Sys) (caller : Principal) (now cycles_balance : ℕ)
    (amount_usd max_bsv_price : ℚ) (bsv_address : String) :
    Sys × Except Err ℕ :=
  if caller = anonymousPrincipal then (sys, .error .anonymousCaller)
  else if ¬ sys.st.app.new_orders_enabled then (sys, .error .newOrdersDisabled)
  else if cycles_balance < MIN_CYCLES_FOR_NEW_ORDERS then
    (sys, .error .insufficientCycles)
  else if amount_usd ≤ 0 then (sys, .error .amountNotPositive)
  else if amount_usd < MIN_CHUNK_SIZE ∨ |f64Rem amount_usd MIN_CHUNK_SIZE| > 1/1000000 then
    (sys, .error .amountNotMultiple)
  else if amount_usd > MIN_CHUNK_SIZE * (MAX_CHUNKS_ALLOWED : ℚ) then
    (sys, .error .amountTooLarge)
  else if ¬ is_valid_bsv_mainnet_address bsv_address then
    (sys, .error .invalidBsvAddress)
  else if max_bsv_price ≤ 0 then (sys, .error .maxPriceNotPositive)
  else if get_available_orderbook sys.st + amount_usd > MAX_ORDERBOOK_USD_LIMIT then
    (sys, .error .orderbookLimitExceeded)
  else
    let maker_orders := get_orders_by_maker sys.st caller
    let total_active_value : ℚ :=
      ((maker_orders.filter (fun o =>
          o.status == OrderStatus.Active || o.status == OrderStatus.Idle)).map
        (fun o => o.amount_usd - o.total_filled_usd)).sum
    if total_active_value + amount_usd > MAX_MAKER_TOTAL_ORDERS_USD then
      (sys, .error .makerLimitExceeded)
    else
      -- ALWAYS increment order ID - even if activation fails
      let order_id := sys.st.app.next_order_id
      let sys := { sys with st := { sys.st with app :=
        { sys.st.app with next_order_id := sys.st.app.next_order_id + 1 } } }
      let deposit_subaccount := hexEncode (order_subaccount caller order_id)
      let maker_fee_usd := amount_usd * ((MAKER_FEE_PERCENT : ℚ) / 10000)
      let activation_fee_usd := amount_usd * ((ACTIVATION_FEE_PERCENT : ℚ) / 10000)
      let filler_incentive_reserved := amount_usd * ((FILLER_INCENTIVE_PERCENT : ℚ) / 10000)
      let required_deposit_usd := amount_usd + maker_fee_usd
      let balance_e6 := balance_of sys.ledger (get_order_deposit_account caller order_id)
      let balance_usd : ℚ := (balance_e6 : ℚ) / 1000000
      if balance_usd < required_deposit_usd then
        let shortfall := required_deposit_usd - balance_usd
        let available_balance := get_available_security_balance sys caller
        if available_balance ≥ shortfall then
          match transfer_from_user_account_to_order sys.ledger caller order_id shortfall with
          | .error _ => (sys, .error (.orderNotActivatedTransferFailed order_id))
          | .ok led1 =>
            let sys := { sys with ledger := led1 }
            let new_balance_e6 :=
              balance_of sys.ledger (get_order_deposit_account caller order_id)
            let new_balance_usd : ℚ := (new_balance_e6 : ℚ) / 1000000
            if new_balance_usd < required_deposit_usd then
              (sys, .error (.orderNotActivatedStillInsufficient order_id))
            else
              create_order_activate sys caller now order_id amount_usd max_bsv_price
                bsv_address balance_usd activation_fee_usd filler_incentive_reserved
                deposit_subaccount
        else
          (sys, .error (.orderNotActivatedInsufficientFunds order_id))
      else
        create_order_activate sys caller now order_id amount_usd max_bsv_price
          bsv_address balance_usd activation_fee_usd filler_incentive_reserved
          deposit_subaccount

/-! ## Order-accounting invariant (spec §3 / §8)

`filled + locked + idle + available + refunded = total`, with the first
three and the last read from the order's stored totals and `available`
derived as the summed amount of the order's chunks in state `Available`
(an absent `total_refunded_usd` counts as zero). -/

/-- Summed amount of the order's chunks currently in state `Available`. -/
def order_available_sum (st : St) (o : Order) : ℚ :=
  (o.chunks.map (fun cid =>
    match get_chunk st cid with
    | some c => if c.status = ChunkStatus.Available then c.amount_usd else 0
    | none => 0)).sum

/-- The spec's accounting equation for one order. -/
def order_accounting_ok (st : St) (o : Order) : Bool :=
  o.total_filled_usd + o.total_locked_usd + o.total_idle_usd +
    o.total_refunded_usd.getD 0 + order_available_sum st o == o.amount_usd

/-- The accounting equation for every stored order. -/
def accounting_ok (st : St) : Bool :=
  st.orders.all (fun o => order_accounting_ok st o)

/-! ## Concrete instances used by the claim theorems -/

/-- A fresh `AppState` with a cached price of $50 at time 100. -/
def appAt50 : AppState :=
  { next_order_id := 1, next_chunk_id := 1, next_trade_id := 0,
    cached_bsv_price := 50, last_price_update := 100, new_orders_enabled := true }

/-- An active $3 order (max price $45) with one chunk id 0 and all
stored totals zero. -/
def idlingOrder : Order :=
  { id := 0, maker := [1], amount_usd := 3,
    total_deposited_usd := some 3, activation_fee_usd := none,
    filler_incentive_reserved := none, deposit_principal := "",
    deposit_subaccount := "", max_bsv_price := 45, bsv_address := "addr",
    status := OrderStatus.Active, chunks := [0], created_at := 0,
    total_filled_usd := 0, total_locked_usd := 0, total_idle_usd := 0,
    total_refunded_usd := none }

/-- The order's single available $3 chunk. -/
def idlingChunk : Chunk :=
  { id := 0, order_id := 0, amount_usd := 3,
    status := ChunkStatus.Available, locked_by := none, filled_at := none,
    bsv_address := "addr", sats_amount := none, max_bsv_price := 45 }

/-- One active $3 order with its single available chunk; all stored
totals are zero, so the accounting equation holds. -/
def idlingSt : St :=
  { orders := [idlingOrder], chunks := [idlingChunk],
    trades := [], filler_accounts := [], used_bsv_txids := [],
    app := appAt50 }

/-- Modelled from the spec: "the satoshi value must equal
`round(amount_usd / agreed_bsv_price × 10^8)`" — rounding to the nearest
integer, to be compared with the code's truncation. -/
def spec_round_satoshis (amount_usd agreed_bsv_price : ℚ) : ℕ :=
  ratRoundToNat (amount_usd / agreed_bsv_price * (SATOSHIS_PER_BSV : ℚ))

/-- Default `LockedChunk`, used only as the out-of-range default of
positional lookups whose index is known to be in range. -/
def lockedChunkDefault : LockedChunk :=
  { chunk_id := 0, order_id := 0, amount_usd := 0, bsv_address := "",
    sats_amount := 0 }

/-- What the output-matching loop accepts at one position: exact satoshi
equality, and normalized address equality or substring containment. -/
def output_matches (outputs : List BsvOutput) (i : ℕ) (expected : LockedChunk) : Prop :=
  (outputs.getD i { address := "", satoshis := 0 }).satoshis = expected.sats_amount ∧
  (strLower (strTrim (outputs.getD i { address := "", satoshis := 0 }).address) =
      strLower (strTrim expected.bsv_address) ∨
    strHasSub (strLower (strTrim (outputs.getD i { address := "", satoshis := 0 }).address))
      (strLower (strTrim expected.bsv_address)) = true)

instance (outputs : List BsvOutput) (i : ℕ) (expected : LockedChunk) :
    Decidable (output_matches outputs i expected) := by
  unfold output_matches; infer_instance

deriving instance DecidableEq for Except

/-- The post-state of `create_single_trade` on `idlingSt` for a $3
chunk at agreed price 45. -/
def c3RunSt : St :=
  match create_single_trade idlingSt [7] 0 [idlingChunk] 45 44 0 with
  | .ok p => p.2
  | .error _ => idlingSt

/-- A non-standard output script whose hex spelling contains the
lower-cased text of a real mainnet address. -/
def c4Script : List Byte :=
  [0x01, 0x11, 0x11, 0x11, 0x11, 0x11, 0x11, 0x11, 0x11, 0x11, 0x2d, 0x4e, 0xa3, 0xf7]

/-- A raw BSV transaction: version 1, no inputs, one output of
6_666_666 satoshis paying to `c4Script`, locktime 0. -/
def c4RawTx : List Byte :=
  [1, 0, 0, 0] ++ [0] ++ [1] ++ [0xAA, 0xB9, 0x65, 0, 0, 0, 0, 0] ++
    [14] ++ c4Script ++ [0, 0, 0, 0]

/-- A locked chunk expecting 6_666_666 satoshis at the (checksum-valid)
mainnet address `11111111111111111112D4EA3F7` (hash160 = 620). -/
def c4Chunk : LockedChunk :=
  { chunk_id := 0, order_id := 0, amount_usd := 3,
    bsv_address := "11111111111111111112D4EA3F7", sats_amount := 6666666 }

/-- The parse of `c4RawTx`: the script is neither P2PKH nor P2SH, so its
address decodes to the `0x<hex>` pseudo-address. -/
def c4Parsed : ParsedBsvTx :=
  { version := 1, inputs := [],
    outputs := [{ address := "0x011111111111111111112d4ea3f7", satoshis := 6666666 }],
    locktime := 0 }

/-- A ledger holding $1 (1_000_000 e6) in the escrow subaccount of order
0 of maker `[1]`. -/
def c7Led : Ledger :=
  [(get_order_deposit_account [1] 0, 1000000)]

/-- Whether an error is the duplicate-transaction rejection. -/
def isDupErr : Err → Bool
  | .duplicateTx _ => true
  | _ => false

/-- A raw BSV transaction with one output of 5 satoshis to the
non-standard one-byte script `0xab` (pseudo-address `0xab`). -/
def resubRawTx : List Byte :=
  [1, 0, 0, 0] ++ [0] ++ [1] ++ [5, 0, 0, 0, 0, 0, 0, 0] ++ [1, 0xab] ++ [0, 0, 0, 0]

def resubRawHex : String := hexEncode resubRawTx

/-- The txid of `resubRawTx`, as the code computes it. -/
def resubTxid : String :=
  match compute_bsv_txid resubRawHex with
  | .ok t => t
  | .error _ => ""

/-- The locked chunk paid by `resubRawTx`'s single output. -/
def resubChunkL : LockedChunk :=
  { chunk_id := 0, order_id := 0, amount_usd := 3, bsv_address := "0xab",
    sats_amount := 5 }

/-- Trade 5 in `TxSubmitted`, submitted at t = 10 with `resubRawHex`
stored and indexed. -/
def resubTrade : Trade :=
  { id := 5, order_id := 0, filler := [2], amount_usd := 3,
    locked_chunks := [resubChunkL], agreed_bsv_price := 45, min_bsv_price := 44,
    status := TradeStatus.TxSubmitted, bsv_tx_hex := some resubRawHex,
    created_at := 0, tx_submitted_at := some 10,
    lock_expires_at := 2700000000000, release_available_at := some 10800000000010,
    claim_expires_at := some 86400000000010, withdrawal_initiated_at := none,
    withdrawal_tx_hash := none, withdrawal_confirmed_at := none }

/-- The parent order of trade 5 (maker `[1]`). -/
def resubOrder : Order :=
  { id := 0, maker := [1], amount_usd := 3, total_deposited_usd := some 3,
    activation_fee_usd := none, filler_incentive_reserved := none,
    deposit_principal := "", deposit_subaccount := "", max_bsv_price := 45,
    bsv_address := "addr", status := OrderStatus.Active, chunks := [0],
    created_at := 0, total_filled_usd := 0, total_locked_usd := 3,
    total_idle_usd := 0, total_refunded_usd := none }

/-- Filler `[2]`'s stats record. -/
def resubFillerAcc : FillerAccount :=
  { id := [2], pending_trades_total := 0, total_trades := 1,
    successful_trades := 0, penalties_paid := 0, created_at := 0 }

/-- The state in which filler `[2]` can resubmit trade 5. -/
def resubSt : St :=
  { orders := [resubOrder], chunks := [], trades := [resubTrade],
    filler_accounts := [resubFillerAcc],
    used_bsv_txids := [(resubTxid, 5)], app := appAt50 }

/-- Same, with a ledger giving filler `[2]` a $1 security balance. -/
def resubSys : Sys :=
  { st := resubSt, ledger := [(get_deposit_account [2], 1000000)] }

/-- A second raw transaction paying the same single output, with version
2 instead of 1, so its txid differs from `resubRawTx`'s. -/
def resubRawTx2 : List Byte :=
  [2, 0, 0, 0] ++ [0] ++ [1] ++ [5, 0, 0, 0, 0, 0, 0, 0] ++ [1, 0xab] ++ [0, 0, 0, 0]

def resubRawHex2 : String := hexEncode resubRawTx2

/-- The txid of `resubRawTx2`, as the code computes it. -/
def resubTxid2 : String :=
  match compute_bsv_txid resubRawHex2 with
  | .ok t => t
  | .error _ => ""

/-- The parse of `resubRawTx2`: the one-byte script `0xab` is neither
P2PKH nor P2SH, so its address decodes to the `0x<hex>` pseudo-address. -/
def resubParsed2 : ParsedBsvTx :=
  { version := 2, inputs := [],
    outputs := [{ address := "0xab", satoshis := 5 }], locktime := 0 }

/-- Whether a trade's stored raw transaction (if any) hex-decodes and has
its computed txid mapped back to the trade itself in the used-txid index. -/
def trade_txid_indexed (st : St) (t : Trade) : Bool :=
  match t.bsv_tx_hex with
  | none => true
  | some hx =>
    match compute_bsv_txid hx with
    | .error _ => false
    | .ok txid => get_trade_using_tx st txid == some t.id

/-- The used-txid index invariant maintained by submit and resubmit:
every stored transaction's computed txid maps back to its own trade. -/
def tx_index_inv (st : St) : Bool :=
  st.trades.all (fun t => trade_txid_indexed st t)

/-- A second trade (id 6) holding the version-2 transaction. -/
def c2Trade2 : Trade :=
  { resubTrade with id := 6, bsv_tx_hex := some resubRawHex2 }

/-- A trade (id 7) still in `ChunksLocked`, about to submit. -/
def c2TradeL : Trade :=
  { resubTrade with
      id := 7,
      filler := [3],
      status := TradeStatus.ChunksLocked,
      bsv_tx_hex := none,
      tx_submitted_at := none,
      lock_expires_at := 100,
      release_available_at := none,
      claim_expires_at := none }

/-- A state with two indexed submitted trades and one `ChunksLocked`
trade, satisfying the used-txid index invariant. -/
def c2St : St :=
  { orders := [resubOrder], chunks := [], trades := [resubTrade, c2Trade2, c2TradeL],
    filler_accounts := [resubFillerAcc],
    used_bsv_txids := [(resubTxid, 5), (resubTxid2, 6)], app := appAt50 }

def c2Sys : Sys := { st := c2St, ledger := [] }

/-- A checksum-valid BSV mainnet address (hash160 = 0). -/
def c10Addr : String := "1111111111111111111114oLvT2"

/-- A completely fresh system (no orders, empty ledger) for order
creation: the new order's subaccount holds nothing and the maker has no
security balance to top it up from. -/
def c10Sys : Sys :=
  { st := { orders := [], chunks := [], trades := [], filler_accounts := [],
            used_bsv_txids := [], app := appAt50 }, ledger := [] }

/-- An Active $3 order (max price exactly $50, the cached price) whose
single chunk 0 sits Idle, with `total_idle_usd = 3`. -/
def c8Order : Order :=
  { id := 0, maker := [1], amount_usd := 3,
    total_deposited_usd := some 3, activation_fee_usd := none,
    filler_incentive_reserved := none, deposit_principal := "",
    deposit_subaccount := "", max_bsv_price := 50, bsv_address := "addr",
    status := OrderStatus.Active, chunks := [0], created_at := 0,
    total_filled_usd := 0, total_locked_usd := 0, total_idle_usd := 3,
    total_refunded_usd := none }

/-- The order's single Idle $3 chunk. -/
def c8Chunk : Chunk :=
  { id := 0, order_id := 0, amount_usd := 3,
    status := ChunkStatus.Idle, locked_by := none, filled_at := none,
    bsv_address := "addr", sats_amount := none, max_bsv_price := 50 }

/-- One Active order at maximum price $50 with its single Idle chunk. -/
def c8St : St :=
  { orders := [c8Order], chunks := [c8Chunk],
    trades := [], filler_accounts := [], used_bsv_txids := [],
    app := appAt50 }

/-- `c8St` after a reactivation tick at price $49, strictly below the
order's $50 maximum. -/
def c8After : St :=
  match reactivate_idle_chunks c8St 49 with
  | .ok s => s
  | .error _ => c8St

/-- The all-zero 64-hex-character txid. -/
def c5Txid : String := String.mk (List.replicate 64 '0')

/-- A BUMP proof for block 100 with a single level holding only the
txid leaf (flags 0x02), whose stored hash is 32 zero bytes. -/
def c5BumpHex : String := "6401010002" ++ String.mk (List.replicate 64 '0')

/-- The parse of `c5BumpHex`. -/
def c5Bump : BumpProof :=
  { block_height := 100,
    path := [[{ offset := 0, hash := c5Txid, txid := some true, duplicate := none }]] }

/-- Stored header of block 100 whose merkle root equals `c5Txid`. -/
def c5Block : BlockHeader :=
  { height := 100, hash := "blockhash100", previous_hash := "p",
    merkle_root := c5Txid, timestamp := 0, bits := 0, nonce := 0,
    version := 0, raw_header := "" }

/-- A local store holding block 100 and a tip at height 117, so block
100 has exactly 18 confirmations. -/
def c5Store : BlockStore :=
  { headers := [c5Block,
      { height := 117, hash := "blockhash117", previous_hash := "p2",
        merkle_root := "m", timestamp := 0, bits := 0, nonce := 0,
        version := 0, raw_header := "" }] }


end EasySwap

namespace EasySwap

/-! # Claim theorems -/

/- Rational arithmetic is sealed (irreducible) by default; open it up so
that the concrete states in witness theorems evaluate inside `decide`. -/
unseal Rat.add Rat.sub Rat.mul Rat.inv

/-- C1.  The spec claims `filled + locked + idle + available + refunded =
total` after every chunk-status-changing operation, including idling.
The idling operation `check_and_mark_idle_orders` moves an order's
`Available` chunks to `Idle` without adding their amount to the order's
`total_idle_usd`, so on a funded $3 order whose maximum price ($45) is
below the fresh cached market price ($50) the equation holds before the
call and fails after it: the code is in conflict with the invariant the
spec (and the rest of the code base, which maintains `total_idle_usd` on
every other idle transition) intends. -/
theorem c1_idling_breaks_accounting_invariant :
    accounting_ok idlingSt = true ∧
    (check_and_mark_idle_orders idlingSt 100).toOption.map accounting_ok =
      some false := by
  constructor <;> decide

/-! ### Small projection lemmas about the state updaters -/

theorem update_chunk_ok_eq {st st' : St} {cid : ℕ} {f : Chunk → Chunk}
    (h : update_chunk st cid f = .ok st') :
    st' = { st with chunks := st.chunks.map (fun c => if c.id == cid then f c else c) } := by
  unfold update_chunk at h
  split at h
  · exact (Except.ok.inj h).symm
  · exact Except.noConfusion h

theorem update_order_ok_eq {st st' : St} {oid : ℕ} {f : Order → Order}
    (h : update_order st oid f = .ok st') :
    st' = { st with orders := st.orders.map (fun o => if o.id == oid then f o else o) } := by
  unfold update_order at h
  split at h
  · exact (Except.ok.inj h).symm
  · exact Except.noConfusion h

theorem update_trade_ok_eq {st st' : St} {tid : ℕ} {f : Trade → Trade}
    (h : update_trade st tid f = .ok st') :
    st' = { st with trades := st.trades.map (fun t => if t.id == tid then f t else t) } := by
  unfold update_trade at h
  split at h
  · exact (Except.ok.inj h).symm
  · exact Except.noConfusion h

theorem update_filler_account_ok_eq {st st' : St} {p : Principal}
    {f : FillerAccount → FillerAccount}
    (h : update_filler_account st p f = .ok st') :
    st' = { st with filler_accounts :=
      st.filler_accounts.map (fun a => if a.id == p then f a else a) } := by
  unfold update_filler_account at h
  split at h
  · exact (Except.ok.inj h).symm
  · exact Except.noConfusion h

/-- Locking chunks touches only the chunk and order stores. -/
theorem lock_chunks_for_trade_frame (chunk_ids : List ℕ) :
    ∀ (st : St) (trade_id : ℕ) (st' : St),
      lock_chunks_for_trade st chunk_ids trade_id = .ok st' →
      st'.trades = st.trades ∧ st'.app = st.app ∧
        st'.used_bsv_txids = st.used_bsv_txids := by
  induction chunk_ids with
  | nil =>
    intro st tid st' h
    simp only [lock_chunks_for_trade] at h
    cases h
    exact ⟨rfl, rfl, rfl⟩
  | cons c rest ih =>
    intro st tid st' h
    simp only [lock_chunks_for_trade] at h
    split at h
    · exact ih st tid st' h
    · split at h
      · exact Except.noConfusion h
      · split at h
        · exact Except.noConfusion h
        · rename_i st1 hupd1
          split at h
          · exact Except.noConfusion h
          · rename_i st2 hupd2
            have h1 := update_chunk_ok_eq hupd1
            have h2 := update_order_ok_eq hupd2
            have := ih st2 tid st' h
            subst h1; subst h2
            simpa using this

/-! ### Characterization of the output-matching loop -/

theorem validate_outputs_go_ok_iff (outputs : List BsvOutput) :
    ∀ (expected : List LockedChunk) (i : ℕ),
      validate_outputs_go outputs i expected = .ok () ↔
      ∀ j, j < expected.length →
        output_matches outputs (i + j) (expected.getD j lockedChunkDefault) := by
  intro expected
  induction expected with
  | nil => intro i; simp [validate_outputs_go]
  | cons e rest ih =>
    intro i
    simp only [validate_outputs_go]
    split
    · rename_i hsats
      constructor
      · intro h; exact Except.noConfusion h
      · intro hR
        have h0 := hR 0 (by simp)
        rw [Nat.add_zero] at h0
        exact absurd h0.1 hsats
    · rename_i hsats
      split
      · rename_i haddr
        constructor
        · intro h; exact Except.noConfusion h
        · intro hR
          have h0 := hR 0 (by simp)
          rw [Nat.add_zero] at h0
          rcases h0.2 with heq | hsub
          · exact absurd heq haddr.1
          · exact absurd hsub (by simpa using haddr.2)
      · rename_i haddr
        rw [ih (i + 1)]
        constructor
        · intro hR j hj
          cases j with
          | zero =>
            rw [Nat.add_zero]
            refine ⟨by simpa using hsats, ?_⟩
            by_cases heq : strLower (strTrim (outputs.getD i
                { address := "", satoshis := 0 }).address) =
                strLower (strTrim e.bsv_address)
            · exact Or.inl heq
            · right
              by_contra hsub
              exact haddr ⟨heq, by simpa using hsub⟩
          | succ k =>
            have hk : k < rest.length := by
              simpa [Nat.succ_lt_succ_iff] using hj
            have hmem := hR k hk
            have harith : i + 1 + k = i + (k + 1) := by omega
            rw [harith] at hmem
            simpa using hmem
        · intro hR j hj
          have hmem := hR (j + 1) (by simpa [Nat.succ_lt_succ_iff] using hj)
          have harith : i + (j + 1) = i + 1 + j := by omega
          rw [harith] at hmem
          simpa using hmem

/-- Helper: full characterization of `validate_transaction_outputs`. -/
theorem validate_transaction_outputs_ok_iff (parsed_tx : ParsedBsvTx)
    (expected_outputs : List LockedChunk) :
    validate_transaction_outputs parsed_tx expected_outputs = .ok () ↔
    (expected_outputs.length ≤ parsed_tx.outputs.length ∧
      ∀ j, j < expected_outputs.length →
        output_matches parsed_tx.outputs j
          (expected_outputs.getD j lockedChunkDefault)) := by
  unfold validate_transaction_outputs
  split
  · rename_i hlen
    constructor
    · intro h; exact Except.noConfusion h
    · intro hR; omega
  · rename_i hlen
    rw [validate_outputs_go_ok_iff]
    constructor
    · intro hR
      exact ⟨by omega, fun j hj => by simpa using hR j hj⟩
    · intro hR j hj
      simpa using hR.2 j hj

/-- C4 (amended).  Output validation succeeds if and only if the
transaction has at least as many outputs as locked chunks and, at every
index below the locked-chunk count, the output's satoshis equal the
chunk's required satoshis and the trimmed, lower-cased decoded address
either equals the trimmed, lower-cased expected address or contains it
as a substring; extra outputs after the locked set are permitted. -/
theorem c4_output_validation_characterization (parsed_tx : ParsedBsvTx)
    (expected_outputs : List LockedChunk) :
    validate_transaction_outputs parsed_tx expected_outputs = .ok () ↔
    (expected_outputs.length ≤ parsed_tx.outputs.length ∧
      ∀ j, j < expected_outputs.length →
        output_matches parsed_tx.outputs j
          (expected_outputs.getD j lockedChunkDefault)) :=
  validate_transaction_outputs_ok_iff parsed_tx expected_outputs

set_option maxRecDepth 8000 in
/-- C4 (counterexample).  A transaction output whose non-standard script
decodes to the pseudo-address `0x011111111111111111112d4ea3f7` passes
validation against a chunk expecting the checksum-valid mainnet address
`11111111111111111112D4EA3F7`, although the decoded address does not
equal the expected address even after trimming and lower-casing — the
substring branch of the comparison accepts it, contradicting the claim
that only equality passes. -/
theorem c4_output_address_substring_counterexample :
    parse_bsv_transaction (hexEncode c4RawTx) = .ok c4Parsed ∧
    extract_address_from_script c4Script = .ok "0x011111111111111111112d4ea3f7" ∧
    validate_transaction_outputs c4Parsed [c4Chunk] = .ok () ∧
    is_valid_bsv_mainnet_address c4Chunk.bsv_address = true ∧
    strLower (strTrim "0x011111111111111111112d4ea3f7") ≠
      strLower (strTrim c4Chunk.bsv_address) := by
  refine ⟨by decide, by decide, by decide, by decide, by decide⟩

/-- C4 (witness): the characterization applied to the concrete
transaction and chunk of the counterexample. -/
theorem c4_output_validation_characterization_witness :
    validate_transaction_outputs c4Parsed [c4Chunk] = .ok () :=
  (c4_output_validation_characterization c4Parsed [c4Chunk]).mpr
    ⟨by decide, fun j hj => by
      have hj0 : j = 0 := Nat.lt_one_iff.mp hj
      subst hj0; decide⟩

/-- C3 (counterexample).  `create_trades` builds trades through
`create_single_trade`; on a $3 chunk at agreed price 45 the stored
satoshi requirement is 6_666_666 (`(3/45 × 10^8) as u64` truncates),
while the claim's formula `round(3/45 × 10^8)` equals 6_666_667, so the
claim's equation fails at its own example input. -/
theorem c3_trade_satoshis_round_counterexample :
    (create_single_trade idlingSt [7] 0 [idlingChunk] 45 44 0).toOption.map
        (fun p => p.2.trades.map (fun t => t.locked_chunks.map (fun lc => lc.sats_amount)))
      = some [[6666666]] ∧
    spec_round_satoshis 3 45 = 6666667 ∧ (6666666 : ℕ) ≠ 6666667 := by
  refine ⟨by decide, by decide, by decide⟩

/-- C3 (amended).  Every trade built by `create_single_trade` stores,
for each locked chunk, the satoshi amount
`trunc(chunk_amount_usd / agreed_bsv_price × 10^8)` (truncation, not
rounding) — in particular 6_666_666 for a $3 chunk at price 45 — and a
submitted transaction passes output matching only if each output carries
exactly the stored satoshi amount at its index. -/
theorem c3_trade_satoshis_truncation (st st' : St) (filler : Principal)
    (oid tid now : ℕ) (chunks : List Chunk) (agreed minp : ℚ)
    (h : create_single_trade st filler oid chunks agreed minp now = .ok (tid, st')) :
    ∃ t : Trade, st'.trades = st.trades ++ [t] ∧
      t.locked_chunks.map (fun lc => lc.sats_amount) =
        chunks.map (fun c =>
          ratTruncToNat (c.amount_usd / agreed * (SATOSHIS_PER_BSV : ℚ))) ∧
      ∀ parsed : ParsedBsvTx,
        validate_transaction_outputs parsed t.locked_chunks = .ok () →
        ∀ j, j < t.locked_chunks.length →
          (parsed.outputs.getD j { address := "", satoshis := 0 }).satoshis =
            (t.locked_chunks.getD j lockedChunkDefault).sats_amount := by
  simp only [create_single_trade] at h
  split at h
  · exact Except.noConfusion h
  · rename_i st1 hlock
    have hst' := (congrArg Prod.snd (Except.ok.inj h)).symm
    subst hst'
    have htr : st1.trades = st.trades := by
      have hframe := lock_chunks_for_trade_frame _ _ _ _ hlock
      simpa using hframe.1
    refine ⟨{ id := st.app.next_trade_id, order_id := oid, filler := filler,
              amount_usd := (chunks.map (fun c => c.amount_usd)).sum,
              locked_chunks := chunks.map (fun chunk =>
                { chunk_id := chunk.id, order_id := chunk.order_id,
                  amount_usd := chunk.amount_usd, bsv_address := chunk.bsv_address,
                  sats_amount := ratTruncToNat
                    (chunk.amount_usd / agreed * (SATOSHIS_PER_BSV : ℚ)) }),
              agreed_bsv_price := agreed, min_bsv_price := minp,
              status := TradeStatus.ChunksLocked, bsv_tx_hex := none,
              created_at := now, tx_submitted_at := none,
              lock_expires_at := now + TRADE_TIMEOUT_NS,
              release_available_at := none, claim_expires_at := none,
              withdrawal_initiated_at := none, withdrawal_tx_hash := none,
              withdrawal_confirmed_at := none }, ?_, ?_, ?_⟩
    · show st1.trades ++ _ = _
      rw [htr]
    · simp only [List.map_map]
      rfl
    · intro parsed hval j hj
      exact (((validate_transaction_outputs_ok_iff parsed _).mp hval).2 j hj).1

/-! ### Ledger-balance lemmas -/

theorem balance_of_ledgerSet_self (led : Ledger) (a : Account) (v : ℕ) :
    balance_of (ledgerSet led a v) a = v := by
  induction led with
  | nil => simp [ledgerSet, balance_of, List.find?]
  | cons p rest ih =>
    by_cases h : p.1 == a
    · simp [ledgerSet, balance_of, List.find?, h]
    · simp only [ledgerSet, if_neg h]
      simpa [balance_of, List.find?, h] using ih

theorem balance_of_ledgerSet_other (led : Ledger) (a b : Account) (v : ℕ)
    (hne : b ≠ a) :
    balance_of (ledgerSet led a v) b = balance_of led b := by
  have hba : (a == b) = false := by
    simpa using fun hc => hne (by simpa using hc.symm)
  induction led with
  | nil => simp [ledgerSet, balance_of, List.find?, hba]
  | cons p rest ih =>
    by_cases h : p.1 == a
    · have hpb : (p.1 == b) = false := by
        have hpa : p.1 = a := by simpa using h
        simpa [hpa] using hba
      simp [ledgerSet, balance_of, List.find?, h, hpb, hba]
    · by_cases hb : p.1 == b
      · simp [ledgerSet, balance_of, List.find?, h, hb]
      · simp only [ledgerSet, if_neg h]
        simpa [balance_of, List.find?, h, hb] using ih

/-- C7.  A gross transfer of `A` base units from an order's escrow
subaccount fails with the amount-too-small error when `A` is at most the
fixed $0.01 fee; otherwise (given the subaccount can cover `A` and the
recipient account differs from the subaccount) it succeeds, the
recipient gains exactly `A − fee`, and the subaccount loses exactly `A`. -/
theorem c7_transfer_gross_fee_accounting (led : Ledger) (maker : Principal)
    (order_id : ℕ) (to_principal : Principal) (to_sub : Option (List Byte)) (A : ℕ) :
    (A ≤ CKUSDC_TRANSFER_FEE →
      transfer_ckusdc_from_order led maker order_id to_principal to_sub A =
        .error .amountTooSmallForFee) ∧
    (CKUSDC_TRANSFER_FEE < A →
      A ≤ balance_of led (get_order_deposit_account maker order_id) →
      ({ owner := to_principal, sub := to_sub } : Account) ≠
        get_order_deposit_account maker order_id →
      ∃ led', transfer_ckusdc_from_order led maker order_id to_principal to_sub A =
          .ok led' ∧
        balance_of led' { owner := to_principal, sub := to_sub } =
          balance_of led { owner := to_principal, sub := to_sub } +
            (A - CKUSDC_TRANSFER_FEE) ∧
        balance_of led' (get_order_deposit_account maker order_id) =
          balance_of led (get_order_deposit_account maker order_id) - A) := by
  constructor
  · intro hA
    have hz : A - CKUSDC_TRANSFER_FEE = 0 := Nat.sub_eq_zero_of_le hA
    simp [transfer_ckusdc_from_order, hz]
  · intro hA hbal hne
    have hz : ¬ (A - CKUSDC_TRANSFER_FEE = 0) := by
      unfold CKUSDC_TRANSFER_FEE at *; omega
    have hcover : ¬ (balance_of led (get_order_deposit_account maker order_id) <
        (A - CKUSDC_TRANSFER_FEE) + CKUSDC_TRANSFER_FEE) := by
      unfold CKUSDC_TRANSFER_FEE at *; omega
    simp only [transfer_ckusdc_from_order, transfer_ckusdc_from_order_raw,
      icrc1_transfer, if_neg hz, if_neg hcover]
    refine ⟨_, rfl, ?_, ?_⟩
    · rw [balance_of_ledgerSet_self,
        balance_of_ledgerSet_other _ _ _ _ hne]
    · rw [balance_of_ledgerSet_other _ _ _ _ (Ne.symm hne),
        balance_of_ledgerSet_self]
      unfold CKUSDC_TRANSFER_FEE at *; omega

/-- C7 (witness): at the concrete order subaccount holding $1, a $0.005
gross transfer fails as too small, and a $0.03 gross transfer sends
$0.02 to the recipient while the subaccount loses $0.03. -/
theorem c7_transfer_gross_fee_accounting_witness :
    transfer_ckusdc_from_order c7Led [1] 0 [2] none 5000 =
      .error .amountTooSmallForFee ∧
    ∃ led', transfer_ckusdc_from_order c7Led [1] 0 [2] none 30000 = .ok led' ∧
      balance_of led' { owner := [2], sub := none } =
        balance_of c7Led { owner := [2], sub := none } + (30000 - CKUSDC_TRANSFER_FEE) ∧
      balance_of led' (get_order_deposit_account [1] 0) =
        balance_of c7Led (get_order_deposit_account [1] 0) - 30000 :=
  ⟨(c7_transfer_gross_fee_accounting c7Led [1] 0 [2] none 5000).1 (by decide),
   (c7_transfer_gross_fee_accounting c7Led [1] 0 [2] none 30000).2
     (by decide) (by decide) (by decide)⟩

/-- C5.  For a parseable BUMP proof whose block height is present in the
local header store (and a well-formed txid for which the merkle walk
computes a root), SPV verification succeeds — returns `Ok` with
`verified = true` — if and only if the recomputed merkle root equals the
stored header's merkle root and the confirmation count
`tip − height + 1` is at least `CONFIRMATION_DEPTH` (18); a merkle
mismatch or fewer confirmations never verifies. -/
theorem c5_spv_success_iff (bs : BlockStore) (txid bump_hex : String)
    (bump : BumpProof) (block : BlockHeader) (computed_root : String)
    (htxlen : txid.length = 64)
    (hbumplen : bump_hex.length ≤ 10000)
    (htxhex : txid.data.all isAsciiHexDigit = true)
    (hparse : parse_bump_hex bump_hex = .ok bump)
    (hblock : get_block_by_height bs bump.block_height = some block)
    (hroot : compute_merkle_root txid bump.path = .ok computed_root) :
    (∃ v : TxVerification, verify_tx_bump bs txid bump_hex = .ok v ∧
        v.verified = true) ↔
      (computed_root = block.merkle_root ∧
        bump.block_height + CONFIRMATION_DEPTH ≤ get_highest_block bs + 1) := by
  have hbumplen' : ¬ (bump_hex.length > 10000) := by omega
  simp only [verify_tx_bump, htxlen, hparse, hblock, hroot, htxhex]
  simp only [if_neg (by simp : ¬ (64 ≠ 64)), if_neg hbumplen']
  by_cases hm : computed_root = block.merkle_root
  · simp only [hm, if_neg (by simp : ¬ (block.merkle_root ≠ block.merkle_root))]
    by_cases hlt : get_highest_block bs < bump.block_height
    · have : ¬ (bump.block_height + CONFIRMATION_DEPTH ≤ get_highest_block bs + 1) := by
        unfold CONFIRMATION_DEPTH; omega
      simp [hlt, this]
    · by_cases hconf : get_highest_block bs - bump.block_height + 1 < CONFIRMATION_DEPTH
      · have : ¬ (bump.block_height + CONFIRMATION_DEPTH ≤ get_highest_block bs + 1) := by
          unfold CONFIRMATION_DEPTH at *; omega
        simp [hlt, hconf, this]
      · have : bump.block_height + CONFIRMATION_DEPTH ≤ get_highest_block bs + 1 := by
          unfold CONFIRMATION_DEPTH at *; omega
        simp [hlt, hconf, this]
  · have hm' : computed_root ≠ block.merkle_root := hm
    simp [hm', hm]

/-- C5 (witness): a one-leaf proof for block 100 whose recomputed root
is the txid itself, against a store whose tip is height 117 — exactly 18
confirmations — verifies. -/
theorem c5_spv_success_iff_witness :
    ∃ v : TxVerification, verify_tx_bump c5Store c5Txid c5BumpHex = .ok v ∧
      v.verified = true :=
  (c5_spv_success_iff c5Store c5Txid c5BumpHex c5Bump c5Block c5Txid
    (by decide) (by decide) (by decide) (by decide) (by decide) (by decide)).mpr
    ⟨by decide, by decide⟩

/-- C3 (witness): the amended statement at the concrete $3 chunk and
agreed price 45. -/
theorem c3_trade_satoshis_truncation_witness :
    ∃ t : Trade, c3RunSt.trades = idlingSt.trades ++ [t] ∧
      t.locked_chunks.map (fun lc => lc.sats_amount) =
        [idlingChunk].map (fun c =>
          ratTruncToNat (c.amount_usd / 45 * (SATOSHIS_PER_BSV : ℚ))) ∧
      ∀ parsed : ParsedBsvTx,
        validate_transaction_outputs parsed t.locked_chunks = .ok () →
        ∀ j, j < t.locked_chunks.length →
          (parsed.outputs.getD j { address := "", satoshis := 0 }).satoshis =
            (t.locked_chunks.getD j lockedChunkDefault).sats_amount :=
  c3_trade_satoshis_truncation idlingSt c3RunSt [7] 0 0 0 [idlingChunk] 45 44
    (by decide)

/-! ### Error-range lemmas: which errors each helper can produce.
Used to show that no propagated error is the duplicate-txid rejection. -/

theorem compute_bsv_txid_err {raw : String} {e : Err}
    (h : compute_bsv_txid raw = .error e) : e = .invalidTxHex := by
  unfold compute_bsv_txid at h
  split at h
  · exact (Except.error.inj h).symm
  · exact Except.noConfusion h

theorem read_bytes_err {bytes : List Byte} {c l : ℕ} {e : Err}
    (h : read_bytes bytes c l = .error e) : isDupErr e = false := by
  unfold read_bytes at h
  split at h
  · exact (Except.error.inj h) ▸ rfl
  · exact Except.noConfusion h

theorem read_u32_le_err {bytes : List Byte} {c : ℕ} {e : Err}
    (h : read_u32_le bytes c = .error e) : isDupErr e = false := by
  unfold read_u32_le at h
  split at h
  · exact (Except.error.inj h) ▸ rfl
  · exact Except.noConfusion h

theorem read_u64_le_err {bytes : List Byte} {c : ℕ} {e : Err}
    (h : read_u64_le bytes c = .error e) : isDupErr e = false := by
  unfold read_u64_le at h
  split at h
  · exact (Except.error.inj h) ▸ rfl
  · exact Except.noConfusion h

theorem read_varint_err {bytes : List Byte} {c : ℕ} {e : Err}
    (h : read_varint bytes c = .error e) : isDupErr e = false := by
  unfold read_varint at h
  split at h
  · exact (Except.error.inj h) ▸ rfl
  · dsimp only at h
    split at h
    · exact Except.noConfusion h
    · split at h
      · split at h
        · exact (Except.error.inj h) ▸ rfl
        · exact Except.noConfusion h
      · split at h
        · exact read_u32_le_err h
        · exact read_u64_le_err h

theorem extract_address_from_script_err {script : List Byte} {e : Err}
    (h : extract_address_from_script script = .error e) : isDupErr e = false := by
  unfold extract_address_from_script at h
  split at h
  · exact (Except.error.inj h) ▸ rfl
  · split at h
    · exact Except.noConfusion h
    · split at h
      · exact Except.noConfusion h
      · exact Except.noConfusion h

theorem parse_input_err {bytes : List Byte} {c : ℕ} {e : Err}
    (h : parse_input bytes c = .error e) : isDupErr e = false := by
  unfold parse_input at h
  split at h
  · exact read_bytes_err (by rw [‹read_bytes bytes c 32 = _›]; exact congrArg Except.error (Except.error.inj h))
  · split at h
    · rename_i heq
      exact (Except.error.inj h) ▸ read_u32_le_err heq
    · split at h
      · rename_i heq
        exact (Except.error.inj h) ▸ read_varint_err heq
      · split at h
        · rename_i heq
          exact (Except.error.inj h) ▸ read_bytes_err heq
        · split at h
          · rename_i heq
            exact (Except.error.inj h) ▸ read_u32_le_err heq
          · exact Except.noConfusion h

theorem parse_output_err {bytes : List Byte} {c : ℕ} {e : Err}
    (h : parse_output bytes c = .error e) : isDupErr e = false := by
  unfold parse_output at h
  split at h
  · rename_i heq
    exact (Except.error.inj h) ▸ read_u64_le_err heq
  · split at h
    · rename_i heq
      exact (Except.error.inj h) ▸ read_varint_err heq
    · split at h
      · rename_i heq
        exact (Except.error.inj h) ▸ read_bytes_err heq
      · split at h
        · rename_i heq
          exact (Except.error.inj h) ▸ extract_address_from_script_err heq
        · exact Except.noConfusion h

theorem parse_inputs_err {bytes : List Byte} :
    ∀ {count c : ℕ} {e : Err},
      parse_inputs bytes count c = .error e → isDupErr e = false := by
  intro count
  induction count with
  | zero => intro c e h; exact Except.noConfusion h
  | succ n ih =>
    intro c e h
    unfold parse_inputs at h
    split at h
    · rename_i heq
      exact (Except.error.inj h) ▸ parse_input_err heq
    · split at h
      · rename_i heq
        exact (Except.error.inj h) ▸ ih heq
      · exact Except.noConfusion h

theorem parse_outputs_err {bytes : List Byte} :
    ∀ {count c : ℕ} {e : Err},
      parse_outputs bytes count c = .error e → isDupErr e = false := by
  intro count
  induction count with
  | zero => intro c e h; exact Except.noConfusion h
  | succ n ih =>
    intro c e h
    unfold parse_outputs at h
    split at h
    · rename_i heq
      exact (Except.error.inj h) ▸ parse_output_err heq
    · split at h
      · rename_i heq
        exact (Except.error.inj h) ▸ ih heq
      · exact Except.noConfusion h

theorem parse_bsv_transaction_err {raw : String} {e : Err}
    (h : parse_bsv_transaction raw = .error e) : isDupErr e = false := by
  unfold parse_bsv_transaction at h
  split at h
  · exact (Except.error.inj h) ▸ rfl
  · split at h
    · exact (Except.error.inj h) ▸ rfl
    · split at h
      · rename_i heq
        exact (Except.error.inj h) ▸ read_u32_le_err heq
      · split at h
        · rename_i heq
          exact (Except.error.inj h) ▸ read_varint_err heq
        · split at h
          · rename_i heq
            exact (Except.error.inj h) ▸ parse_inputs_err heq
          · split at h
            · rename_i heq
              exact (Except.error.inj h) ▸ read_varint_err heq
            · split at h
              · rename_i heq
                exact (Except.error.inj h) ▸ parse_outputs_err heq
              · split at h
                · rename_i heq
                  exact (Except.error.inj h) ▸ read_u32_le_err heq
                · exact Except.noConfusion h

theorem validate_outputs_go_err {outputs : List BsvOutput} :
    ∀ {expected : List LockedChunk} {i : ℕ} {e : Err},
      validate_outputs_go outputs i expected = .error e → isDupErr e = false := by
  intro expected
  induction expected with
  | nil => intro i e h; exact Except.noConfusion h
  | cons x rest ih =>
    intro i e h
    unfold validate_outputs_go at h
    dsimp only at h
    split at h
    · exact (Except.error.inj h) ▸ rfl
    · split at h
      · exact (Except.error.inj h) ▸ rfl
      · exact ih h

theorem validate_transaction_outputs_err {parsed : ParsedBsvTx}
    {expected : List LockedChunk} {e : Err}
    (h : validate_transaction_outputs parsed expected = .error e) :
    isDupErr e = false := by
  unfold validate_transaction_outputs at h
  split at h
  · exact (Except.error.inj h) ▸ rfl
  · exact validate_outputs_go_err h

theorem update_trade_err {st : St} {tid : ℕ} {f : Trade → Trade} {e : Err}
    (h : update_trade st tid f = .error e) : isDupErr e = false := by
  unfold update_trade at h
  split at h
  · exact Except.noConfusion h
  · exact (Except.error.inj h) ▸ rfl

theorem icrc1_transfer_err {led : Ledger} {fromAcc toAcc : Account}
    {amount fee : ℕ} {e : Err}
    (h : icrc1_transfer led fromAcc toAcc amount fee = .error e) :
    isDupErr e = false := by
  unfold icrc1_transfer at h
  dsimp only at h
  split at h
  · exact (Except.error.inj h) ▸ rfl
  · exact Except.noConfusion h

theorem deduct_penalty_err {sys sys' : Sys} {p : Principal} {amt : ℚ}
    {recipient : Option Principal} {e : Err}
    (h : deduct_penalty sys p amt recipient = (sys', .error e)) :
    isDupErr e = false := by
  unfold deduct_penalty at h
  split at h
  · rename_i heq
    have hsnd := congrArg Prod.snd h
    simp only at hsnd
    have he := Except.error.inj hsnd
    unfold update_filler_account at heq
    split at heq
    · exact Except.noConfusion heq
    · exact he ▸ (Except.error.inj heq) ▸ rfl
  · cases recipient with
    | none =>
      dsimp only at h
      split at h
      · rename_i heq
        have hsnd := congrArg Prod.snd h
        simp only at hsnd
        exact (Except.error.inj hsnd) ▸ icrc1_transfer_err heq
      · have hsnd := congrArg Prod.snd h
        simp only at hsnd
        exact Except.noConfusion hsnd
    | some maker =>
      dsimp only at h
      split at h
      · rename_i heq
        have hsnd := congrArg Prod.snd h
        simp only at hsnd
        exact (Except.error.inj hsnd) ▸ icrc1_transfer_err heq
      · have hsnd := congrArg Prod.snd h
        simp only at hsnd
        exact Except.noConfusion hsnd

theorem submit_after_dup_check_err {sys : Sys} {now trade_id : ℕ}
    {raw_tx_hex txid : String} {e : Err}
    (h : (submit_bsv_transaction.submit_after_dup_check sys now trade_id
        raw_tx_hex txid).2 = .error e) :
    isDupErr e = false := by
  unfold submit_bsv_transaction.submit_after_dup_check at h
  split at h
  · rename_i heq
    dsimp only at h
    exact (Except.error.inj h) ▸ parse_bsv_transaction_err heq
  · split at h
    · dsimp only at h
      exact (Except.error.inj h) ▸ rfl
    · split at h
      · rename_i heq
        dsimp only at h
        exact (Except.error.inj h) ▸ validate_transaction_outputs_err heq
      · dsimp only at h
        split at h
        · rename_i heq
          dsimp only at h
          exact (Except.error.inj h) ▸ update_trade_err heq
        · dsimp only at h
          exact Except.noConfusion h

theorem resubmit_after_dup_check_err {sys : Sys} {caller : Principal}
    {now trade_id : ℕ} {raw_tx_hex new_txid : String} {trade : Trade}
    {penalty_amount : ℚ} {e : Err}
    (h : (resubmit_bsv_transaction.resubmit_after_dup_check sys caller now
        trade_id raw_tx_hex new_txid trade penalty_amount).2 = .error e) :
    isDupErr e = false := by
  unfold resubmit_bsv_transaction.resubmit_after_dup_check at h
  split at h
  · rename_i heq
    dsimp only at h
    exact (Except.error.inj h) ▸ parse_bsv_transaction_err heq
  · split at h
    · rename_i heq
      dsimp only at h
      exact (Except.error.inj h) ▸ validate_transaction_outputs_err heq
    · dsimp only at h
      split at h
      · rename_i heq
        dsimp only at h
        exact (Except.error.inj h) ▸ deduct_penalty_err heq
      · split at h
        · rename_i heq
          dsimp only at h
          exact (Except.error.inj h) ▸ update_trade_err heq
        · dsimp only at h
          exact Except.noConfusion h

/-- C9: the duplicate-txid check rejects only a txid mapped to a different
trade.  When the computed txid of the submitted raw transaction is already
mapped to the trade itself in the used-txid index — in particular when the
byte-identical stored transaction is resubmitted — neither
`submit_bsv_transaction` nor `resubmit_bsv_transaction` can return the
duplication error: every error they produce satisfies `isDupErr e = false`. -/
theorem c9_same_trade_txid_not_duplicate
    (sys : Sys) (caller : Principal) (now trade_id : ℕ)
    (raw_tx_hex txid : String)
    (hcomp : compute_bsv_txid raw_tx_hex = .ok txid)
    (hidx : get_trade_using_tx sys.st txid = some trade_id) :
    (∀ e, (submit_bsv_transaction sys caller now trade_id raw_tx_hex).2 =
        .error e → isDupErr e = false) ∧
    (∀ e, (resubmit_bsv_transaction sys caller now trade_id raw_tx_hex).2 =
        .error e → isDupErr e = false) := by
  constructor
  · intro e h
    unfold submit_bsv_transaction at h
    split at h
    · dsimp only at h
      exact (Except.error.inj h) ▸ rfl
    · split at h
      · dsimp only at h
        exact (Except.error.inj h) ▸ rfl
      · split at h
        · dsimp only at h
          exact (Except.error.inj h) ▸ rfl
        · split at h
          · dsimp only at h
            exact (Except.error.inj h) ▸ rfl
          · split at h
            · dsimp only at h
              exact (Except.error.inj h) ▸ rfl
            · rw [hcomp] at h
              dsimp only at h
              rw [hidx] at h
              dsimp only at h
              rw [if_neg (fun hh => hh rfl)] at h
              exact submit_after_dup_check_err h
  · intro e h
    unfold resubmit_bsv_transaction at h
    split at h
    · dsimp only at h
      exact (Except.error.inj h) ▸ rfl
    · split at h
      · dsimp only at h
        exact (Except.error.inj h) ▸ rfl
      · split at h
        · dsimp only at h
          exact (Except.error.inj h) ▸ rfl
        · split at h
          · dsimp only at h
            exact (Except.error.inj h) ▸ rfl
          · split at h
            · dsimp only at h
              exact (Except.error.inj h) ▸ rfl
            · split at h
              · dsimp only at h
                exact (Except.error.inj h) ▸ rfl
              · dsimp only at h
                split at h
                · dsimp only at h
                  exact (Except.error.inj h) ▸ rfl
                · rw [hcomp] at h
                  dsimp only at h
                  rw [hidx] at h
                  dsimp only at h
                  rw [if_neg (fun hh => hh rfl)] at h
                  exact resubmit_after_dup_check_err h

set_option maxRecDepth 8000 in
/-- Witness for C9: in the concrete resubmission state, the stored raw
transaction of trade 5 computes to the txid the index maps to trade 5
itself, and the theorem applies. -/
theorem c9_same_trade_txid_not_duplicate_witness :
    compute_bsv_txid resubRawHex = .ok resubTxid ∧
    get_trade_using_tx resubSys.st resubTxid = some 5 ∧
    ((∀ e, (submit_bsv_transaction resubSys [2] 20 5 resubRawHex).2 =
        .error e → isDupErr e = false) ∧
     (∀ e, (resubmit_bsv_transaction resubSys [2] 20 5 resubRawHex).2 =
        .error e → isDupErr e = false)) :=
  ⟨by decide, by decide,
   c9_same_trade_txid_not_duplicate resubSys [2] 20 5 resubRawHex resubTxid
     (by decide) (by decide)⟩

theorem find_of_map_pred {α : Type} (p : α → Bool) (g : α → α)
    (hp : ∀ t, p (g t) = p t) :
    ∀ ts : List α, (ts.map g).find? p = (ts.find? p).map g := by
  intro ts
  induction ts with
  | nil => rfl
  | cons t rest ih =>
    by_cases h : p t = true
    · rw [List.map_cons, List.find?_cons_of_pos _ (by rw [hp]; exact h),
        List.find?_cons_of_pos _ h, Option.map_some']
    · rw [List.map_cons, List.find?_cons_of_neg _ (by rw [hp]; exact h),
        List.find?_cons_of_neg _ h, ih]

theorem assocSet_find_self (l : List (String × ℕ)) (k : String) (v : ℕ) :
    (assocSet l k v).find? (fun q => q.1 == k) = some (k, v) := by
  induction l with
  | nil => simp [assocSet, List.find?]
  | cons p rest ih =>
    by_cases h : p.1 == k
    · simp [assocSet, h, List.find?]
    · simp [assocSet, h, List.find?, ih]

theorem update_trade_eq {st : St} {tid : ℕ} (f : Trade → Trade)
    (h : (st.trades.find? (fun x => x.id == tid)).isSome = true) :
    update_trade st tid f =
      .ok { st with trades :=
        st.trades.map (fun x => if x.id == tid then f x else x) } := by
  unfold update_trade get_trade
  rw [if_pos h]

theorem resubmit_after_dup_check_ok (sys : Sys) (caller : Principal)
    (now trade_id : ℕ) (raw new_txid : String) (trade : Trade) (penalty : ℚ)
    (parsed : ParsedBsvTx) (order : Order) (old_hex old_txid : String)
    (ht : get_trade sys.st trade_id = some trade)
    (hparse : parse_bsv_transaction raw = .ok parsed)
    (hval : validate_transaction_outputs parsed trade.locked_chunks = .ok ())
    (horder : get_order sys.st trade.order_id = some order)
    (hfa : (get_filler_account sys.st caller).isSome = true)
    (hfee : CKUSDC_TRANSFER_FEE ≤ usd_to_ckusdc_e6 penalty)
    (hbal : usd_to_ckusdc_e6 penalty ≤
      balance_of sys.ledger (get_deposit_account caller))
    (hold : trade.bsv_tx_hex = some old_hex)
    (holdc : compute_bsv_txid old_hex = .ok old_txid) :
    ∃ sys' : Sys,
      resubmit_bsv_transaction.resubmit_after_dup_check sys caller now trade_id
          raw new_txid trade penalty = (sys', .ok ()) ∧
      get_trade sys'.st trade_id =
        some { trade with
                 bsv_tx_hex := some raw,
                 release_available_at := some (now + USDC_RELEASE_WAIT_NS) } ∧
      sys'.st.used_bsv_txids =
        assocSet (assocRemove sys.st.used_bsv_txids old_txid) new_txid trade_id ∧
      get_trade_using_tx sys'.st new_txid = some trade_id ∧
      balance_of sys'.ledger (get_deposit_account caller) =
        balance_of sys.ledger (get_deposit_account caller) -
          usd_to_ckusdc_e6 penalty ∧
      balance_of sys'.ledger { owner := order.maker, sub := none } =
        balance_of sys.ledger { owner := order.maker, sub := none } +
          (usd_to_ckusdc_e6 penalty - CKUSDC_TRANSFER_FEE) := by
  have hsum : usd_to_ckusdc_e6 penalty - CKUSDC_TRANSFER_FEE + CKUSDC_TRANSFER_FEE =
      usd_to_ckusdc_e6 penalty := Nat.sub_add_cancel hfee
  have hnotlt : ¬ (balance_of sys.ledger (get_deposit_account caller) <
      usd_to_ckusdc_e6 penalty) := not_lt.mpr hbal
  have hneFM : get_deposit_account caller ≠
      ({ owner := order.maker, sub := none } : Account) := by
    intro hc
    exact Option.noConfusion (congrArg Account.sub hc)
  have hneMF : ({ owner := order.maker, sub := none } : Account) ≠
      get_deposit_account caller := fun hc => hneFM hc.symm
  have htF : sys.st.trades.find? (fun x => x.id == trade_id) = some trade := ht
  have htid := List.find?_some htF
  simp only [resubmit_bsv_transaction.resubmit_after_dup_check, hparse, hval,
    horder, Option.map_some', deduct_penalty, update_filler_account,
    if_pos hfa, icrc1_transfer, hsum, if_neg hnotlt, hold, holdc,
    mark_bsv_tx_used, unmark_bsv_tx, htF, Option.isSome_some, update_trade_eq]
  refine ⟨_, rfl, ?_, ?_, ?_, ?_, ?_⟩
  · simp only [get_trade]
    rw [find_of_map_pred (fun x => x.id == trade_id) _
      (fun t => by by_cases h : t.id == trade_id <;> simp [h]) sys.st.trades,
      htF, Option.map_some', if_pos htid]
  · rfl
  · simp only [get_trade_using_tx, assocSet_find_self, Option.map_some']
  · dsimp only
    rw [balance_of_ledgerSet_other _ _ _ _ hneFM, balance_of_ledgerSet_self]
  · dsimp only
    rw [balance_of_ledgerSet_self, balance_of_ledgerSet_other _ _ _ _ hneMF]

/-- C6: a successful resubmission of a `TxSubmitted` trade deducts the
2% penalty of the trade amount (in e6 base units) from the filler's
security subaccount — the order's maker receiving it minus the fixed
ledger fee — replaces the old txid with the new txid in the used-txid
index, sets `release_available_at` to `now + 3 h`, and changes nothing
else on the trade: `claim_expires_at`, `tx_submitted_at` and every other
field keep the values set at the initial submission. -/
theorem c6_resubmit_success_frame
    (sys : Sys) (caller : Principal) (now trade_id t0 : ℕ)
    (raw new_txid old_hex old_txid : String) (trade : Trade) (order : Order)
    (parsed : ParsedBsvTx)
    (hanon : caller ≠ anonymousPrincipal)
    (ht : get_trade sys.st trade_id = some trade)
    (hfill : trade.filler = caller)
    (hstat : trade.status = TradeStatus.TxSubmitted)
    (hsub : trade.tx_submitted_at = some t0)
    (hwin : now ≤ t0 + RESUBMISSION_WINDOW_NS)
    (hsec : ¬ (get_available_security_balance sys caller <
      trade.amount_usd * (RESUBMISSION_PENALTY_PERCENT / 100)))
    (hcompn : compute_bsv_txid raw = .ok new_txid)
    (hdup : get_trade_using_tx sys.st new_txid = none)
    (hparse : parse_bsv_transaction raw = .ok parsed)
    (hval : validate_transaction_outputs parsed trade.locked_chunks = .ok ())
    (horder : get_order sys.st trade.order_id = some order)
    (hfa : (get_filler_account sys.st caller).isSome = true)
    (hfee : CKUSDC_TRANSFER_FEE ≤
      usd_to_ckusdc_e6 (trade.amount_usd * (RESUBMISSION_PENALTY_PERCENT / 100)))
    (hbal : usd_to_ckusdc_e6 (trade.amount_usd * (RESUBMISSION_PENALTY_PERCENT / 100)) ≤
      balance_of sys.ledger (get_deposit_account caller))
    (hold : trade.bsv_tx_hex = some old_hex)
    (holdc : compute_bsv_txid old_hex = .ok old_txid) :
    ∃ sys' : Sys,
      resubmit_bsv_transaction sys caller now trade_id raw = (sys', .ok ()) ∧
      get_trade sys'.st trade_id =
        some { trade with
                 bsv_tx_hex := some raw,
                 release_available_at := some (now + USDC_RELEASE_WAIT_NS) } ∧
      sys'.st.used_bsv_txids =
        assocSet (assocRemove sys.st.used_bsv_txids old_txid) new_txid trade_id ∧
      get_trade_using_tx sys'.st new_txid = some trade_id ∧
      balance_of sys'.ledger (get_deposit_account caller) =
        balance_of sys.ledger (get_deposit_account caller) -
          usd_to_ckusdc_e6 (trade.amount_usd * (RESUBMISSION_PENALTY_PERCENT / 100)) ∧
      balance_of sys'.ledger { owner := order.maker, sub := none } =
        balance_of sys.ledger { owner := order.maker, sub := none } +
          (usd_to_ckusdc_e6 (trade.amount_usd * (RESUBMISSION_PENALTY_PERCENT / 100)) -
            CKUSDC_TRANSFER_FEE) := by
  have hfill' : ¬ (trade.filler ≠ caller) := fun hh => hh hfill
  have hstat' : ¬ (trade.status ≠ TradeStatus.TxSubmitted) := fun hh => hh hstat
  have hwin' : ¬ (now > t0 + RESUBMISSION_WINDOW_NS) := not_lt.mpr hwin
  simp only [resubmit_bsv_transaction, if_neg hanon, ht, if_neg hfill',
    if_neg hstat', hsub, if_neg hwin', if_neg hsec, hcompn, hdup]
  rw [← hsub]
  exact resubmit_after_dup_check_ok sys caller now trade_id raw new_txid trade
    _ parsed order old_hex old_txid ht hparse hval horder hfa hfee hbal hold holdc

set_option maxRecDepth 8000 in
/-- Witness for C6: filler `[2]` resubmits trade 5 at t = 20 with the
version-2 variant of the stored transaction; the resubmission succeeds
with exactly the stated penalty, index swap and timing effects. -/
theorem c6_resubmit_success_frame_witness :
    ∃ sys' : Sys,
      resubmit_bsv_transaction resubSys [2] 20 5 resubRawHex2 = (sys', .ok ()) ∧
      get_trade sys'.st 5 =
        some { resubTrade with
                 bsv_tx_hex := some resubRawHex2,
                 release_available_at := some (20 + USDC_RELEASE_WAIT_NS) } ∧
      sys'.st.used_bsv_txids =
        assocSet (assocRemove resubSys.st.used_bsv_txids resubTxid) resubTxid2 5 ∧
      get_trade_using_tx sys'.st resubTxid2 = some 5 ∧
      balance_of sys'.ledger (get_deposit_account [2]) =
        balance_of resubSys.ledger (get_deposit_account [2]) -
          usd_to_ckusdc_e6 (resubTrade.amount_usd *
            (RESUBMISSION_PENALTY_PERCENT / 100)) ∧
      balance_of sys'.ledger { owner := resubOrder.maker, sub := none } =
        balance_of resubSys.ledger { owner := resubOrder.maker, sub := none } +
          (usd_to_ckusdc_e6 (resubTrade.amount_usd *
            (RESUBMISSION_PENALTY_PERCENT / 100)) - CKUSDC_TRANSFER_FEE) :=
  c6_resubmit_success_frame resubSys [2] 20 5 10 resubRawHex2 resubTxid2
    resubRawHex resubTxid resubTrade resubOrder resubParsed2
    (by decide) (by decide) (by decide) (by decide) (by decide) (by decide)
    (by decide) (by decide) (by decide) (by decide) (by decide) (by decide)
    (by decide) (by decide) (by decide) (by decide) (by decide)

theorem assocSet_find_other (l : List (String × ℕ)) (k k' : String) (v : ℕ)
    (h : k' ≠ k) :
    (assocSet l k v).find? (fun q => q.1 == k') = l.find? (fun q => q.1 == k') := by
  have hkk : (k == k') = false := beq_eq_false_iff_ne.mpr (Ne.symm h)
  induction l with
  | nil => simp [assocSet, List.find?, hkk]
  | cons p rest ih =>
    by_cases hp : p.1 == k
    · have hp1 : p.1 = k := by simpa using hp
      simp [assocSet, hp, List.find?, hp1, hkk]
    · by_cases hq : p.1 == k'
      · simp [assocSet, hp, List.find?, hq]
      · simp [assocSet, hp, List.find?, hq, ih]

theorem assocRemove_find_other (l : List (String × ℕ)) (k k' : String)
    (h : k' ≠ k) :
    (assocRemove l k).find? (fun q => q.1 == k') = l.find? (fun q => q.1 == k') := by
  have hkk : (k == k') = false := beq_eq_false_iff_ne.mpr (Ne.symm h)
  induction l with
  | nil => rfl
  | cons p rest ih =>
    by_cases hp : p.1 == k
    · have hp1 : p.1 = k := by simpa using hp
      simp [assocRemove, hp, List.find?, hp1, hkk]
    · by_cases hq : p.1 == k'
      · simp [assocRemove, hp, List.find?, hq]
      · simp [assocRemove, hp, List.find?, hq, ih]

theorem tx_index_inv_congr {st st' : St} (htr : st'.trades = st.trades)
    (hu : st'.used_bsv_txids = st.used_bsv_txids) :
    tx_index_inv st' = tx_index_inv st := by
  simp only [tx_index_inv, trade_txid_indexed, get_trade_using_tx, htr, hu]

theorem deduct_penalty_st_frame {sys sys1 : Sys} {p : Principal} {amt : ℚ}
    {r : Option Principal} {res : Except Err Unit}
    (h : deduct_penalty sys p amt r = (sys1, res)) :
    sys1.st.trades = sys.st.trades ∧
    sys1.st.used_bsv_txids = sys.st.used_bsv_txids := by
  unfold deduct_penalty at h
  split at h
  · rw [Prod.mk.injEq] at h
    rw [← h.1]
    exact ⟨rfl, rfl⟩
  · rename_i stf heq
    have hstf : stf.trades = sys.st.trades ∧
        stf.used_bsv_txids = sys.st.used_bsv_txids := by
      unfold update_filler_account at heq
      split at heq
      · rw [← Except.ok.inj heq]
        exact ⟨rfl, rfl⟩
      · exact Except.noConfusion heq
    cases r with
    | none =>
      dsimp only at h
      split at h
      · rw [Prod.mk.injEq] at h
        rw [← h.1]
        exact hstf
      · rw [Prod.mk.injEq] at h
        rw [← h.1]
        exact hstf
    | some maker =>
      dsimp only at h
      split at h
      · rw [Prod.mk.injEq] at h
        rw [← h.1]
        exact hstf
      · rw [Prod.mk.injEq] at h
        rw [← h.1]
        exact hstf

theorem stored_txid_lookup {st : St} {trade_id : ℕ} {trade : Trade}
    {old_hex old_txid : String}
    (hinv : tx_index_inv st = true)
    (ht : get_trade st trade_id = some trade)
    (hold : trade.bsv_tx_hex = some old_hex)
    (holdc : compute_bsv_txid old_hex = .ok old_txid) :
    get_trade_using_tx st old_txid = some trade_id := by
  have htF : st.trades.find? (fun x => x.id == trade_id) = some trade := ht
  have hmem : trade ∈ st.trades := List.mem_of_find?_eq_some htF
  have htid : trade.id = trade_id := by simpa using List.find?_some htF
  simp only [tx_index_inv, List.all_eq_true] at hinv
  have hb := hinv trade hmem
  simp only [trade_txid_indexed, hold, holdc] at hb
  have h2 : get_trade_using_tx st old_txid = some trade.id := eq_of_beq hb
  rw [h2, htid]

theorem tx_index_inv_core (st st' : St) (trade_id : ℕ) (raw new_txid : String)
    (f : Trade → Trade)
    (htr : st'.trades =
      st.trades.map (fun x => if x.id == trade_id then f x else x))
    (hinv : tx_index_inv st = true)
    (hcomp : compute_bsv_txid raw = .ok new_txid)
    (hfhex : ∀ t, (f t).bsv_tx_hex = some raw)
    (hfid : ∀ t, (f t).id = t.id)
    (hself : get_trade_using_tx st' new_txid = some trade_id)
    (hlook : get_trade_using_tx st new_txid = none ∨
      get_trade_using_tx st new_txid = some trade_id)
    (hother : ∀ x j, x ≠ new_txid → j ≠ trade_id →
      get_trade_using_tx st x = some j → get_trade_using_tx st' x = some j) :
    tx_index_inv st' = true := by
  simp only [tx_index_inv, List.all_eq_true] at hinv ⊢
  intro t' ht'
  rw [htr, List.mem_map] at ht'
  obtain ⟨t, htmem, rfl⟩ := ht'
  by_cases hid : (t.id == trade_id) = true
  · rw [if_pos hid]
    have hteq : t.id = trade_id := by simpa using hid
    simp only [trade_txid_indexed, hfhex, hcomp, hself, hfid, hteq]
    simp
  · rw [if_neg hid]
    have hne2 : t.id ≠ trade_id := by simpa using hid
    have hb := hinv t htmem
    simp only [trade_txid_indexed] at hb ⊢
    cases hhx : t.bsv_tx_hex with
    | none => rfl
    | some hx =>
      rw [hhx] at hb
      dsimp only at hb ⊢
      cases hc : compute_bsv_txid hx with
      | error e =>
        rw [hc] at hb
        exact absurd hb (by simp)
      | ok x' =>
        rw [hc] at hb
        dsimp only at hb ⊢
        have hx'eq : get_trade_using_tx st x' = some t.id := eq_of_beq hb
        have hne1 : x' ≠ new_txid := by
          intro hxx
          subst hxx
          rcases hlook with hl | hl
          · rw [hx'eq] at hl
            exact Option.noConfusion hl
          · rw [hx'eq] at hl
            exact hne2 (Option.some.inj hl)
        rw [hother x' t.id hne1 hne2 hx'eq]
        simp


theorem submit_after_dup_check_inv (sys : Sys) (now trade_id : ℕ)
    (raw txid : String)
    (hinv : tx_index_inv sys.st = true)
    (hcomp : compute_bsv_txid raw = .ok txid)
    (hlook : get_trade_using_tx sys.st txid = none ∨
      get_trade_using_tx sys.st txid = some trade_id) :
    tx_index_inv (submit_bsv_transaction.submit_after_dup_check sys now trade_id
      raw txid).1.st = true := by
  unfold submit_bsv_transaction.submit_after_dup_check
  split
  · exact hinv
  · split
    · exact hinv
    · split
      · exact hinv
      · dsimp only
        split
        · exact hinv
        · rename_i st2 hequ
          unfold update_trade at hequ
          split at hequ
          · rw [← Except.ok.inj hequ]
            refine tx_index_inv_core sys.st _ trade_id raw txid
              (fun t => { t with
                  status := TradeStatus.TxSubmitted,
                  bsv_tx_hex := some raw,
                  tx_submitted_at := some now,
                  release_available_at := some (now + USDC_RELEASE_WAIT_NS),
                  claim_expires_at := some (now + TRADE_CLAIM_EXPIRY_NS) })
              ?_ hinv hcomp (fun t => rfl) (fun t => rfl) ?_ hlook ?_
            · rfl
            · simp only [get_trade_using_tx, mark_bsv_tx_used]
              rw [assocSet_find_self]
              rfl
            · intro x j hx hj hl
              simp only [get_trade_using_tx, mark_bsv_tx_used] at hl ⊢
              rw [assocSet_find_other _ _ _ _ hx]
              exact hl
          · exact Except.noConfusion hequ

theorem resubmit_after_dup_check_inv (sys : Sys) (caller : Principal)
    (now trade_id : ℕ) (raw new_txid : String) (trade : Trade) (penalty : ℚ)
    (hinv : tx_index_inv sys.st = true)
    (ht : get_trade sys.st trade_id = some trade)
    (hcomp : compute_bsv_txid raw = .ok new_txid)
    (hlook : get_trade_using_tx sys.st new_txid = none ∨
      get_trade_using_tx sys.st new_txid = some trade_id) :
    tx_index_inv (resubmit_bsv_transaction.resubmit_after_dup_check sys caller
      now trade_id raw new_txid trade penalty).1.st = true := by
  unfold resubmit_bsv_transaction.resubmit_after_dup_check
  split
  · exact hinv
  · split
    · exact hinv
    · dsimp only
      split
      · rename_i sys1 e heqd
        obtain ⟨h1, h2⟩ := deduct_penalty_st_frame heqd
        rw [tx_index_inv_congr h1 h2]
        exact hinv
      · rename_i sys1 heqd
        obtain ⟨h1, h2⟩ := deduct_penalty_st_frame heqd
        cases hhex : trade.bsv_tx_hex with
        | none =>
          dsimp only
          split
          · rename_i e2 hequ
            exfalso
            unfold update_trade at hequ
            split at hequ
            · exact Except.noConfusion hequ
            · rename_i hcond
              apply hcond
              have hg : get_trade (mark_bsv_tx_used sys1.st new_txid trade_id)
                  trade_id = some trade := by
                simp only [get_trade, mark_bsv_tx_used, h1]
                exact ht
              rw [hg]
              rfl
          · rename_i st3 hequ
            unfold update_trade at hequ
            split at hequ
            · rw [← Except.ok.inj hequ]
              refine tx_index_inv_core sys.st _ trade_id raw new_txid
                (fun t => { t with
                    bsv_tx_hex := some raw,
                    release_available_at := some (now + USDC_RELEASE_WAIT_NS) })
                ?_ hinv hcomp (fun t => rfl) (fun t => rfl) ?_ hlook ?_
              · simp only [mark_bsv_tx_used, h1]
              · simp only [get_trade_using_tx, mark_bsv_tx_used]
                rw [assocSet_find_self]
                rfl
              · intro x j hx hj hl
                simp only [get_trade_using_tx, mark_bsv_tx_used] at hl ⊢
                rw [assocSet_find_other _ _ _ _ hx, h2]
                exact hl
            · exact Except.noConfusion hequ
        | some old_hex =>
          dsimp only
          cases hcold : compute_bsv_txid old_hex with
          | error ee =>
            dsimp only
            split
            · rename_i e2 hequ
              exfalso
              unfold update_trade at hequ
              split at hequ
              · exact Except.noConfusion hequ
              · rename_i hcond
                apply hcond
                have hg : get_trade (mark_bsv_tx_used sys1.st new_txid trade_id)
                    trade_id = some trade := by
                  simp only [get_trade, mark_bsv_tx_used, h1]
                  exact ht
                rw [hg]
                rfl
            · rename_i st3 hequ
              unfold update_trade at hequ
              split at hequ
              · rw [← Except.ok.inj hequ]
                refine tx_index_inv_core sys.st _ trade_id raw new_txid
                  (fun t => { t with
                      bsv_tx_hex := some raw,
                      release_available_at := some (now + USDC_RELEASE_WAIT_NS) })
                  ?_ hinv hcomp (fun t => rfl) (fun t => rfl) ?_ hlook ?_
                · simp only [mark_bsv_tx_used, unmark_bsv_tx, h1]
                · simp only [get_trade_using_tx, mark_bsv_tx_used]
                  rw [assocSet_find_self]
                  rfl
                · intro x j hx hj hl
                  simp only [get_trade_using_tx, mark_bsv_tx_used] at hl ⊢
                  rw [assocSet_find_other _ _ _ _ hx, h2]
                  exact hl
              · exact Except.noConfusion hequ
          | ok old_txid =>
            dsimp only
            split
            · rename_i e2 hequ
              exfalso
              unfold update_trade at hequ
              split at hequ
              · exact Except.noConfusion hequ
              · rename_i hcond
                apply hcond
                have hg : get_trade (mark_bsv_tx_used
                    (unmark_bsv_tx sys1.st old_txid) new_txid trade_id)
                    trade_id = some trade := by
                  simp only [get_trade, mark_bsv_tx_used, unmark_bsv_tx, h1]
                  exact ht
                rw [hg]
                rfl
            · rename_i st3 hequ
              unfold update_trade at hequ
              split at hequ
              · rw [← Except.ok.inj hequ]
                refine tx_index_inv_core sys.st _ trade_id raw new_txid
                  (fun t => { t with
                      bsv_tx_hex := some raw,
                      release_available_at := some (now + USDC_RELEASE_WAIT_NS) })
                  ?_ hinv hcomp (fun t => rfl) (fun t => rfl) ?_ hlook ?_
                · simp only [mark_bsv_tx_used, unmark_bsv_tx, h1]
                · simp only [get_trade_using_tx, mark_bsv_tx_used, unmark_bsv_tx]
                  rw [assocSet_find_self]
                  rfl
                · intro x j hx hj hl
                  have hxold : x ≠ old_txid := by
                    intro hxx
                    subst hxx
                    have hlo := stored_txid_lookup hinv ht hhex hcold
                    rw [hl] at hlo
                    exact hj (Option.some.inj hlo)
                  simp only [get_trade_using_tx, mark_bsv_tx_used,
                    unmark_bsv_tx] at hl ⊢
                  rw [assocSet_find_other _ _ _ _ hx,
                    assocRemove_find_other _ _ _ hxold, h2]
                  exact hl
              · exact Except.noConfusion hequ

theorem submit_tx_inv_preserved (sys : Sys) (caller : Principal)
    (now trade_id : ℕ) (raw : String)
    (hinv : tx_index_inv sys.st = true) :
    tx_index_inv (submit_bsv_transaction sys caller now trade_id raw).1.st = true := by
  unfold submit_bsv_transaction
  split
  · exact hinv
  · split
    · exact hinv
    · split
      · exact hinv
      · split
        · exact hinv
        · split
          · exact hinv
          · split
            · exact hinv
            · rename_i txid heqc
              split
              · rename_i other heql
                split
                · exact hinv
                · rename_i hno
                  have hoe : other = trade_id := not_ne_iff.mp hno
                  exact submit_after_dup_check_inv sys now trade_id raw txid hinv
                    heqc (Or.inr (hoe ▸ heql))
              · rename_i heql
                exact submit_after_dup_check_inv sys now trade_id raw txid hinv
                  heqc (Or.inl heql)

theorem resubmit_tx_inv_preserved (sys : Sys) (caller : Principal)
    (now trade_id : ℕ) (raw : String)
    (hinv : tx_index_inv sys.st = true) :
    tx_index_inv (resubmit_bsv_transaction sys caller now trade_id raw).1.st = true := by
  unfold resubmit_bsv_transaction
  split
  · exact hinv
  · split
    · exact hinv
    · rename_i trade heqt
      split
      · exact hinv
      · split
        · exact hinv
        · split
          · exact hinv
          · rename_i t0 heqs
            split
            · exact hinv
            · dsimp only
              split
              · exact hinv
              · split
                · exact hinv
                · rename_i new_txid heqc
                  split
                  · rename_i other heql
                    split
                    · exact hinv
                    · rename_i hno
                      have hoe : other = trade_id := not_ne_iff.mp hno
                      exact resubmit_after_dup_check_inv sys caller now trade_id
                        raw new_txid trade _ hinv heqt heqc (Or.inr (hoe ▸ heql))
                  · rename_i heql
                    exact resubmit_after_dup_check_inv sys caller now trade_id
                      raw new_txid trade _ hinv heqt heqc (Or.inl heql)

/-- C2: BSV transaction ids are globally unique across trades.  Under the
used-txid index invariant (which holds in any state and is preserved by
submit and resubmit on every path), two distinct trades with stored raw
transactions have distinct computed txids; submit and resubmit reject a
transaction whose txid is indexed to a different trade, reporting the
colliding trade id. -/
theorem c2_txid_uniqueness :
    (∀ st : St, tx_index_inv st = true →
      ∀ t1 ∈ st.trades, ∀ t2 ∈ st.trades,
        ∀ h1 h2 x1 x2, t1.bsv_tx_hex = some h1 → t2.bsv_tx_hex = some h2 →
          compute_bsv_txid h1 = .ok x1 → compute_bsv_txid h2 = .ok x2 →
          t1.id ≠ t2.id → x1 ≠ x2) ∧
    (∀ (sys : Sys) (caller : Principal) (now trade_id : ℕ) (raw : String),
      tx_index_inv sys.st = true →
      tx_index_inv (submit_bsv_transaction sys caller now trade_id raw).1.st =
          true ∧
      tx_index_inv (resubmit_bsv_transaction sys caller now trade_id raw).1.st =
          true) ∧
    (∀ (sys : Sys) (caller : Principal) (now trade_id : ℕ)
        (raw txid : String) (trade : Trade) (other : ℕ),
      caller ≠ anonymousPrincipal →
      get_trade sys.st trade_id = some trade →
      trade.filler = caller →
      trade.status = TradeStatus.ChunksLocked →
      now ≤ trade.lock_expires_at →
      compute_bsv_txid raw = .ok txid →
      get_trade_using_tx sys.st txid = some other →
      other ≠ trade_id →
      submit_bsv_transaction sys caller now trade_id raw =
        (sys, .error (.duplicateTx other))) ∧
    (∀ (sys : Sys) (caller : Principal) (now trade_id t0 : ℕ)
        (raw txid : String) (trade : Trade) (other : ℕ),
      caller ≠ anonymousPrincipal →
      get_trade sys.st trade_id = some trade →
      trade.filler = caller →
      trade.status = TradeStatus.TxSubmitted →
      trade.tx_submitted_at = some t0 →
      now ≤ t0 + RESUBMISSION_WINDOW_NS →
      ¬ (get_available_security_balance sys caller <
        trade.amount_usd * (RESUBMISSION_PENALTY_PERCENT / 100)) →
      compute_bsv_txid raw = .ok txid →
      get_trade_using_tx sys.st txid = some other →
      other ≠ trade_id →
      resubmit_bsv_transaction sys caller now trade_id raw =
        (sys, .error (.duplicateTx other))) := by
  refine ⟨?_, ?_, ?_, ?_⟩
  · intro st hinv t1 hm1 t2 hm2 h1 h2 x1 x2 hh1 hh2 hc1 hc2 hne hxx
    simp only [tx_index_inv, List.all_eq_true] at hinv
    have e1 := hinv t1 hm1
    have e2 := hinv t2 hm2
    simp only [trade_txid_indexed, hh1, hh2, hc1, hc2] at e1 e2
    have l1 : get_trade_using_tx st x1 = some t1.id := eq_of_beq e1
    have l2 : get_trade_using_tx st x2 = some t2.id := eq_of_beq e2
    rw [← hxx, l1] at l2
    exact hne (Option.some.inj l2)
  · intro sys caller now trade_id raw hinv
    exact ⟨submit_tx_inv_preserved sys caller now trade_id raw hinv,
           resubmit_tx_inv_preserved sys caller now trade_id raw hinv⟩
  · intro sys caller now trade_id raw txid trade other hanon ht hfill hstat
      hlock hcomp hlookup hne
    have hfill2 : ¬ (trade.filler ≠ caller) := fun hh => hh hfill
    have hstat2 : ¬ (trade.status ≠ TradeStatus.ChunksLocked) :=
      fun hh => hh hstat
    have hlock2 : ¬ (now > trade.lock_expires_at) := not_lt.mpr hlock
    simp only [submit_bsv_transaction, if_neg hanon, ht, if_neg hfill2,
      if_neg hstat2, if_neg hlock2, hcomp, hlookup, if_pos hne]
  · intro sys caller now trade_id t0 raw txid trade other hanon ht hfill hstat
      hsub hwin hsec hcomp hlookup hne
    have hfill2 : ¬ (trade.filler ≠ caller) := fun hh => hh hfill
    have hstat2 : ¬ (trade.status ≠ TradeStatus.TxSubmitted) :=
      fun hh => hh hstat
    have hwin2 : ¬ (now > t0 + RESUBMISSION_WINDOW_NS) := not_lt.mpr hwin
    simp only [resubmit_bsv_transaction, if_neg hanon, ht, if_neg hfill2,
      if_neg hstat2, hsub, if_neg hwin2, if_neg hsec, hcomp, hlookup,
      if_pos hne]

set_option maxRecDepth 8000 in
/-- Witness for C2: in the concrete three-trade state the invariant holds
and the two stored transactions have distinct txids, and submitting the
transaction already used by trade 5 to the `ChunksLocked` trade 7 is
rejected with the colliding trade id 5. -/
theorem c2_txid_uniqueness_witness :
    resubTxid ≠ resubTxid2 ∧
    submit_bsv_transaction c2Sys [3] 50 7 resubRawHex =
      (c2Sys, .error (.duplicateTx 5)) :=
  ⟨c2_txid_uniqueness.1 c2St (by decide) resubTrade (by decide) c2Trade2
      (by decide) resubRawHex resubRawHex2 resubTxid resubTxid2 (by decide)
      (by decide) (by decide) (by decide) (by decide),
   c2_txid_uniqueness.2.2.1 c2Sys [3] 50 7 resubRawHex resubTxid c2TradeL 5
      (by decide) (by decide) (by decide) (by decide) (by decide) (by decide)
      (by decide) (by decide)⟩

theorem create_chunks_orders :
    ∀ (n : ℕ) (st : St) (order_id : ℕ) (amt : ℚ) (stt : ChunkStatus)
      (addr : String) (mx : ℚ),
      (create_chunks st order_id amt stt addr mx n).1.orders = st.orders := by
  intro n
  induction n with
  | zero => intro st o a s ad m; rfl
  | succ k ih =>
    intro st o a s ad m
    dsimp only [create_chunks]
    rw [ih]

theorem create_chunks_order_counter :
    ∀ (n : ℕ) (st : St) (order_id : ℕ) (amt : ℚ) (stt : ChunkStatus)
      (addr : String) (mx : ℚ),
      (create_chunks st order_id amt stt addr mx n).1.app.next_order_id =
        st.app.next_order_id := by
  intro n
  induction n with
  | zero => intro st o a s ad m; rfl
  | succ k ih =>
    intro st o a s ad m
    dsimp only [create_chunks]
    rw [ih]

theorem create_order_activate_with_facts (sys : Sys) (caller : Principal)
    (now order_id : ℕ) (amount_usd max_bsv_price : ℚ) (bsv_address : String)
    (balance_usd afee finc : ℚ) (dsub : String) (tr : Except Err Ledger) :
    (∀ n, n ≤ sys.st.app.next_order_id →
      n ≤ (create_order_activate_with sys caller now order_id amount_usd
        max_bsv_price bsv_address balance_usd afee finc dsub
        tr).1.st.app.next_order_id) ∧
    (∀ id', (create_order_activate_with sys caller now order_id amount_usd
        max_bsv_price bsv_address balance_usd afee finc dsub tr).2 = .ok id' →
      id' = order_id) ∧
    (∀ o, o ∈ (create_order_activate_with sys caller now order_id amount_usd
        max_bsv_price bsv_address balance_usd afee finc dsub
        tr).1.st.orders →
      o ∈ sys.st.orders ∨ o.id = order_id) := by
  cases tr with
  | error e =>
    exact ⟨fun n hn => hn, fun id' h => Except.noConfusion h,
      fun o ho => Or.inl ho⟩
  | ok led1 =>
    dsimp only [create_order_activate_with]
    refine ⟨?_, ?_, ?_⟩
    · intro n hn
      simp only [create_chunks_order_counter]
      exact hn
    · intro id' h
      exact (Except.ok.inj h).symm
    · intro o ho
      simp only [create_chunks_orders, List.mem_append, List.mem_singleton] at ho
      rcases ho with ho | ho
      · exact Or.inl ho
      · exact Or.inr (by rw [ho])

theorem create_order_activate_eq (sys : Sys) (caller : Principal)
    (now order_id : ℕ) (amount_usd max_bsv_price : ℚ) (bsv_address : String)
    (balance_usd afee finc : ℚ) (dsub : String) :
    create_order_activate sys caller now order_id amount_usd max_bsv_price
        bsv_address balance_usd afee finc dsub =
      create_order_activate_with sys caller now order_id amount_usd
        max_bsv_price bsv_address balance_usd afee finc dsub
        (transfer_activation_fee_to_treasury sys.ledger caller order_id
          canisterSelf (usd_to_ckusdc_e6 afee)) := rfl

theorem create_order_activate_facts (sys : Sys) (caller : Principal)
    (now order_id : ℕ) (amount_usd max_bsv_price : ℚ) (bsv_address : String)
    (balance_usd afee finc : ℚ) (dsub : String) :
    (∀ n, n ≤ sys.st.app.next_order_id →
      n ≤ (create_order_activate sys caller now order_id amount_usd
        max_bsv_price bsv_address balance_usd afee finc
        dsub).1.st.app.next_order_id) ∧
    (∀ id', (create_order_activate sys caller now order_id amount_usd
        max_bsv_price bsv_address balance_usd afee finc dsub).2 = .ok id' →
      id' = order_id) ∧
    (∀ o, o ∈ (create_order_activate sys caller now order_id amount_usd
        max_bsv_price bsv_address balance_usd afee finc dsub).1.st.orders →
      o ∈ sys.st.orders ∨ o.id = order_id) := by
  rw [create_order_activate_eq]
  exact create_order_activate_with_facts sys caller now order_id amount_usd
    max_bsv_price bsv_address balance_usd afee finc dsub
    (transfer_activation_fee_to_treasury sys.ledger caller order_id
      canisterSelf (usd_to_ckusdc_e6 afee))

/-- C10: the order id is allocated (and the counter incremented) before
the deposit check, and every deposit-stage failure leaves the id consumed.
When the order subaccount is short, each of the three failure paths — the
maker's security balance is below the shortfall, the top-up transfer
fails, or the top-up goes through but the balance is still short —
returns its error carrying the allocated id with no order and no chunk
stored and only the counter (plus, in the third case, the ledger moved by
the top-up) changed.  Moreover, on every path the order-id counter never
decreases, a successful call returns exactly the entry counter as the new
order's id, and every order in the result state is either a pre-existing
order or carries the entry counter as id — so an id consumed by a failed
call is never reused by a later order. -/
theorem c10_order_id_skipped_on_deposit_failure :
    (∀ (sys : Sys) (caller : Principal) (now cycles_balance : ℕ)
        (amount_usd max_bsv_price : ℚ) (bsv_address : String),
      caller ≠ anonymousPrincipal →
      sys.st.app.new_orders_enabled = true →
      MIN_CYCLES_FOR_NEW_ORDERS ≤ cycles_balance →
      0 < amount_usd →
      ¬ (amount_usd < MIN_CHUNK_SIZE ∨
        |f64Rem amount_usd MIN_CHUNK_SIZE| > 1/1000000) →
      ¬ (amount_usd > MIN_CHUNK_SIZE * (MAX_CHUNKS_ALLOWED : ℚ)) →
      is_valid_bsv_mainnet_address bsv_address = true →
      0 < max_bsv_price →
      ¬ (get_available_orderbook sys.st + amount_usd > MAX_ORDERBOOK_USD_LIMIT) →
      ¬ ((((get_orders_by_maker sys.st caller).filter (fun o =>
            o.status == OrderStatus.Active || o.status == OrderStatus.Idle)).map
          (fun o => o.amount_usd - o.total_filled_usd)).sum + amount_usd >
        MAX_MAKER_TOTAL_ORDERS_USD) →
      ((balance_of sys.ledger
          (get_order_deposit_account caller sys.st.app.next_order_id) : ℚ) /
        1000000 <
        amount_usd + amount_usd * ((MAKER_FEE_PERCENT : ℚ) / 10000)) →
      ¬ (get_available_security_balance
          { sys with st := { sys.st with app :=
            { sys.st.app with
                next_order_id := sys.st.app.next_order_id + 1 } } } caller ≥
        amount_usd + amount_usd * ((MAKER_FEE_PERCENT : ℚ) / 10000) -
          (balance_of sys.ledger
            (get_order_deposit_account caller sys.st.app.next_order_id) : ℚ) /
          1000000) →
      create_order sys caller now cycles_balance amount_usd max_bsv_price
          bsv_address =
        ({ sys with st := { sys.st with app :=
            { sys.st.app with
                next_order_id := sys.st.app.next_order_id + 1 } } },
         .error (.orderNotActivatedInsufficientFunds
           sys.st.app.next_order_id))) ∧
    (∀ (sys : Sys) (caller : Principal) (now cycles_balance : ℕ)
        (amount_usd max_bsv_price : ℚ) (bsv_address : String) (e : Err),
      caller ≠ anonymousPrincipal →
      sys.st.app.new_orders_enabled = true →
      MIN_CYCLES_FOR_NEW_ORDERS ≤ cycles_balance →
      0 < amount_usd →
      ¬ (amount_usd < MIN_CHUNK_SIZE ∨
        |f64Rem amount_usd MIN_CHUNK_SIZE| > 1/1000000) →
      ¬ (amount_usd > MIN_CHUNK_SIZE * (MAX_CHUNKS_ALLOWED : ℚ)) →
      is_valid_bsv_mainnet_address bsv_address = true →
      0 < max_bsv_price →
      ¬ (get_available_orderbook sys.st + amount_usd > MAX_ORDERBOOK_USD_LIMIT) →
      ¬ ((((get_orders_by_maker sys.st caller).filter (fun o =>
            o.status == OrderStatus.Active || o.status == OrderStatus.Idle)).map
          (fun o => o.amount_usd - o.total_filled_usd)).sum + amount_usd >
        MAX_MAKER_TOTAL_ORDERS_USD) →
      ((balance_of sys.ledger
          (get_order_deposit_account caller sys.st.app.next_order_id) : ℚ) /
        1000000 <
        amount_usd + amount_usd * ((MAKER_FEE_PERCENT : ℚ) / 10000)) →
      (get_available_security_balance
          { sys with st := { sys.st with app :=
            { sys.st.app with
                next_order_id := sys.st.app.next_order_id + 1 } } } caller ≥
        amount_usd + amount_usd * ((MAKER_FEE_PERCENT : ℚ) / 10000) -
          (balance_of sys.ledger
            (get_order_deposit_account caller sys.st.app.next_order_id) : ℚ) /
          1000000) →
      (transfer_from_user_account_to_order sys.ledger caller
          sys.st.app.next_order_id
          (amount_usd + amount_usd * ((MAKER_FEE_PERCENT : ℚ) / 10000) -
            (balance_of sys.ledger
              (get_order_deposit_account caller
                sys.st.app.next_order_id) : ℚ) / 1000000) = .error e) →
      create_order sys caller now cycles_balance amount_usd max_bsv_price
          bsv_address =
        ({ sys with st := { sys.st with app :=
            { sys.st.app with
                next_order_id := sys.st.app.next_order_id + 1 } } },
         .error (.orderNotActivatedTransferFailed
           sys.st.app.next_order_id))) ∧
    (∀ (sys : Sys) (caller : Principal) (now cycles_balance : ℕ)
        (amount_usd max_bsv_price : ℚ) (bsv_address : String) (led1 : Ledger),
      caller ≠ anonymousPrincipal →
      sys.st.app.new_orders_enabled = true →
      MIN_CYCLES_FOR_NEW_ORDERS ≤ cycles_balance →
      0 < amount_usd →
      ¬ (amount_usd < MIN_CHUNK_SIZE ∨
        |f64Rem amount_usd MIN_CHUNK_SIZE| > 1/1000000) →
      ¬ (amount_usd > MIN_CHUNK_SIZE * (MAX_CHUNKS_ALLOWED : ℚ)) →
      is_valid_bsv_mainnet_address bsv_address = true →
      0 < max_bsv_price →
      ¬ (get_available_orderbook sys.st + amount_usd > MAX_ORDERBOOK_USD_LIMIT) →
      ¬ ((((get_orders_by_maker sys.st caller).filter (fun o =>
            o.status == OrderStatus.Active || o.status == OrderStatus.Idle)).map
          (fun o => o.amount_usd - o.total_filled_usd)).sum + amount_usd >
        MAX_MAKER_TOTAL_ORDERS_USD) →
      ((balance_of sys.ledger
          (get_order_deposit_account caller sys.st.app.next_order_id) : ℚ) /
        1000000 <
        amount_usd + amount_usd * ((MAKER_FEE_PERCENT : ℚ) / 10000)) →
      (get_available_security_balance
          { sys with st := { sys.st with app :=
            { sys.st.app with
                next_order_id := sys.st.app.next_order_id + 1 } } } caller ≥
        amount_usd + amount_usd * ((MAKER_FEE_PERCENT : ℚ) / 10000) -
          (balance_of sys.ledger
            (get_order_deposit_account caller sys.st.app.next_order_id) : ℚ) /
          1000000) →
      (transfer_from_user_account_to_order sys.ledger caller
          sys.st.app.next_order_id
          (amount_usd + amount_usd * ((MAKER_FEE_PERCENT : ℚ) / 10000) -
            (balance_of sys.ledger
              (get_order_deposit_account caller
                sys.st.app.next_order_id) : ℚ) / 1000000) = .ok led1) →
      ((balance_of led1
          (get_order_deposit_account caller sys.st.app.next_order_id) : ℚ) /
        1000000 <
        amount_usd + amount_usd * ((MAKER_FEE_PERCENT : ℚ) / 10000)) →
      create_order sys caller now cycles_balance amount_usd max_bsv_price
          bsv_address =
        ({ sys with
            st := { sys.st with app :=
              { sys.st.app with
                  next_order_id := sys.st.app.next_order_id + 1 } },
            ledger := led1 },
         .error (.orderNotActivatedStillInsufficient
           sys.st.app.next_order_id))) ∧
    (∀ (sys : Sys) (caller : Principal) (now cycles_balance : ℕ)
        (amount_usd max_bsv_price : ℚ) (bsv_address : String),
      sys.st.app.next_order_id ≤
        (create_order sys caller now cycles_balance amount_usd max_bsv_price
          bsv_address).1.st.app.next_order_id ∧
      (∀ id', (create_order sys caller now cycles_balance amount_usd
          max_bsv_price bsv_address).2 = .ok id' →
        id' = sys.st.app.next_order_id) ∧
      (∀ o, o ∈ (create_order sys caller now cycles_balance amount_usd
          max_bsv_price bsv_address).1.st.orders →
        o ∈ sys.st.orders ∨ o.id = sys.st.app.next_order_id)) := by
  refine ⟨?_, ?_, ?_, ?_⟩
  · intro sys caller now cyc amt mx addr h1 h2 h3 h4 h5 h6 h7 h8 h9 h10 hbal havail
    have h2n : ¬ ¬ (sys.st.app.new_orders_enabled = true) := fun hh => hh h2
    have h3n : ¬ (cyc < MIN_CYCLES_FOR_NEW_ORDERS) := not_lt.mpr h3
    have h4n : ¬ (amt ≤ 0) := not_le.mpr h4
    have h7n : ¬ ¬ (is_valid_bsv_mainnet_address addr = true) := fun hh => hh h7
    have h8n : ¬ (mx ≤ 0) := not_le.mpr h8
    unfold create_order
    rw [if_neg h1, if_neg h2n, if_neg h3n, if_neg h4n, if_neg h5, if_neg h6,
      if_neg h7n, if_neg h8n, if_neg h9]
    dsimp only
    rw [if_neg h10]
    rw [if_pos hbal]
    rw [if_neg havail]
  · intro sys caller now cyc amt mx addr e h1 h2 h3 h4 h5 h6 h7 h8 h9 h10 hbal
      havail htr
    have h2n : ¬ ¬ (sys.st.app.new_orders_enabled = true) := fun hh => hh h2
    have h3n : ¬ (cyc < MIN_CYCLES_FOR_NEW_ORDERS) := not_lt.mpr h3
    have h4n : ¬ (amt ≤ 0) := not_le.mpr h4
    have h7n : ¬ ¬ (is_valid_bsv_mainnet_address addr = true) := fun hh => hh h7
    have h8n : ¬ (mx ≤ 0) := not_le.mpr h8
    unfold create_order
    rw [if_neg h1, if_neg h2n, if_neg h3n, if_neg h4n, if_neg h5, if_neg h6,
      if_neg h7n, if_neg h8n, if_neg h9]
    dsimp only
    rw [if_neg h10]
    rw [if_pos hbal]
    rw [if_pos havail]
    rw [htr]
  · intro sys caller now cyc amt mx addr led1 h1 h2 h3 h4 h5 h6 h7 h8 h9 h10 hbal
      havail htr hnew
    have h2n : ¬ ¬ (sys.st.app.new_orders_enabled = true) := fun hh => hh h2
    have h3n : ¬ (cyc < MIN_CYCLES_FOR_NEW_ORDERS) := not_lt.mpr h3
    have h4n : ¬ (amt ≤ 0) := not_le.mpr h4
    have h7n : ¬ ¬ (is_valid_bsv_mainnet_address addr = true) := fun hh => hh h7
    have h8n : ¬ (mx ≤ 0) := not_le.mpr h8
    unfold create_order
    rw [if_neg h1, if_neg h2n, if_neg h3n, if_neg h4n, if_neg h5, if_neg h6,
      if_neg h7n, if_neg h8n, if_neg h9]
    dsimp only
    rw [if_neg h10]
    rw [if_pos hbal]
    rw [if_pos havail]
    rw [htr]
    dsimp only
    rw [if_pos hnew]
  · intro sys caller now cyc amt mx addr
    unfold create_order
    by_cases hc1 : caller = anonymousPrincipal
    · rw [if_pos hc1]
      exact ⟨le_refl _, fun id' h => Except.noConfusion h, fun o ho => Or.inl ho⟩
    · rw [if_neg hc1]
      by_cases hc2 : ¬ sys.st.app.new_orders_enabled = true
      · rw [if_pos hc2]
        exact ⟨le_refl _, fun id' h => Except.noConfusion h, fun o ho => Or.inl ho⟩
      · rw [if_neg hc2]
        by_cases hc3 : cyc < MIN_CYCLES_FOR_NEW_ORDERS
        · rw [if_pos hc3]
          exact ⟨le_refl _, fun id' h => Except.noConfusion h,
            fun o ho => Or.inl ho⟩
        · rw [if_neg hc3]
          by_cases hc4 : amt ≤ 0
          · rw [if_pos hc4]
            exact ⟨le_refl _, fun id' h => Except.noConfusion h,
              fun o ho => Or.inl ho⟩
          · rw [if_neg hc4]
            by_cases hc5 : amt < MIN_CHUNK_SIZE ∨
              |f64Rem amt MIN_CHUNK_SIZE| > 1/1000000
            · rw [if_pos hc5]
              exact ⟨le_refl _, fun id' h => Except.noConfusion h,
                fun o ho => Or.inl ho⟩
            · rw [if_neg hc5]
              by_cases hc6 : amt > MIN_CHUNK_SIZE * (MAX_CHUNKS_ALLOWED : ℚ)
              · rw [if_pos hc6]
                exact ⟨le_refl _, fun id' h => Except.noConfusion h,
                  fun o ho => Or.inl ho⟩
              · rw [if_neg hc6]
                by_cases hc7 : ¬ is_valid_bsv_mainnet_address addr = true
                · rw [if_pos hc7]
                  exact ⟨le_refl _, fun id' h => Except.noConfusion h,
                    fun o ho => Or.inl ho⟩
                · rw [if_neg hc7]
                  by_cases hc8 : mx ≤ 0
                  · rw [if_pos hc8]
                    exact ⟨le_refl _, fun id' h => Except.noConfusion h,
                      fun o ho => Or.inl ho⟩
                  · rw [if_neg hc8]
                    by_cases hc9 : get_available_orderbook sys.st + amt >
                      MAX_ORDERBOOK_USD_LIMIT
                    · rw [if_pos hc9]
                      exact ⟨le_refl _, fun id' h => Except.noConfusion h,
                        fun o ho => Or.inl ho⟩
                    · rw [if_neg hc9]
                      dsimp only
                      by_cases hc10 : (((get_orders_by_maker sys.st
                          caller).filter (fun o =>
                          o.status == OrderStatus.Active ||
                          o.status == OrderStatus.Idle)).map
                          (fun o => o.amount_usd - o.total_filled_usd)).sum +
                          amt > MAX_MAKER_TOTAL_ORDERS_USD
                      · rw [if_pos hc10]
                        exact ⟨le_refl _, fun id' h => Except.noConfusion h,
                          fun o ho => Or.inl ho⟩
                      · rw [if_neg hc10]
                        split
                        · split
                          · split
                            · exact ⟨Nat.le_succ _,
                                fun id' h => Except.noConfusion h,
                                fun o ho => Or.inl ho⟩
                            · split
                              · exact ⟨Nat.le_succ _,
                                  fun id' h => Except.noConfusion h,
                                  fun o ho => Or.inl ho⟩
                              · exact ⟨(create_order_activate_facts _ _ _ _
                                    _ _ _ _ _ _ _).1 _ (Nat.le_succ _),
                                  (create_order_activate_facts _ _ _ _ _ _ _ _
                                    _ _ _).2.1,
                                  (create_order_activate_facts _ _ _ _ _ _ _ _
                                    _ _ _).2.2⟩
                          · exact ⟨Nat.le_succ _,
                              fun id' h => Except.noConfusion h,
                              fun o ho => Or.inl ho⟩
                        · exact ⟨(create_order_activate_facts _ _ _ _ _ _ _
                              _ _ _ _).1 _ (Nat.le_succ _),
                            (create_order_activate_facts _ _ _ _ _ _ _ _
                              _ _ _).2.1,
                            (create_order_activate_facts _ _ _ _ _ _ _ _
                              _ _ _).2.2⟩

set_option maxRecDepth 8000 in
/-- Witness for C10: creating a $3 order from a fresh empty system fails
with the insufficient-funds error carrying the allocated id 1, the state
keeps no order and no chunk, only the counter moves to 2; and the counter
never decreases. -/
theorem c10_order_id_skipped_on_deposit_failure_witness :
    create_order c10Sys [9] 0 MIN_CYCLES_FOR_NEW_ORDERS 3 45 c10Addr =
      ({ c10Sys with st := { c10Sys.st with app :=
          { c10Sys.st.app with
              next_order_id := c10Sys.st.app.next_order_id + 1 } } },
       .error (.orderNotActivatedInsufficientFunds
         c10Sys.st.app.next_order_id)) ∧
    c10Sys.st.app.next_order_id ≤
      (create_order c10Sys [9] 0 MIN_CYCLES_FOR_NEW_ORDERS 3 45
        c10Addr).1.st.app.next_order_id :=
  ⟨c10_order_id_skipped_on_deposit_failure.1 c10Sys [9] 0
     MIN_CYCLES_FOR_NEW_ORDERS 3 45 c10Addr
     (by decide) (by decide) (by decide) (by decide) (by decide) (by decide)
     (by decide) (by decide) (by decide) (by decide) (by decide) (by decide),
   (c10_order_id_skipped_on_deposit_failure.2.2.2 c10Sys [9] 0
     MIN_CYCLES_FOR_NEW_ORDERS 3 45 c10Addr).1⟩

theorem find_cons_true {p : Chunk → Bool} {a : Chunk} (l : List Chunk)
    (h : p a = true) : (a :: l).find? p = some a := by
  dsimp only [List.find?]
  rw [h]

theorem find_cons_false {p : Chunk → Bool} {a : Chunk} (l : List Chunk)
    (h : p a = false) : (a :: l).find? p = l.find? p := by
  dsimp only [List.find?]
  rw [h]

theorem find_map_id_other :
    ∀ (l : List Chunk) (cid cid2 : ℕ) (f : Chunk → Chunk),
      (∀ a, (f a).id = a.id) → cid ≠ cid2 →
      (l.map (fun c => if c.id == cid2 then f c else c)).find?
          (fun c => c.id == cid) =
        l.find? (fun c => c.id == cid) := by
  intro l
  induction l with
  | nil => intro cid cid2 f hf hne; rfl
  | cons a l ih =>
    intro cid cid2 f hf hne
    dsimp only [List.map]
    by_cases ha : a.id = cid2
    · have hb : (a.id == cid2) = true := by simp [ha]
      rw [if_pos hb]
      have hfa : ((f a).id == cid) = false := by
        rw [hf a, ha]
        simp [Ne.symm hne]
      have haa : (a.id == cid) = false := by
        rw [ha]
        simp [Ne.symm hne]
      rw [find_cons_false _ hfa, find_cons_false _ haa]
      exact ih cid cid2 f hf hne
    · have hbn : ¬ ((a.id == cid2) = true) := by simp [ha]
      rw [if_neg hbn]
      by_cases hc : (a.id == cid) = true
      · rw [find_cons_true _ hc, find_cons_true _ hc]
      · have hcf : (a.id == cid) = false := by simpa using hc
        rw [find_cons_false _ hcf, find_cons_false _ hcf]
        exact ih cid cid2 f hf hne

theorem find_map_id_self :
    ∀ (l : List Chunk) (cid : ℕ) (f : Chunk → Chunk),
      (∀ a, (f a).id = a.id) →
      (l.map (fun c => if c.id == cid then f c else c)).find?
          (fun c => c.id == cid) =
        (l.find? (fun c => c.id == cid)).map f := by
  intro l
  induction l with
  | nil => intro cid f hf; rfl
  | cons a l ih =>
    intro cid f hf
    dsimp only [List.map]
    by_cases hc : (a.id == cid) = true
    · rw [if_pos hc]
      have hfa : ((f a).id == cid) = true := by rw [hf a]; exact hc
      rw [find_cons_true _ hfa, find_cons_true _ hc]
      rfl
    · have hcf : (a.id == cid) = false := by simpa using hc
      rw [if_neg hc]
      rw [find_cons_false _ hcf, find_cons_false _ hcf]
      exact ih cid f hf

theorem get_chunk_update_order_frame {st st1 : St} {oid : ℕ}
    {g : Order → Order} (cid : ℕ) (h : update_order st oid g = .ok st1) :
    get_chunk st1 cid = get_chunk st cid := by
  rw [update_order_ok_eq h]
  rfl

theorem get_chunk_update_chunk_other {st st1 : St} {cid2 : ℕ}
    {f : Chunk → Chunk} (cid : ℕ) (h : update_chunk st cid2 f = .ok st1)
    (hf : ∀ a, (f a).id = a.id) (hne : cid ≠ cid2) :
    get_chunk st1 cid = get_chunk st cid := by
  rw [update_chunk_ok_eq h]
  exact find_map_id_other st.chunks cid cid2 f hf hne

theorem get_chunk_update_chunk_self {st st1 : St} {cid : ℕ}
    {f : Chunk → Chunk} (h : update_chunk st cid f = .ok st1)
    (hf : ∀ a, (f a).id = a.id) :
    get_chunk st1 cid = (get_chunk st cid).map f := by
  rw [update_chunk_ok_eq h]
  exact find_map_id_self st.chunks cid f hf

/-- Once a chunk is not Idle, the reactivation chunk loop never touches
it: it survives any successful run unchanged. -/
theorem reactivate_chunks_keep :
    ∀ (chunks : List ℕ) (cob : ℚ) (order : Order) (st st' : St) (cid : ℕ)
      (d : Chunk), reactivate_chunks_go cob order st chunks = .ok st' →
      get_chunk st cid = some d → d.status ≠ ChunkStatus.Idle →
      get_chunk st' cid = some d := by
  intro chunks
  induction chunks with
  | nil =>
    intro cob order st st' cid d h hg hs
    exact (Except.ok.inj h) ▸ hg
  | cons x rest ih =>
    intro cob order st st' cid d h hg hs
    dsimp only [reactivate_chunks_go] at h
    cases hx : get_chunk st x with
    | none =>
      rw [hx] at h
      exact ih cob order st st' cid d h hg hs
    | some chunk =>
      rw [hx] at h
      dsimp only at h
      by_cases hst : chunk.status = ChunkStatus.Idle
      · rw [if_pos hst] at h
        by_cases hlim : cob + chunk.amount_usd > MAX_ORDERBOOK_USD_LIMIT
        · rw [if_pos hlim] at h
          exact ih cob order st st' cid d h hg hs
        · rw [if_neg hlim] at h
          cases hu : update_chunk st chunk.id (fun c =>
              { c with status := ChunkStatus.Available }) with
          | error e =>
            rw [hu] at h
            exact Except.noConfusion h
          | ok st1 =>
            rw [hu] at h
            dsimp only at h
            cases ho : update_order st1 order.id (fun o =>
                { o with total_idle_usd := o.total_idle_usd - chunk.amount_usd }) with
            | error e =>
              rw [ho] at h
              exact Except.noConfusion h
            | ok st2 =>
              rw [ho] at h
              dsimp only at h
              have hx2 : st.chunks.find? (fun c => c.id == x) = some chunk := hx
              have hpx : chunk.id = x := by simpa using List.find?_some hx2
              by_cases hq : cid = chunk.id
              · exfalso
                have hgc : get_chunk st chunk.id = some chunk := by
                  rw [hpx]
                  exact hx
                rw [hq] at hg
                have hdc : d = chunk := Option.some.inj (hg.symm.trans hgc)
                exact hs (by rw [hdc]; exact hst)
              · have hg1 : get_chunk st1 cid = get_chunk st cid :=
                  get_chunk_update_chunk_other cid hu (fun a => rfl) hq
                have hg2 : get_chunk st2 cid = get_chunk st1 cid :=
                  get_chunk_update_order_frame cid ho
                exact ih cob order st2 st' cid d h
                  ((hg2.trans hg1).trans hg) hs
      · rw [if_neg hst] at h
        exact ih cob order st st' cid d h hg hs

/-- Through any successful run of the chunk loop, a stored chunk either
survives unchanged or has been flipped to Available. -/
theorem reactivate_chunks_cases :
    ∀ (chunks : List ℕ) (cob : ℚ) (order : Order) (st st' : St) (cid : ℕ)
      (c : Chunk), reactivate_chunks_go cob order st chunks = .ok st' →
      get_chunk st cid = some c →
      get_chunk st' cid = some c ∨
        get_chunk st' cid = some { c with status := ChunkStatus.Available } := by
  intro chunks
  induction chunks with
  | nil =>
    intro cob order st st' cid c h hg
    exact Or.inl ((Except.ok.inj h) ▸ hg)
  | cons x rest ih =>
    intro cob order st st' cid c h hg
    dsimp only [reactivate_chunks_go] at h
    cases hx : get_chunk st x with
    | none =>
      rw [hx] at h
      exact ih cob order st st' cid c h hg
    | some chunk =>
      rw [hx] at h
      dsimp only at h
      by_cases hst : chunk.status = ChunkStatus.Idle
      · rw [if_pos hst] at h
        by_cases hlim : cob + chunk.amount_usd > MAX_ORDERBOOK_USD_LIMIT
        · rw [if_pos hlim] at h
          exact ih cob order st st' cid c h hg
        · rw [if_neg hlim] at h
          cases hu : update_chunk st chunk.id (fun c =>
              { c with status := ChunkStatus.Available }) with
          | error e =>
            rw [hu] at h
            exact Except.noConfusion h
          | ok st1 =>
            rw [hu] at h
            dsimp only at h
            cases ho : update_order st1 order.id (fun o =>
                { o with total_idle_usd := o.total_idle_usd - chunk.amount_usd }) with
            | error e =>
              rw [ho] at h
              exact Except.noConfusion h
            | ok st2 =>
              rw [ho] at h
              dsimp only at h
              by_cases hq : cid = chunk.id
              · have hu2 : update_chunk st cid (fun c =>
                    { c with status := ChunkStatus.Available }) = .ok st1 := by
                  rw [hq]
                  exact hu
                have hgc : get_chunk st cid = some chunk := by
                  have hx2 : st.chunks.find? (fun c => c.id == x) = some chunk := hx
                  have hpx : chunk.id = x := by simpa using List.find?_some hx2
                  rw [hq, hpx]
                  exact hx
                have hcc : c = chunk := Option.some.inj (hg.symm.trans hgc)
                have hg1 : get_chunk st1 cid =
                    some { c with status := ChunkStatus.Available } := by
                  rw [get_chunk_update_chunk_self hu2 (fun a => rfl), hg]
                  rfl
                have hg2 : get_chunk st2 cid =
                    some { c with status := ChunkStatus.Available } :=
                  (get_chunk_update_order_frame cid ho).trans hg1
                exact Or.inr (reactivate_chunks_keep rest cob order st2 st' cid _
                  h hg2 (fun hh => ChunkStatus.noConfusion hh))
              · have hg1 : get_chunk st1 cid = get_chunk st cid :=
                  get_chunk_update_chunk_other cid hu (fun a => rfl) hq
                have hg2 : get_chunk st2 cid = get_chunk st1 cid :=
                  get_chunk_update_order_frame cid ho
                exact ih cob order st2 st' cid c h ((hg2.trans hg1).trans hg)
      · rw [if_neg hst] at h
        exact ih cob order st st' cid c h hg

/-- An Idle chunk of the processed order that fits under the snapshot
ceiling ends a successful chunk-loop run flipped to Available. -/
theorem reactivate_chunks_flip :
    ∀ (chunks : List ℕ) (cob : ℚ) (order : Order) (st st' : St) (cid : ℕ)
      (c : Chunk), reactivate_chunks_go cob order st chunks = .ok st' →
      cid ∈ chunks → get_chunk st cid = some c →
      c.status = ChunkStatus.Idle →
      ¬ (cob + c.amount_usd > MAX_ORDERBOOK_USD_LIMIT) →
      get_chunk st' cid = some { c with status := ChunkStatus.Available } := by
  intro chunks
  induction chunks with
  | nil =>
    intro cob order st st' cid c h hcid
    exact absurd hcid (List.not_mem_nil _)
  | cons x rest ih =>
    intro cob order st st' cid c h hcid hg hidle hlim
    dsimp only [reactivate_chunks_go] at h
    by_cases hqx : cid = x
    · rw [← hqx] at h
      rw [hg] at h
      dsimp only at h
      rw [if_pos hidle] at h
      rw [if_neg hlim] at h
      have hg2 : st.chunks.find? (fun ch => ch.id == cid) = some c := hg
      have hcid_eq : c.id = cid := by simpa using List.find?_some hg2
      cases hu : update_chunk st c.id (fun c =>
          { c with status := ChunkStatus.Available }) with
      | error e =>
        rw [hu] at h
        exact Except.noConfusion h
      | ok st1 =>
        rw [hu] at h
        dsimp only at h
        cases ho : update_order st1 order.id (fun o =>
            { o with total_idle_usd := o.total_idle_usd - c.amount_usd }) with
        | error e =>
          rw [ho] at h
          exact Except.noConfusion h
        | ok st2 =>
          rw [ho] at h
          dsimp only at h
          have hu2 : update_chunk st cid (fun c =>
              { c with status := ChunkStatus.Available }) = .ok st1 := by
            rw [← hcid_eq]
            exact hu
          have h1 : get_chunk st1 cid =
              some { c with status := ChunkStatus.Available } := by
            rw [get_chunk_update_chunk_self hu2 (fun a => rfl), hg]
            rfl
          have h2 : get_chunk st2 cid =
              some { c with status := ChunkStatus.Available } :=
            (get_chunk_update_order_frame cid ho).trans h1
          exact reactivate_chunks_keep rest cob order st2 st' cid _ h h2
            (fun hh => ChunkStatus.noConfusion hh)
    · have hrest : cid ∈ rest := by
        cases List.mem_cons.mp hcid with
        | inl hh => exact absurd hh hqx
        | inr hh => exact hh
      cases hx : get_chunk st x with
      | none =>
        rw [hx] at h
        exact ih cob order st st' cid c h hrest hg hidle hlim
      | some chunk =>
        rw [hx] at h
        dsimp only at h
        by_cases hst : chunk.status = ChunkStatus.Idle
        · rw [if_pos hst] at h
          by_cases hlim2 : cob + chunk.amount_usd > MAX_ORDERBOOK_USD_LIMIT
          · rw [if_pos hlim2] at h
            exact ih cob order st st' cid c h hrest hg hidle hlim
          · rw [if_neg hlim2] at h
            cases hu : update_chunk st chunk.id (fun c =>
                { c with status := ChunkStatus.Available }) with
            | error e =>
              rw [hu] at h
              exact Except.noConfusion h
            | ok st1 =>
              rw [hu] at h
              dsimp only at h
              cases ho : update_order st1 order.id (fun o =>
                  { o with total_idle_usd :=
                    o.total_idle_usd - chunk.amount_usd }) with
              | error e =>
                rw [ho] at h
                exact Except.noConfusion h
              | ok st2 =>
                rw [ho] at h
                dsimp only at h
                have hx2 : st.chunks.find? (fun c => c.id == x) = some chunk := hx
                have hpx : chunk.id = x := by simpa using List.find?_some hx2
                have hq : cid ≠ chunk.id := by
                  rw [hpx]
                  exact hqx
                have hg1 : get_chunk st1 cid = get_chunk st cid :=
                  get_chunk_update_chunk_other cid hu (fun a => rfl) hq
                have hg2 : get_chunk st2 cid = get_chunk st1 cid :=
                  get_chunk_update_order_frame cid ho
                exact ih cob order st2 st' cid c h hrest
                  ((hg2.trans hg1).trans hg) hidle hlim
        · rw [if_neg hst] at h
          exact ih cob order st st' cid c h hrest hg hidle hlim

/-- A chunk that is not Idle survives any successful run of the order
loop unchanged. -/
theorem reactivate_orders_keep :
    ∀ (orders : List Order) (price cob : ℚ) (st st' : St) (cid : ℕ)
      (d : Chunk), reactivate_orders_go price cob st orders = .ok st' →
      get_chunk st cid = some d → d.status ≠ ChunkStatus.Idle →
      get_chunk st' cid = some d := by
  intro orders
  induction orders with
  | nil =>
    intro price cob st st' cid d h hg hs
    exact (Except.ok.inj h) ▸ hg
  | cons o rest ih =>
    intro price cob st st' cid d h hg hs
    dsimp only [reactivate_orders_go] at h
    by_cases hpo : price < o.max_bsv_price
    · rw [if_pos hpo] at h
      cases hc : reactivate_chunks_go cob o st o.chunks with
      | error e =>
        rw [hc] at h
        exact Except.noConfusion h
      | ok st1 =>
        rw [hc] at h
        dsimp only at h
        exact ih price cob st1 st' cid d h
          (reactivate_chunks_keep o.chunks cob o st st1 cid d hc hg hs) hs
    · rw [if_neg hpo] at h
      exact ih price cob st st' cid d h hg hs

/-- The universal positive direction of the amended C8: through a
successful run of the order loop, every Idle chunk of every listed order
whose maximum is strictly above the price ends Available when the
snapshot plus its amount stays within the orderbook ceiling. -/
theorem reactivate_orders_flip :
    ∀ (orders : List Order) (price cob : ℚ) (st st' : St) (order : Order)
      (cid : ℕ) (c : Chunk),
      reactivate_orders_go price cob st orders = .ok st' →
      order ∈ orders → price < order.max_bsv_price → cid ∈ order.chunks →
      get_chunk st cid = some c → c.status = ChunkStatus.Idle →
      ¬ (cob + c.amount_usd > MAX_ORDERBOOK_USD_LIMIT) →
      get_chunk st' cid = some { c with status := ChunkStatus.Available } := by
  intro orders
  induction orders with
  | nil =>
    intro price cob st st' order cid c h hord
    exact absurd hord (List.not_mem_nil _)
  | cons o rest ih =>
    intro price cob st st' order cid c h hord hp hcid hg hidle hlim
    dsimp only [reactivate_orders_go] at h
    by_cases hpo : price < o.max_bsv_price
    · rw [if_pos hpo] at h
      cases hc : reactivate_chunks_go cob o st o.chunks with
      | error e =>
        rw [hc] at h
        exact Except.noConfusion h
      | ok st1 =>
        rw [hc] at h
        dsimp only at h
        by_cases ho : order = o
        · have hcid2 : cid ∈ o.chunks := by
            rw [← ho]
            exact hcid
          have h1 : get_chunk st1 cid =
              some { c with status := ChunkStatus.Available } :=
            reactivate_chunks_flip o.chunks cob o st st1 cid c hc hcid2 hg
              hidle hlim
          exact reactivate_orders_keep rest price cob st1 st' cid _ h h1
            (fun hh => ChunkStatus.noConfusion hh)
        · have hrest : order ∈ rest := by
            cases List.mem_cons.mp hord with
            | inl hh => exact absurd hh ho
            | inr hh => exact hh
          cases reactivate_chunks_cases o.chunks cob o st st1 cid c hc hg with
          | inl hsame =>
            exact ih price cob st1 st' order cid c h hrest hp hcid hsame
              hidle hlim
          | inr hflip =>
            exact reactivate_orders_keep rest price cob st1 st' cid _ h hflip
              (fun hh => ChunkStatus.noConfusion hh)
    · rw [if_neg hpo] at h
      by_cases ho : order = o
      · exact absurd (by rw [← ho]; exact hp) hpo
      · have hrest : order ∈ rest := by
          cases List.mem_cons.mp hord with
          | inl hh => exact absurd hh ho
          | inr hh => exact hh
        exact ih price cob st st' order cid c h hrest hp hcid hg hidle hlim

/-- Counterexample to C8's "at `max_bsv_price` exactly equal to the
current price the order's Idle chunks are reactivated": at a current
price of $50 the Active order with maximum price exactly $50 is skipped
by the strict `<` comparison, the tick returns the state unchanged, and
its chunk stays Idle. -/
theorem c8_equality_not_reactivated :
    reactivate_idle_chunks c8St 50 = .ok c8St ∧
    (get_chunk c8St 0).map (fun c => c.status) = some ChunkStatus.Idle := by
  refine ⟨by decide, by decide⟩

/-- C8 (amended): reactivation uses a strict price comparison.  On a
tick at price `price`, an order whose `max_bsv_price` is less than or
equal to `price` is skipped entirely; an Idle chunk whose amount added
to the start-of-tick orderbook snapshot exceeds the $2000 ceiling stays
Idle; and, universally, every successful tick flips every Idle chunk of
every snapshot order whose maximum is strictly above the price to
Available whenever the snapshot plus the chunk's amount stays within
the ceiling. -/
theorem c8_reactivation_strict_price :
    (∀ (price cob : ℚ) (st : St) (order : Order) (rest : List Order),
      order.max_bsv_price ≤ price →
      reactivate_orders_go price cob st (order :: rest) =
        reactivate_orders_go price cob st rest) ∧
    (∀ (cob : ℚ) (order : Order) (st : St) (cid : ℕ) (rest : List ℕ)
        (c : Chunk), get_chunk st cid = some c →
      c.status = ChunkStatus.Idle →
      cob + c.amount_usd > MAX_ORDERBOOK_USD_LIMIT →
      reactivate_chunks_go cob order st (cid :: rest) =
        reactivate_chunks_go cob order st rest) ∧
    (∀ (st : St) (price : ℚ) (st' : St) (order : Order) (cid : ℕ)
        (c : Chunk),
      reactivate_idle_chunks st price = .ok st' →
      order ∈ get_active_orders_fifo st →
      price < order.max_bsv_price →
      cid ∈ order.chunks →
      get_chunk st cid = some c →
      c.status = ChunkStatus.Idle →
      ¬ (get_available_orderbook st + c.amount_usd >
        MAX_ORDERBOOK_USD_LIMIT) →
      get_chunk st' cid = some { c with status := ChunkStatus.Available }) := by
  refine ⟨?_, ?_, ?_⟩
  · intro price cob st order rest h
    have hn : ¬ (price < order.max_bsv_price) := not_lt.mpr h
    simp only [reactivate_orders_go, if_neg hn]
  · intro cob order st cid rest c hg hs hlim
    simp only [reactivate_chunks_go, hg, if_pos hs, if_pos hlim]
  · intro st price st' order cid c hrun hord hp hcid hg hidle hlim
    simp only [reactivate_idle_chunks] at hrun
    exact reactivate_orders_flip (get_active_orders_fifo st) price
      (get_available_orderbook st) st st' order cid c hrun hord hp hcid hg
      hidle hlim

/-- Witness for C8: at price exactly $50 the concrete order is skipped,
and a chunk that would push the snapshot over the ceiling is skipped. -/
theorem c8_reactivation_strict_price_witness :
    reactivate_orders_go 50 0 c8St [c8Order] =
      reactivate_orders_go 50 0 c8St [] ∧
    reactivate_chunks_go MAX_ORDERBOOK_USD_LIMIT c8Order c8St [0] =
      reactivate_chunks_go MAX_ORDERBOOK_USD_LIMIT c8Order c8St [] ∧
    get_chunk c8After 0 =
      some { c8Chunk with status := ChunkStatus.Available } :=
  ⟨c8_reactivation_strict_price.1 50 0 c8St c8Order [] (by decide),
   c8_reactivation_strict_price.2.1 MAX_ORDERBOOK_USD_LIMIT c8Order c8St 0 []
     c8Chunk (by decide) (by decide) (by decide),
   c8_reactivation_strict_price.2.2 c8St 49 c8After c8Order 0 c8Chunk
     (by decide) (by decide) (by decide) (by decide) (by decide) (by decide)
     (by decide)⟩

end EasySwap
